import Mathlib

/-!
# BGP-LS TLV codec of Quagga-TE: a shallow embedding

The decoders of `bgpd/bgp_ls_bgpls.c` (Link-State path attribute) and
`bgpd/bgp_bgpls_nlri.c` (Node / Link / Prefix NLRI descriptors) are written
here as functions on an explicit stream and an explicit attribute record.

* A decoder that returns gives `some` result.  A read that needs more bytes
  than the stream holds stops the run (`none`): in the C library such a read
  fails the stream bound check.
* Machine integers are natural numbers; every byte taken from the stream is
  reduced modulo 256, so a 16-bit field is below 65536 by construction.
* The `while` loops carry a fuel argument; the entry points supply the number
  of readable bytes, and `stream_while_fuel` shows that more fuel never changes
  the outcome.
-/

set_option autoImplicit false

namespace BgpLs

/-! ## The input stream -/

/-- Modelled from the spec: `struct stream` (lib/stream.h), which the decoders
read through, is not among the sources.  The spec's TLV cursor is "a
bounds-checked reader over a byte buffer": `data` is the buffer up to the
stream's end pointer and `getp` the read position. -/
structure stream where
  data : List Nat
  getp : Nat
deriving DecidableEq, Repr

/-- Modelled from the spec: the number of bytes between the read position and
the end of the buffer (`STREAM_READABLE` of lib/stream.c). -/
def STREAM_READABLE (s : stream) : Nat := s.data.length - s.getp

/-- Modelled from the spec: `stream_get_getp` of lib/stream.c, the current read
position. -/
def stream_get_getp (s : stream) : Nat := s.getp

/-- Modelled from the spec: `stream_get` of lib/stream.c, the spec's
`read_value(buf, pos, length) -> (slice, new_pos)`, which "fails ... if
`length` bytes are not available".  The bytes copied out are returned. -/
def stream_get (s : stream) (size : Nat) : Option (List Nat × stream) :=
  if STREAM_READABLE s < size then none
  else some (((s.data.drop s.getp).take size).map (fun b => b % 256),
             ⟨s.data, s.getp + size⟩)

/-- Value of a byte string in network byte order (most significant first). -/
def be_value (bs : List Nat) : Nat := bs.foldl (fun acc b => acc * 256 + b) 0

/-- Modelled from the spec: a scalar of `size` bytes in network byte order
("Scalar numeric (u8/u16/u32/u64), network-byte-order on the wire"). -/
def stream_getn (s : stream) (size : Nat) : Option (Nat × stream) :=
  match stream_get s size with
  | none => none
  | some (bs, s1) => some (be_value bs, s1)

/-- Modelled from the spec: `stream_getc` of lib/stream.c (one byte). -/
def stream_getc (s : stream) : Option (Nat × stream) := stream_getn s 1

/-- Modelled from the spec: `stream_getw` of lib/stream.c (16 bits). -/
def stream_getw (s : stream) : Option (Nat × stream) := stream_getn s 2

/-- Modelled from the spec: `stream_getl` of lib/stream.c (32 bits). -/
def stream_getl (s : stream) : Option (Nat × stream) := stream_getn s 4

/-- Modelled from the spec: `stream_getq` of lib/stream.c (64 bits). -/
def stream_getq (s : stream) : Option (Nat × stream) := stream_getn s 8

/-- Modelled from the spec: `stream_get_ipv4` of lib/stream.c; the four address
bytes are kept in wire order, as `s_addr` holds them. -/
def stream_get_ipv4 (s : stream) : Option (List Nat × stream) := stream_get s 4

/-! ## Constants of `bgp_ls.h` -/

abbrev BGP_NLRI_TLV_LOCAL_NODE_DESCRIPTORS : Nat := 256
abbrev BGP_NLRI_TLV_REMOTE_NODE_DESCRIPTORS : Nat := 257
abbrev BGP_NLRI_TLV_AUTONOMOUS_SYSTEM : Nat := 512
abbrev BGP_NLRI_TLV_BGP_LS_IDENTIFIER : Nat := 513
abbrev BGP_NLRI_TLV_AREA_ID : Nat := 514
abbrev BGP_NLRI_TLV_IGP_ROUTER_ID : Nat := 515
abbrev BGP_NLRI_TLV_LINK_LOCAL_REMOTE_IDENTIFIERS : Nat := 258
abbrev BGP_NLRI_TLV_IPV4_INTERFACE_ADDRESS : Nat := 259
abbrev BGP_NLRI_TLV_IPV4_NEIGHBOR_ADDRESS : Nat := 260
abbrev BGP_NLRI_TLV_IPV6_INTERFACE_ADDRESS : Nat := 261
abbrev BGP_NLRI_TLV_IPV6_NEIGHBOR_ADDRESS : Nat := 262
abbrev BGP_NLRI_TLV_MULTI_TOPOLOGY_ID : Nat := 263
abbrev BGP_NLRI_TLV_OSPF_ROUTE_TYPE : Nat := 264
abbrev BGP_NLRI_TLV_IP_REACHABILITY_INFORMATION : Nat := 265
abbrev BGP_NLRI_TLV_NODE_FLAG_BITS : Nat := 1024
abbrev BGP_NLRI_TLV_OPAQUE_NODE_PROPERTIES : Nat := 1025
abbrev BGP_NLRI_TLV_NODE_NAME : Nat := 1026
abbrev BGP_NLRI_TLV_IS_IS_AREA_IDENTIFIER : Nat := 1027
abbrev BGP_NLRI_TLV_IPV4_ROUTER_ID_OF_LOCAL_NODE : Nat := 1028
abbrev BGP_NLRI_TLV_IPV6_ROUTER_ID_OF_LOCAL_NODE : Nat := 1029
abbrev BGP_NLRI_TLV_IPV4_ROUTER_ID_OF_REMOTE_NODE : Nat := 1030
abbrev BGP_NLRI_TLV_IPV6_ROUTER_ID_OF_REMOTE_NODE : Nat := 1031
abbrev BGP_NLRI_TLV_ADMINISTRATIVE_GROUP_COLOR : Nat := 1088
abbrev BGP_NLRI_TLV_MAX_LINK_BANDWIDTH : Nat := 1089
abbrev BGP_NLRI_TLV_MAX_RESERVABLE_LINK_BANDWIDTH : Nat := 1090
abbrev BGP_NLRI_TLV_UNRESERVED_BANDWIDTH : Nat := 1091
abbrev BGP_NLRI_TLV_TE_DEFAULT_METRIC : Nat := 1092
abbrev BGP_NLRI_TLV_LINK_PROTECTION_TYPE : Nat := 1093
abbrev BGP_NLRI_TLV_MPLS_PROTOCOL_MASK : Nat := 1094
abbrev BGP_NLRI_TLV_IGP_METRIC : Nat := 1095
abbrev BGP_NLRI_TLV_SHARED_RISK_LINK_GROUP : Nat := 1096
abbrev BGP_NLRI_TLV_OPAQUE_LINK_ATTRIBUTE : Nat := 1097
abbrev BGP_NLRI_TLV_LINK_NAME_ATTRIBUTE : Nat := 1098
abbrev BGP_NLRI_TLV_IGP_FLAGS : Nat := 1152
abbrev BGP_NLRI_TLV_ROUTE_TAG : Nat := 1153
abbrev BGP_NLRI_TLV_EXTENDED_TAG : Nat := 1154
abbrev BGP_NLRI_TLV_PREFIX_METRIC : Nat := 1155
abbrev BGP_NLRI_TLV_OSPF_FORWARDING_ADDRESS : Nat := 1156
abbrev BGP_NLRI_TLV_OPAQUE_PREFIX_ATTRIBUTE : Nat := 1157

abbrev BGP_NLRI_TLV_LEN_AUTONOMOUS_SYSTEM : Nat := 4
abbrev BGP_NLRI_TLV_LEN_BGP_LS_IDENTIFIER : Nat := 4
abbrev BGP_NLRI_TLV_LEN_AREA_ID : Nat := 4
abbrev BGP_NLRI_TLV_LEN_IPV6_ROUTER_ID : Nat := 16
abbrev BGP_NLRI_TLV_LEN_IPV6_ROUTER_ID_OF_LOCAL_NODE : Nat := BGP_NLRI_TLV_LEN_IPV6_ROUTER_ID
abbrev BGP_NLRI_TLV_LEN_IPV6_INTERFACE_ADDRESS : Nat := 16
abbrev BGP_NLRI_TLV_LEN_IPV6_NEIGHBOR_ADDRESS : Nat := 16
abbrev BGP_NLRI_TLV_LEN_ADMINISTRATIVE_GROUP_COLOR : Nat := 4
abbrev BGP_NLRI_TLV_LEN_UNRESERVED_BANDWIDTH : Nat := 32
abbrev BGP_NLRI_TLV_LEN_NODE_FLAG_BITS : Nat := 1
abbrev BGP_NLRI_TLV_LEN_IPV6_FOWARDING_ADDRESS : Nat := 16

abbrev BGP_NLRI_IS_IS_NON_PSEUDONODE : Nat := 6
abbrev BGP_NLRI_IS_IS_PSEUDONODE : Nat := 7
abbrev BGP_NLRI_OSPF_NON_PSEUDONODE : Nat := 4
abbrev BGP_NLRI_OSPF_PSEUDONODE : Nat := 8

/-- Modelled from the spec: the result type of the attribute parser
(`bgp_attr_parse_ret_t` of bgpd/bgp_attr.h, not among the sources); the
decoders use two of its values. -/
inductive bgp_attr_parse_ret_t where
  | BGP_ATTR_PARSE_PROCEED
  | BGP_ATTR_PARSE_ERROR_NOTIFYPLS
deriving DecidableEq, Repr

open bgp_attr_parse_ret_t

/-! ## The decoded records of `bgp_ls.h` -/

/-- Storing `src` at the start of a destination that holds `dst`: the first
`src.length` bytes are replaced (`memcpy`). -/
def memcpy (dst src : List Nat) : List Nat := src ++ dst.drop src.length

/-- The assignment `a[i] = v` through a C array or pointer: cell `i` is
replaced; a cell past the cells known so far is appended (cells skipped
in between read 0). -/
def array_store (a : List Nat) (i v : Nat) : List Nat :=
  if i < a.length then a.set i v else a ++ List.replicate (i - a.length) 0 ++ [v]

/-- The record `struct bgp_nlri_tlv_lrnd`, a header and one member
`void *value`.  The decoders copy into two different places: the storage of the
member itself (destination `&node->value`, field `value`) and the buffer the
member points to (destination `node->value`, field `value_target`).  The two
fields are kept apart: `value_target` is the buffer the member pointed to when
the decoder was entered, and a copy through the member is taken to reach it
also after bytes have been copied over the member itself.  What the C code
does with a pointer made of such bytes is not modelled, so a result that
follows an IGP Router-ID copy by a copy through the member says where the
read position goes, not that the C run gets there. -/
structure bgp_nlri_tlv_lrnd where
  value : List Nat
  value_target : List Nat
deriving DecidableEq, Repr

/-- The record `struct mp_bgpls_nlri`: the fields the NLRI decoders
assign.  `mid` is the array `mid->value[]`, `ipreach_value` the storage of the
member `ipreach->value`. -/
structure mp_bgpls_nlri where
  proto_id : Nat
  nlri_identifier : Nat
  local_node : bgp_nlri_tlv_lrnd
  remote_node : bgp_nlri_tlv_lrnd
  llri_local : Nat
  llri_remote : Nat
  i4ia : List Nat
  i4na : List Nat
  i6ia : List Nat
  i6na : List Nat
  mid : List Nat
  ort : Nat
  ipreach_prefix : Nat
  ipreach_value : List Nat
deriving DecidableEq, Repr

/-- The record `struct ls_bgpls`: the fields `bgp_link_state_decode`
reads or assigns.  The bandwidth members `mlb.value`, `mrlb.value` and
`urb.value[i]` are C floats; every value they are assigned is a whole number,
and that number is what is kept here.  `urb` is the array
`urb.value[8]`, `srlg`, `rt` and `et` the arrays behind the `value`
pointers. -/
structure ls_bgpls where
  header_nlri_length : Nat
  nfb : Nat
  i4ridofln : List Nat
  i4ridofrn : List Nat
  agc : Nat
  mlb : Nat
  mrlb : Nat
  urb : List Nat
  tdm : Nat
  lpt : Nat
  mpm : Nat
  srlg : List Nat
  ifl : Nat
  rt : List Nat
  et : List Nat
  pm : Nat
  ofa_addr4 : List Nat
deriving DecidableEq, Repr

/-- The two records of `struct attr` the decoders write to. -/
structure attr where
  mp_bgpls_nlri : mp_bgpls_nlri
  link_state_attr : ls_bgpls
deriving DecidableEq, Repr

/-- The arguments `struct bgp_attr_parser_args`: the attribute length and the
attribute record. -/
structure bgp_attr_parser_args where
  length : Nat
  attr : attr
deriving DecidableEq, Repr

/-- The distance between neighbouring values of the C type `float` (24 bits of
significand) at a value `n` below 2^32. -/
def float_spacing (n : Nat) : Nat :=
  if n < 16777216 then 1
  else if n < 33554432 then 2
  else if n < 67108864 then 4
  else if n < 134217728 then 8
  else if n < 268435456 then 16
  else if n < 536870912 then 32
  else if n < 1073741824 then 64
  else if n < 2147483648 then 128
  else 256

/-- The conversion of the assignment `float = u_int32_t`: the nearest value of the type
`float`, and of two nearest ones the one with an even significand. -/
def u32_to_float (n : Nat) : Nat :=
  let g := float_spacing n
  let q := n / g
  let r := n % g
  if 2 * r < g then q * g
  else if g < 2 * r then (q + 1) * g
  else if q % 2 = 0 then q * g
  else (q + 1) * g

/-- A read followed by the assignment of what was read: the result of the read
`r`, when there is one, is handed to `f`, and the stream is passed on. -/
def read_then {α β : Type} (r : Option (α × stream)) (f : α → β) : Option (β × stream) :=
  match r with
  | none => none
  | some (v, s1) => some (f v, s1)

/-- The loop `for (i = 0; i <= (n - 1); i++) a[i] = get(s);` after `i`
rounds, with `n` rounds to go. -/
def read_array (get : stream → Option (Nat × stream)) :
    Nat → Nat → List Nat → stream → Option (List Nat × stream)
  | 0, _, a, s => some (a, s)
  | n + 1, i, a, s =>
    match get s with
    | none => none
    | some (v, s1) => read_array get n (i + 1) (array_store a i v) s1

/-- The right-hand side `stream_getl(s)` of an assignment to a `float`. -/
def stream_getl_float (s : stream) : Option (Nat × stream) :=
  read_then (stream_getl s) u32_to_float

/-- The loop `while (stream_get_getp(s) < endp) body` of the decoders, with
`fuel` rounds allowed; `body` is one pass through the loop body, on the record
being filled and the stream. -/
def stream_while {σ : Type} (body : σ → stream → Option (σ × stream)) (endp : Nat) :
    Nat → σ → stream → Option (σ × stream)
  | 0, a, s => if stream_get_getp s < endp then none else some (a, s)
  | fuel + 1, a, s =>
    if stream_get_getp s < endp then
      match body a s with
      | none => none
      | some (a1, s1) => stream_while body endp fuel a1 s1
    else some (a, s)

/-! ## `bgp_link_state_decode` (bgp_ls_bgpls.c) -/

/-- The `switch (ls_type)` of `bgp_link_state_decode`, entered after the
header of a sub-TLV has been read.  The byte arrays the variable-length
cases, the two IPv6 Router-ID cases and the 16-byte forwarding address copy
into are locals of the function (`char nn[ls_length]` and the like, declared
before `ls_length` has a value): the copy is taken to fit, and only the read
position keeps a trace of it.  So a result of these cases says what the run
does when the array holds the bytes; whether it does is not modelled.  The
IPv6 cases are those of a build with `HAVE_IPV6`. -/
def ls_decode_value (ls_type ls_length : Nat) (a : attr) (s : stream) :
    Option (attr × stream) :=
  if ls_type = BGP_NLRI_TLV_MULTI_TOPOLOGY_ID then
    match stream_getw s with
    | none => none
    | some (_mid_type, s1) =>
      match stream_getw s1 with
      | none => none
      | some (mid_length, s2) =>
        read_then (read_array stream_getw (mid_length / 2) 0 a.mp_bgpls_nlri.mid s2)
          (fun v => { a with mp_bgpls_nlri := { a.mp_bgpls_nlri with mid := v } })
  else if ls_type = BGP_NLRI_TLV_NODE_FLAG_BITS then
    read_then (stream_getc s)
      (fun v => { a with link_state_attr := { a.link_state_attr with nfb := v } })
  else if ls_type = BGP_NLRI_TLV_OPAQUE_NODE_PROPERTIES then
    read_then (stream_get s ls_length) (fun _ => a)
  else if ls_type = BGP_NLRI_TLV_NODE_NAME then
    read_then (stream_get s ls_length) (fun _ => a)
  else if ls_type = BGP_NLRI_TLV_IS_IS_AREA_IDENTIFIER then
    read_then (stream_get s ls_length) (fun _ => a)
  else if ls_type = BGP_NLRI_TLV_IPV4_ROUTER_ID_OF_LOCAL_NODE then
    read_then (stream_get_ipv4 s)
      (fun v => { a with link_state_attr := { a.link_state_attr with i4ridofln := v } })
  else if ls_type = BGP_NLRI_TLV_IPV6_ROUTER_ID_OF_LOCAL_NODE then
    read_then (stream_get s BGP_NLRI_TLV_LEN_IPV6_ROUTER_ID_OF_LOCAL_NODE) (fun _ => a)
  else if ls_type = BGP_NLRI_TLV_IPV4_ROUTER_ID_OF_REMOTE_NODE then
    read_then (stream_get_ipv4 s)
      (fun v => { a with link_state_attr := { a.link_state_attr with i4ridofrn := v } })
  else if ls_type = BGP_NLRI_TLV_IPV6_ROUTER_ID_OF_REMOTE_NODE then
    read_then (stream_get s BGP_NLRI_TLV_LEN_IPV6_ROUTER_ID_OF_LOCAL_NODE) (fun _ => a)
  else if ls_type = BGP_NLRI_TLV_ADMINISTRATIVE_GROUP_COLOR then
    read_then (stream_getl s)
      (fun v => { a with link_state_attr := { a.link_state_attr with agc := v } })
  else if ls_type = BGP_NLRI_TLV_MAX_LINK_BANDWIDTH then
    read_then (stream_getl_float s)
      (fun v => { a with link_state_attr := { a.link_state_attr with mlb := v } })
  else if ls_type = BGP_NLRI_TLV_MAX_RESERVABLE_LINK_BANDWIDTH then
    read_then (stream_getl_float s)
      (fun v => { a with link_state_attr := { a.link_state_attr with mrlb := v } })
  else if ls_type = BGP_NLRI_TLV_UNRESERVED_BANDWIDTH then
    read_then
      (read_array stream_getl_float a.link_state_attr.header_nlri_length 0 a.link_state_attr.urb s)
      (fun v => { a with link_state_attr := { a.link_state_attr with urb := v } })
  else if ls_type = BGP_NLRI_TLV_TE_DEFAULT_METRIC then
    read_then (stream_getl s)
      (fun v => { a with link_state_attr := { a.link_state_attr with tdm := v } })
  else if ls_type = BGP_NLRI_TLV_LINK_PROTECTION_TYPE then
    read_then (stream_getw s)
      (fun v => { a with link_state_attr := { a.link_state_attr with lpt := v } })
  else if ls_type = BGP_NLRI_TLV_MPLS_PROTOCOL_MASK then
    read_then (stream_getc s)
      (fun v => { a with link_state_attr := { a.link_state_attr with mpm := v } })
  else if ls_type = BGP_NLRI_TLV_IGP_METRIC then
    read_then (stream_get s ls_length) (fun _ => a)
  else if ls_type = BGP_NLRI_TLV_SHARED_RISK_LINK_GROUP then
    read_then (read_array stream_getl (ls_length / 4) 0 a.link_state_attr.srlg s)
      (fun v => { a with link_state_attr := { a.link_state_attr with srlg := v } })
  else if ls_type = BGP_NLRI_TLV_OPAQUE_LINK_ATTRIBUTE then
    read_then (stream_get s ls_length) (fun _ => a)
  else if ls_type = BGP_NLRI_TLV_LINK_NAME_ATTRIBUTE then
    read_then (stream_get s ls_length) (fun _ => a)
  else if ls_type = BGP_NLRI_TLV_IGP_FLAGS then
    read_then (stream_getc s)
      (fun v => { a with link_state_attr := { a.link_state_attr with ifl := v } })
  else if ls_type = BGP_NLRI_TLV_ROUTE_TAG then
    read_then (read_array stream_getl (ls_length / 4) 0 a.link_state_attr.rt s)
      (fun v => { a with link_state_attr := { a.link_state_attr with rt := v } })
  else if ls_type = BGP_NLRI_TLV_EXTENDED_TAG then
    read_then (read_array stream_getq (ls_length / 8) 0 a.link_state_attr.et s)
      (fun v => { a with link_state_attr := { a.link_state_attr with et := v } })
  else if ls_type = BGP_NLRI_TLV_PREFIX_METRIC then
    read_then (stream_getl s)
      (fun v => { a with link_state_attr := { a.link_state_attr with pm := v } })
  else if ls_type = BGP_NLRI_TLV_OSPF_FORWARDING_ADDRESS then
    if ls_length = 4 then
      read_then (stream_get_ipv4 s)
        (fun v => { a with link_state_attr := { a.link_state_attr with ofa_addr4 := v } })
    else if ls_length = 16 then
      read_then (stream_get s BGP_NLRI_TLV_LEN_IPV6_FOWARDING_ADDRESS) (fun _ => a)
    else some (a, s)
  else if ls_type = BGP_NLRI_TLV_OPAQUE_PREFIX_ATTRIBUTE then
    read_then (stream_get s ls_length) (fun _ => a)
  else some (a, s)

/-- One round of the `while` loop of `bgp_link_state_decode`: the two
`stream_getw` of the header, then the `switch`. -/
def ls_decode_tlv (a : attr) (s : stream) : Option (attr × stream) :=
  match stream_getw s with
  | none => none
  | some (ls_type, s1) =>
    match stream_getw s1 with
    | none => none
    | some (ls_length, s2) => ls_decode_value ls_type ls_length a s2

/-- The function `bgp_link_state_decode(args, s)`: `endp` is the read position plus
`args->length`; the result is the attribute record and the stream when the
function returns.  Every round reads the four header bytes, so the readable
bytes bound the number of rounds. -/
def bgp_link_state_decode (args : bgp_attr_parser_args) (s : stream) :
    Option (attr × stream) :=
  let endp := stream_get_getp s + args.length
  stream_while ls_decode_tlv endp (STREAM_READABLE s) args.attr s

/-! ## The NLRI decoders (bgp_bgpls_nlri.c) -/

/-- The call `stream_get(attr->mp_bgpls_nlri->local_node->value, s, n)`: the bytes
read go to the buffer the member `value` points to. -/
def copy_local_value (m : mp_bgpls_nlri) (v : List Nat) : mp_bgpls_nlri :=
  { m with local_node := { m.local_node with value_target := memcpy m.local_node.value_target v } }

/-- The call `stream_get(&attr->mp_bgpls_nlri->local_node->value, s, n)`: the bytes
read go to the storage of the member `value` itself. -/
def copy_local_value_addr (m : mp_bgpls_nlri) (v : List Nat) : mp_bgpls_nlri :=
  { m with local_node := { m.local_node with value := memcpy m.local_node.value v } }

/-- The call `stream_get(&attr->mp_bgpls_nlri->remote_node->value, s, n)`. -/
def copy_remote_value_addr (m : mp_bgpls_nlri) (v : List Nat) : mp_bgpls_nlri :=
  { m with remote_node := { m.remote_node with value := memcpy m.remote_node.value v } }

/-- The `switch (node_type)` of `bgp_mp_node_decode` with the header reads
before it: Autonomous System, BGP-LS Identifier and Area-ID are copied to
`local_node->value`, the IGP Router-ID, by its length, to
`&local_node->value`. -/
def node_decode_subtlv (m : mp_bgpls_nlri) (s : stream) : Option (mp_bgpls_nlri × stream) :=
  match stream_getw s with
  | none => none
  | some (node_type, s1) =>
    match stream_getw s1 with
    | none => none
    | some (node_length, s2) =>
      if node_type = BGP_NLRI_TLV_AUTONOMOUS_SYSTEM then
        read_then (stream_get s2 BGP_NLRI_TLV_LEN_AUTONOMOUS_SYSTEM)
          (fun v => copy_local_value m v)
      else if node_type = BGP_NLRI_TLV_BGP_LS_IDENTIFIER then
        read_then (stream_get s2 BGP_NLRI_TLV_LEN_BGP_LS_IDENTIFIER)
          (fun v => copy_local_value m v)
      else if node_type = BGP_NLRI_TLV_AREA_ID then
        read_then (stream_get s2 BGP_NLRI_TLV_LEN_AREA_ID) (fun v => copy_local_value m v)
      else if node_type = BGP_NLRI_TLV_IGP_ROUTER_ID then
        if node_length = BGP_NLRI_IS_IS_NON_PSEUDONODE then
          read_then (stream_get s2 BGP_NLRI_IS_IS_NON_PSEUDONODE)
            (fun v => copy_local_value_addr m v)
        else if node_length = BGP_NLRI_IS_IS_PSEUDONODE then
          read_then (stream_get s2 BGP_NLRI_IS_IS_PSEUDONODE) (fun v => copy_local_value_addr m v)
        else if node_length = BGP_NLRI_OSPF_NON_PSEUDONODE then
          read_then (stream_get s2 BGP_NLRI_OSPF_NON_PSEUDONODE)
            (fun v => copy_local_value_addr m v)
        else if node_length = BGP_NLRI_OSPF_PSEUDONODE then
          read_then (stream_get s2 BGP_NLRI_OSPF_PSEUDONODE) (fun v => copy_local_value_addr m v)
        else some (m, s2)
      else some (m, s2)

/-- The function `bgp_mp_node_decode(args, s)`.  The outer type is only logged when it
is not 256.  The `while` body ends in an unconditional `break`, so the loop
runs its body at most once. -/
def bgp_mp_node_decode (args : bgp_attr_parser_args) (s : stream) :
    Option (attr × stream × bgp_attr_parse_ret_t) :=
  match stream_getc s with
  | none => none
  | some (proto_id, s1) =>
    match stream_getq s1 with
    | none => none
    | some (nlri_identifier, s2) =>
      match stream_getw s2 with
      | none => none
      | some (_type, s3) =>
        match stream_getw s3 with
        | none => none
        | some (length, s4) =>
          let m := { args.attr.mp_bgpls_nlri with
                     proto_id := proto_id, nlri_identifier := nlri_identifier }
          let nlri_node_endp := stream_get_getp s4 + length
          if stream_get_getp s4 < nlri_node_endp then
            match node_decode_subtlv m s4 with
            | none => none
            | some (m1, s5) =>
              some ({ args.attr with mp_bgpls_nlri := m1 }, s5, BGP_ATTR_PARSE_PROCEED)
          else some ({ args.attr with mp_bgpls_nlri := m }, s4, BGP_ATTR_PARSE_PROCEED)

/-- The loop body of case `BGP_NLRI_TLV_LOCAL_NODE_DESCRIPTORS` in
`bgp_mp_link_decode`. -/
def link_decode_local_subtlv (m : mp_bgpls_nlri) (s : stream) :
    Option (mp_bgpls_nlri × stream) :=
  match stream_getw s with
  | none => none
  | some (node_type, s1) =>
    match stream_getw s1 with
    | none => none
    | some (node_length, s2) =>
      if node_type = BGP_NLRI_TLV_AUTONOMOUS_SYSTEM then
        read_then (stream_get s2 BGP_NLRI_TLV_LEN_AUTONOMOUS_SYSTEM)
          (fun v => copy_local_value m v)
      else if node_type = BGP_NLRI_TLV_BGP_LS_IDENTIFIER then
        read_then (stream_get s2 BGP_NLRI_TLV_LEN_BGP_LS_IDENTIFIER)
          (fun v => copy_local_value m v)
      else if node_type = BGP_NLRI_TLV_AREA_ID then
        read_then (stream_get s2 BGP_NLRI_TLV_LEN_AREA_ID) (fun v => copy_local_value m v)
      else if node_type = BGP_NLRI_TLV_IGP_ROUTER_ID then
        if node_length = BGP_NLRI_IS_IS_NON_PSEUDONODE then
          read_then (stream_get s2 BGP_NLRI_IS_IS_NON_PSEUDONODE)
            (fun v => copy_local_value_addr m v)
        else if node_length = BGP_NLRI_IS_IS_PSEUDONODE then
          read_then (stream_get s2 BGP_NLRI_IS_IS_PSEUDONODE) (fun v => copy_local_value_addr m v)
        else if node_length = BGP_NLRI_OSPF_NON_PSEUDONODE then
          read_then (stream_get s2 BGP_NLRI_OSPF_NON_PSEUDONODE)
            (fun v => copy_local_value_addr m v)
        else if node_length = BGP_NLRI_OSPF_PSEUDONODE then
          read_then (stream_get s2 BGP_NLRI_OSPF_PSEUDONODE) (fun v => copy_local_value_addr m v)
        else some (m, s2)
      else some (m, s2)

/-- The loop body of case `BGP_NLRI_TLV_REMOTE_NODE_DESCRIPTORS` in
`bgp_mp_link_decode`: the first three sub-TLVs are copied to
`local_node->value`, the IGP Router-ID to `&remote_node->value`. -/
def link_decode_remote_subtlv (m : mp_bgpls_nlri) (s : stream) :
    Option (mp_bgpls_nlri × stream) :=
  match stream_getw s with
  | none => none
  | some (node_type, s1) =>
    match stream_getw s1 with
    | none => none
    | some (node_length, s2) =>
      if node_type = BGP_NLRI_TLV_AUTONOMOUS_SYSTEM then
        read_then (stream_get s2 BGP_NLRI_TLV_LEN_AUTONOMOUS_SYSTEM)
          (fun v => copy_local_value m v)
      else if node_type = BGP_NLRI_TLV_BGP_LS_IDENTIFIER then
        read_then (stream_get s2 BGP_NLRI_TLV_LEN_BGP_LS_IDENTIFIER)
          (fun v => copy_local_value m v)
      else if node_type = BGP_NLRI_TLV_AREA_ID then
        read_then (stream_get s2 BGP_NLRI_TLV_LEN_AREA_ID) (fun v => copy_local_value m v)
      else if node_type = BGP_NLRI_TLV_IGP_ROUTER_ID then
        if node_length = BGP_NLRI_IS_IS_NON_PSEUDONODE then
          read_then (stream_get s2 BGP_NLRI_IS_IS_NON_PSEUDONODE)
            (fun v => copy_remote_value_addr m v)
        else if node_length = BGP_NLRI_IS_IS_PSEUDONODE then
          read_then (stream_get s2 BGP_NLRI_IS_IS_PSEUDONODE) (fun v => copy_remote_value_addr m v)
        else if node_length = BGP_NLRI_OSPF_NON_PSEUDONODE then
          read_then (stream_get s2 BGP_NLRI_OSPF_NON_PSEUDONODE)
            (fun v => copy_remote_value_addr m v)
        else if node_length = BGP_NLRI_OSPF_PSEUDONODE then
          read_then (stream_get s2 BGP_NLRI_OSPF_PSEUDONODE) (fun v => copy_remote_value_addr m v)
        else some (m, s2)
      else some (m, s2)

/-- The `switch (type)` of `bgp_mp_link_decode`, entered after the outer header.
Every case other than the two node descriptors first reads a second header
(`node_type`, `node_length`).  Case 262 stores to `i6ia`, as case 261 does; both
are the cases of a build with `HAVE_IPV6`. -/
def link_decode_switch (type length : Nat) (m : mp_bgpls_nlri) (s : stream) :
    Option (mp_bgpls_nlri × stream) :=
  let nlri_node_endp := stream_get_getp s + length
  if type = BGP_NLRI_TLV_LOCAL_NODE_DESCRIPTORS then
    stream_while link_decode_local_subtlv nlri_node_endp (STREAM_READABLE s) m s
  else if type = BGP_NLRI_TLV_REMOTE_NODE_DESCRIPTORS then
    stream_while link_decode_remote_subtlv nlri_node_endp (STREAM_READABLE s) m s
  else if type = BGP_NLRI_TLV_LINK_LOCAL_REMOTE_IDENTIFIERS then
    match stream_getw s with
    | none => none
    | some (_node_type, s1) =>
      match stream_getw s1 with
      | none => none
      | some (_node_length, s2) =>
        match stream_getw s2 with
        | none => none
        | some (loc, s3) =>
          read_then (stream_getw s3) (fun rem => { m with llri_local := loc, llri_remote := rem })
  else if type = BGP_NLRI_TLV_IPV4_INTERFACE_ADDRESS then
    match stream_getw s with
    | none => none
    | some (_node_type, s1) =>
      match stream_getw s1 with
      | none => none
      | some (_node_length, s2) =>
        read_then (stream_get_ipv4 s2) (fun v => { m with i4ia := v })
  else if type = BGP_NLRI_TLV_IPV4_NEIGHBOR_ADDRESS then
    match stream_getw s with
    | none => none
    | some (_node_type, s1) =>
      match stream_getw s1 with
      | none => none
      | some (_node_length, s2) =>
        read_then (stream_get_ipv4 s2) (fun v => { m with i4na := v })
  else if type = BGP_NLRI_TLV_IPV6_INTERFACE_ADDRESS then
    match stream_getw s with
    | none => none
    | some (_node_type, s1) =>
      match stream_getw s1 with
      | none => none
      | some (_node_length, s2) =>
        read_then (stream_get s2 BGP_NLRI_TLV_LEN_IPV6_INTERFACE_ADDRESS)
          (fun v => { m with i6ia := memcpy m.i6ia v })
  else if type = BGP_NLRI_TLV_IPV6_NEIGHBOR_ADDRESS then
    match stream_getw s with
    | none => none
    | some (_node_type, s1) =>
      match stream_getw s1 with
      | none => none
      | some (_node_length, s2) =>
        read_then (stream_get s2 BGP_NLRI_TLV_LEN_IPV6_NEIGHBOR_ADDRESS)
          (fun v => { m with i6ia := memcpy m.i6ia v })
  else if type = BGP_NLRI_TLV_MULTI_TOPOLOGY_ID then
    match stream_getw s with
    | none => none
    | some (_node_type, s1) =>
      match stream_getw s1 with
      | none => none
      | some (node_length, s2) =>
        read_then (read_array stream_getw (node_length / 2) 0 m.mid s2)
          (fun v => { m with mid := v })
  else some (m, s)

/-- The function `bgp_mp_link_decode(args, s)`: protocol id, NLRI identifier, one outer
header, the `switch` on its type, and `return BGP_ATTR_PARSE_PROCEED`. -/
def bgp_mp_link_decode (args : bgp_attr_parser_args) (s : stream) :
    Option (attr × stream × bgp_attr_parse_ret_t) :=
  match stream_getc s with
  | none => none
  | some (proto_id, s1) =>
    match stream_getq s1 with
    | none => none
    | some (nlri_identifier, s2) =>
      match stream_getw s2 with
      | none => none
      | some (type, s3) =>
        match stream_getw s3 with
        | none => none
        | some (length, s4) =>
          let m := { args.attr.mp_bgpls_nlri with
                     proto_id := proto_id, nlri_identifier := nlri_identifier }
          match link_decode_switch type length m s4 with
          | none => none
          | some (m1, s5) =>
            some ({ args.attr with mp_bgpls_nlri := m1 }, s5, BGP_ATTR_PARSE_PROCEED)

/-- The loop body of case `BGP_NLRI_TLV_LOCAL_NODE_DESCRIPTORS` in
`bgp_mp_prefix_decode`. -/
def prefix_decode_local_subtlv (m : mp_bgpls_nlri) (s : stream) :
    Option (mp_bgpls_nlri × stream) :=
  match stream_getw s with
  | none => none
  | some (node_type, s1) =>
    match stream_getw s1 with
    | none => none
    | some (node_length, s2) =>
      if node_type = BGP_NLRI_TLV_AUTONOMOUS_SYSTEM then
        read_then (stream_get s2 BGP_NLRI_TLV_LEN_AUTONOMOUS_SYSTEM)
          (fun v => copy_local_value m v)
      else if node_type = BGP_NLRI_TLV_BGP_LS_IDENTIFIER then
        read_then (stream_get s2 BGP_NLRI_TLV_LEN_BGP_LS_IDENTIFIER)
          (fun v => copy_local_value m v)
      else if node_type = BGP_NLRI_TLV_AREA_ID then
        read_then (stream_get s2 BGP_NLRI_TLV_LEN_AREA_ID) (fun v => copy_local_value m v)
      else if node_type = BGP_NLRI_TLV_IGP_ROUTER_ID then
        if node_length = BGP_NLRI_IS_IS_NON_PSEUDONODE then
          read_then (stream_get s2 BGP_NLRI_IS_IS_NON_PSEUDONODE)
            (fun v => copy_local_value_addr m v)
        else if node_length = BGP_NLRI_IS_IS_PSEUDONODE then
          read_then (stream_get s2 BGP_NLRI_IS_IS_PSEUDONODE) (fun v => copy_local_value_addr m v)
        else if node_length = BGP_NLRI_OSPF_NON_PSEUDONODE then
          read_then (stream_get s2 BGP_NLRI_OSPF_NON_PSEUDONODE)
            (fun v => copy_local_value_addr m v)
        else if node_length = BGP_NLRI_OSPF_PSEUDONODE then
          read_then (stream_get s2 BGP_NLRI_OSPF_PSEUDONODE) (fun v => copy_local_value_addr m v)
        else some (m, s2)
      else some (m, s2)

/-- The `switch (type)` of `bgp_mp_prefix_decode` with the value it returns.  The
IP Reachability case reads the prefix-length byte and then as many bytes as
that byte says, into `&ipreach->value`. -/
def prefix_decode_switch (type length : Nat) (m : mp_bgpls_nlri) (s : stream) :
    Option (mp_bgpls_nlri × stream × bgp_attr_parse_ret_t) :=
  if type = BGP_NLRI_TLV_LOCAL_NODE_DESCRIPTORS then
    let nlri_node_endp := stream_get_getp s + length
    match stream_while prefix_decode_local_subtlv nlri_node_endp (STREAM_READABLE s) m s with
    | none => none
    | some (m1, s1) => some (m1, s1, BGP_ATTR_PARSE_PROCEED)
  else if type = BGP_NLRI_TLV_MULTI_TOPOLOGY_ID then
    match stream_getw s with
    | none => none
    | some (_node_type, s1) =>
      match stream_getw s1 with
      | none => none
      | some (node_length, s2) =>
        match read_array stream_getw (node_length / 2) 0 m.mid s2 with
        | none => none
        | some (v, s3) => some ({ m with mid := v }, s3, BGP_ATTR_PARSE_PROCEED)
  else if type = BGP_NLRI_TLV_OSPF_ROUTE_TYPE then
    match stream_getw s with
    | none => none
    | some (_node_type, s1) =>
      match stream_getw s1 with
      | none => none
      | some (_node_length, s2) =>
        match stream_getc s2 with
        | none => none
        | some (v, s3) => some ({ m with ort := v }, s3, BGP_ATTR_PARSE_PROCEED)
  else if type = BGP_NLRI_TLV_IP_REACHABILITY_INFORMATION then
    match stream_getw s with
    | none => none
    | some (_node_type, s1) =>
      match stream_getw s1 with
      | none => none
      | some (_node_length, s2) =>
        match stream_getc s2 with
        | none => none
        | some (p, s3) =>
          match stream_get s3 p with
          | none => none
          | some (v, s4) =>
            some ({ m with ipreach_prefix := p, ipreach_value := memcpy m.ipreach_value v }, s4,
                  BGP_ATTR_PARSE_PROCEED)
  else some (m, s, BGP_ATTR_PARSE_ERROR_NOTIFYPLS)

/-- The function `bgp_mp_prefix_decode(args, s)`. -/
def bgp_mp_prefix_decode (args : bgp_attr_parser_args) (s : stream) :
    Option (attr × stream × bgp_attr_parse_ret_t) :=
  match stream_getc s with
  | none => none
  | some (proto_id, s1) =>
    match stream_getq s1 with
    | none => none
    | some (nlri_identifier, s2) =>
      match stream_getw s2 with
      | none => none
      | some (type, s3) =>
        match stream_getw s3 with
        | none => none
        | some (length, s4) =>
          let m := { args.attr.mp_bgpls_nlri with
                     proto_id := proto_id, nlri_identifier := nlri_identifier }
          match prefix_decode_switch type length m s4 with
          | none => none
          | some (m1, s5, ret) => some ({ args.attr with mp_bgpls_nlri := m1 }, s5, ret)

/-- An attribute record with every field zero or empty (`urb` holds its 8
cells). -/
def attr_zero : attr :=
  { mp_bgpls_nlri :=
      { proto_id := 0, nlri_identifier := 0,
        local_node := ⟨[], []⟩, remote_node := ⟨[], []⟩,
        llri_local := 0, llri_remote := 0, i4ia := [], i4na := [], i6ia := [], i6na := [],
        mid := [], ort := 0, ipreach_prefix := 0, ipreach_value := [] },
    link_state_attr :=
      { header_nlri_length := 0, nfb := 0, i4ridofln := [], i4ridofrn := [], agc := 0,
        mlb := 0, mrlb := 0, urb := [0, 0, 0, 0, 0, 0, 0, 0], tdm := 0, lpt := 0, mpm := 0,
        srlg := [], ifl := 0, rt := [], et := [], pm := 0, ofa_addr4 := [] } }

/-! ## Reference quantities used in the statements -/

/-- The 16-bit scalar whose first byte lies `off` bytes after the read position. -/
def peek_w (s : stream) (off : Nat) : Nat :=
  be_value (((s.data.drop (s.getp + off)).take 2).map (fun b => b % 256))

/-- The number of value bytes the `switch` of `bgp_link_state_decode` reads for a
sub-TLV of type `ls_type` and declared length `ls_length`, read off the cases:
the declared length for the seven variable-length types, a fixed size for the
fixed-shape types whatever the declared length, whole elements for the
arrays, the second header and its elements for type 263, the record's
`header.nlri_length` elements for type 1091, and nothing for a type without
a case. -/
def ls_value_size (a : attr) (s : stream) (ls_type ls_length : Nat) : Nat :=
  if ls_type = BGP_NLRI_TLV_MULTI_TOPOLOGY_ID then 4 + 2 * (peek_w s 2 / 2)
  else if ls_type = BGP_NLRI_TLV_NODE_FLAG_BITS ∨ ls_type = BGP_NLRI_TLV_MPLS_PROTOCOL_MASK
      ∨ ls_type = BGP_NLRI_TLV_IGP_FLAGS then 1
  else if ls_type = BGP_NLRI_TLV_LINK_PROTECTION_TYPE then 2
  else if ls_type = BGP_NLRI_TLV_IPV4_ROUTER_ID_OF_LOCAL_NODE
      ∨ ls_type = BGP_NLRI_TLV_IPV4_ROUTER_ID_OF_REMOTE_NODE
      ∨ ls_type = BGP_NLRI_TLV_ADMINISTRATIVE_GROUP_COLOR
      ∨ ls_type = BGP_NLRI_TLV_MAX_LINK_BANDWIDTH
      ∨ ls_type = BGP_NLRI_TLV_MAX_RESERVABLE_LINK_BANDWIDTH
      ∨ ls_type = BGP_NLRI_TLV_TE_DEFAULT_METRIC
      ∨ ls_type = BGP_NLRI_TLV_PREFIX_METRIC then 4
  else if ls_type = BGP_NLRI_TLV_IPV6_ROUTER_ID_OF_LOCAL_NODE
      ∨ ls_type = BGP_NLRI_TLV_IPV6_ROUTER_ID_OF_REMOTE_NODE then 16
  else if ls_type = BGP_NLRI_TLV_OPAQUE_NODE_PROPERTIES ∨ ls_type = BGP_NLRI_TLV_NODE_NAME
      ∨ ls_type = BGP_NLRI_TLV_IS_IS_AREA_IDENTIFIER ∨ ls_type = BGP_NLRI_TLV_IGP_METRIC
      ∨ ls_type = BGP_NLRI_TLV_OPAQUE_LINK_ATTRIBUTE
      ∨ ls_type = BGP_NLRI_TLV_LINK_NAME_ATTRIBUTE
      ∨ ls_type = BGP_NLRI_TLV_OPAQUE_PREFIX_ATTRIBUTE then ls_length
  else if ls_type = BGP_NLRI_TLV_UNRESERVED_BANDWIDTH then
    4 * a.link_state_attr.header_nlri_length
  else if ls_type = BGP_NLRI_TLV_SHARED_RISK_LINK_GROUP ∨ ls_type = BGP_NLRI_TLV_ROUTE_TAG then
    4 * (ls_length / 4)
  else if ls_type = BGP_NLRI_TLV_EXTENDED_TAG then 8 * (ls_length / 8)
  else if ls_type = BGP_NLRI_TLV_OSPF_FORWARDING_ADDRESS then
    if ls_length = 4 then 4 else if ls_length = 16 then 16 else 0
  else 0

/-- The first `n` scalars of `k` bytes each, most significant byte first, that
the bytes `bs` hold, in wire order. -/
def wire_values (k : Nat) : Nat → List Nat → List Nat
  | 0, _ => []
  | n + 1, bs => be_value ((bs.take k).map (fun b => b % 256)) :: wire_values k n (bs.drop k)

/-- The cells of an array after the stores `a[i] = v0; a[i+1] = v1; ...`. -/
def array_store_list (a : List Nat) (i : Nat) : List Nat → List Nat
  | [] => a
  | v :: vs => array_store_list (array_store a i v) (i + 1) vs

/-- The case labels of the `switch (ls_type)` in `bgp_link_state_decode`. -/
def ls_known_types : List Nat :=
  [263, 1024, 1025, 1026, 1027, 1028, 1029, 1030, 1031, 1088, 1089, 1090, 1091, 1092, 1093,
   1094, 1095, 1096, 1097, 1098, 1152, 1153, 1154, 1155, 1156, 1157]

/-- A loop body that, when it returns, has kept the buffer, has read at least
the four bytes of a header and has not read past the end of the buffer. -/
def body_advances {σ : Type} (body : σ → stream → Option (σ × stream)) : Prop :=
  ∀ a s a1 s1, body a s = some (a1, s1) →
    s1.data = s.data ∧ s.getp + 4 ≤ s1.getp ∧ s1.getp ≤ s.data.length

/-- What the four copies of the node sub-TLV `switch` compute, in one
closed form: `cv` is the store of the first three sub-TLVs (always four bytes),
`cva` the store of an IGP Router-ID of length 4, 6, 7 or 8; any other sub-TLV
only has its header read. -/
def node_subtlv_ref (cv cva : mp_bgpls_nlri → List Nat → mp_bgpls_nlri) (m : mp_bgpls_nlri)
    (s : stream) : Option (mp_bgpls_nlri × stream) :=
  if STREAM_READABLE s < 4 then none
  else if peek_w s 0 = 512 ∨ peek_w s 0 = 513 ∨ peek_w s 0 = 514 then
    read_then (stream_get ⟨s.data, s.getp + 4⟩ 4) (cv m)
  else if peek_w s 0 = 515 ∧
      (peek_w s 2 = 6 ∨ peek_w s 2 = 7 ∨ peek_w s 2 = 4 ∨ peek_w s 2 = 8) then
    read_then (stream_get ⟨s.data, s.getp + 4⟩ (peek_w s 2)) (cva m)
  else some (m, ⟨s.data, s.getp + 4⟩)

/-- The number of value bytes a round of a node-descriptor loop reads for a
sub-TLV of type `node_type` and declared length `node_length`: four for the
Autonomous System, BGP-LS Identifier and Area-ID whatever the declared length,
the declared length for an IGP Router-ID of length 4, 6, 7 or 8, and none
otherwise. -/
def node_value_size (node_type node_length : Nat) : Nat :=
  if node_type = BGP_NLRI_TLV_AUTONOMOUS_SYSTEM ∨ node_type = BGP_NLRI_TLV_BGP_LS_IDENTIFIER
      ∨ node_type = BGP_NLRI_TLV_AREA_ID then 4
  else if node_type = BGP_NLRI_TLV_IGP_ROUTER_ID ∧
      (node_length = BGP_NLRI_IS_IS_NON_PSEUDONODE ∨ node_length = BGP_NLRI_IS_IS_PSEUDONODE
        ∨ node_length = BGP_NLRI_OSPF_NON_PSEUDONODE ∨ node_length = BGP_NLRI_OSPF_PSEUDONODE)
  then node_length
  else 0

/-- The byte that lies `off` bytes after the read position. -/
def peek_c (s : stream) (off : Nat) : Nat :=
  be_value (((s.data.drop (s.getp + off)).take 1).map (fun b => b % 256))

/-- The Link NLRI of the end-to-end scenario, 77 bytes: Protocol-ID 3 and identifier 0; Local
Node Descriptors (type 256, length 24) with Autonomous System 65001, BGP-LS Identifier 1 and
OSPF Area-ID 0; Remote Node Descriptors (type 257, length 8) with Autonomous System 65002;
Link Local/Remote Identifiers (type 258) 3 and 7; IPv4 interface address 10.0.0.1 (type 259);
IPv4 neighbor address 10.0.0.2 (type 260). -/
def link_nlri_scenario : List Nat :=
  [3, 0, 0, 0, 0, 0, 0, 0, 0,
   1, 0, 0, 24, 2, 0, 0, 4, 0, 0, 253, 233, 2, 1, 0, 4, 0, 0, 0, 1, 2, 2, 0, 4, 0, 0, 0, 0,
   1, 1, 0, 8, 2, 0, 0, 4, 0, 0, 253, 234,
   1, 2, 0, 8, 0, 0, 0, 3, 0, 0, 0, 7,
   1, 3, 0, 4, 10, 0, 0, 1,
   1, 4, 0, 4, 10, 0, 0, 2]

/-- The `k` bytes that start `off` bytes after the read position. -/
def peek_bytes (s : stream) (off k : Nat) : List Nat :=
  ((s.data.drop (s.getp + off)).take k).map (fun b => b % 256)

/-- The 64-bit scalar whose first byte lies `off` bytes after the read position. -/
def peek_q (s : stream) (off : Nat) : Nat := be_value (peek_bytes s off 8)

/-- The Node NLRI made of the first 37 bytes of the scenario: Protocol-ID, identifier and the
Local Node Descriptors TLV with its three sub-TLVs. -/
def node_nlri_scenario : List Nat := link_nlri_scenario.take 37

/-- The 32-bit scalar whose first byte lies `off` bytes after the read position. -/
def peek_l (s : stream) (off : Nat) : Nat := be_value (peek_bytes s off 4)

/-- A Link-State attribute of 17 bytes: Node Flag Bits (type 1024) with declared length 3
and value bytes 7, 0, 0, then Node Name (type 1026, length 6) "abcdef". -/
def flags_length_three_scenario : List Nat :=
  [4, 0, 0, 3, 7, 0, 0, 4, 2, 0, 6, 97, 98, 99, 100, 101, 102]

/-- An Unreserved Bandwidth sub-TLV (type 1091) of declared length 32 with the values
1, 2, ..., 8, followed by the four bytes 0, 0, 0, 9. -/
def unreserved_bandwidth_scenario : List Nat :=
  [4, 67, 0, 32,
   0, 0, 0, 1, 0, 0, 0, 2, 0, 0, 0, 3, 0, 0, 0, 4, 0, 0, 0, 5, 0, 0, 0, 6, 0, 0, 0, 7,
   0, 0, 0, 8, 0, 0, 0, 9]

/-- A Prefix NLRI of 21 bytes: Protocol-ID 1, identifier 0, the TLV header (type 265,
length 8), the second header the decoder reads (type 265, length 4), the prefix-length
byte 24 and the three prefix bytes 10, 1, 2. -/
def prefix_nlri_scenario : List Nat :=
  [1, 0, 0, 0, 0, 0, 0, 0, 0, 1, 9, 0, 8, 1, 9, 0, 4, 24, 10, 1, 2]

/-- The case labels of the `switch (ls_type)` in `bgp_link_state_decode` whose case reads
one scalar or one address of a fixed size. -/
def ls_fixed_types : List Nat :=
  [1024, 1028, 1029, 1030, 1031, 1088, 1089, 1090, 1092, 1093, 1094, 1152, 1155]

/-! ## The Link-State database (bgp_lsdb.h, bgp_lsdb.c) -/

abbrev BGP_LS_MIN_NLRI_TYPE : Nat := 1
abbrev BGP_LS_MAX_NLRI_TYPE : Nat := 4

/-- The largest value of the `unsigned long` counters, taken as 64 bits wide. -/
abbrev ULONG_MAX : Nat := 2 ^ 64 - 1

/-- The statement `c++` on an `unsigned long` counter. -/
def ulong_inc (c : Nat) : Nat := (c + 1) % (ULONG_MAX + 1)

/-- The statement `c--` on an `unsigned long` counter: 0 wraps to `ULONG_MAX`. -/
def ulong_dec (c : Nat) : Nat := if c = 0 then ULONG_MAX else c - 1

/-- The fields of `struct bgp_ls` the database uses: `header.nlri_type` and the
reference count `lock`, an `int`, whose values lie between `INT_MIN` and `INT_MAX`.
Modelled from the spec: `key`,
the descriptor key under which the route table files the record; the function that derives
it (`route_node_ls_get`) is not among the sources. -/
structure bgp_ls where
  nlri_type : Nat
  key : Nat
  lock : Int
deriving DecidableEq, Repr

/-- The records in memory: the cell at an address holds a record or has been freed. -/
abbrev ls_heap : Type := Nat → Option bgp_ls

/-- The store `*p = r`. -/
def heap_set (h : ls_heap) (p : Nat) (r : Option bgp_ls) : ls_heap :=
  fun q => if q = p then r else h q

/-- Modelled from the spec: a `struct route_table` (lib/table.h, not among the sources)
as the per-type index of the spec, the list of its nodes that hold a record; each is the
pair of a key and the address in `rn->info`. -/
abbrev route_table : Type := List (Nat × Nat)

/-- Modelled from the spec: `rn->info` of the node that `route_node_ls_get` or
`route_node_lookup` (not among the sources) finds for `key`; `none` is `NULL`, also
when the table has no such node. -/
def route_info : route_table → Nat → Option Nat
  | [], _ => none
  | (k, p) :: t, key => if k = key then some p else route_info t key

/-- Modelled from the spec: the table after `rn->info = NULL` on the node of `key`. -/
def route_clear_info (table : route_table) (key : Nat) : route_table :=
  table.filter (fun e => decide (e.1 ≠ key))

/-- Modelled from the spec: the table after `rn->info = p` on the node of `key`. -/
def route_set_info (table : route_table) (key p : Nat) : route_table :=
  (key, p) :: route_clear_info table key

/-- An element of the array `type[]` of `struct bgp_lsdb`: `count` and the table
pointer `db`, `none` for `NULL`. -/
structure lsdb_slot where
  count : Nat
  db : Option route_table
deriving DecidableEq, Repr

/-- The `struct bgp_lsdb`: the array `type[BGP_LS_MAX_NLRI_TYPE]`, whose cells are
those at the indices below `BGP_LS_MAX_NLRI_TYPE`, and `total`. -/
structure bgp_lsdb where
  type : Nat → lsdb_slot
  total : Nat

/-- The memory the database functions work on: the database and the records. -/
structure lsdb_state where
  lsdb : bgp_lsdb
  heap : ls_heap

/-- The store `lsdb->type[t] = slot`. -/
def type_set (lsdb : bgp_lsdb) (t : Nat) (slot : lsdb_slot) : bgp_lsdb :=
  { lsdb with type := fun i => if i = t then slot else lsdb.type i }

/-- The store `lsdb->type[t].count = c`. -/
def type_count_set (lsdb : bgp_lsdb) (t c : Nat) : bgp_lsdb :=
  type_set lsdb t { lsdb.type t with count := c }

/-- The store of a table with new contents in `lsdb->type[t].db`. -/
def type_db_set (lsdb : bgp_lsdb) (t : Nat) (table : route_table) : bgp_lsdb :=
  type_set lsdb t { lsdb.type t with db := some table }

/-- The read `lsdb->type[t].db` followed by a use of the table: it fails when `t` is not
an index of the array or when the pointer is `NULL`. -/
def lsdb_db (lsdb : bgp_lsdb) (t : Nat) : Option route_table :=
  if t < BGP_LS_MAX_NLRI_TYPE then (lsdb.type t).db else none

/-- The indices `i = lo; i < hi; i++` of a `for` loop. -/
def for_range (lo hi : Nat) : List Nat := List.range' lo (hi - lo)

abbrev INT_MAX : Int := 2147483647
abbrev INT_MIN : Int := -2147483648

/-- The increment `lock++` of an `int`: one more, and from `INT_MAX` the wrap to `INT_MIN`
that the two's complement arithmetic of the compiled code gives. -/
def int_inc (x : Int) : Int := if x = INT_MAX then INT_MIN else x + 1

/-- The function `bgp_ls_lock(ls)`, `ls->lock++` on the `int lock` of the record; it fails on a
record that has been freed. -/
def bgp_ls_lock (heap : ls_heap) (ls : Nat) : Option ls_heap :=
  match heap ls with
  | none => none
  | some r => some (heap_set heap ls (some { r with lock := int_inc r.lock }))

/-- Modelled from the spec: `bgp_ls_free(ls)` (not among the sources) frees the
record. -/
def bgp_ls_free (heap : ls_heap) (ls : Nat) : ls_heap := heap_set heap ls none

/-- The function `bgp_ls_unlock(&ls)`, with the value `*ls` of the handle of the caller
before and after; `none` as a handle is `NULL` (the function returns in the same way
when `ls` itself is `NULL`).  The result `none` is a failed `assert` or the use of a
freed record.  The decrement `lock--` is the one of the integers: from a `lock` of
`INT_MIN`, where the C statement has no defined result, the outcome is the one of the
failed `assert`. -/
def bgp_ls_unlock (heap : ls_heap) (ls : Option Nat) : Option (ls_heap × Option Nat) :=
  match ls with
  | none => some (heap, none)
  | some p =>
    match heap p with
    | none => none
    | some r =>
      if r.lock - 1 < 0 then none
      else if r.lock - 1 = 0 then some (bgp_ls_free heap p, none)
      else some (heap_set heap p (some { r with lock := r.lock - 1 }), some p)

/-- The function `bgp_lsdb_init(lsdb)`: its loop runs over `i = BGP_LS_MIN_NLRI_TYPE;
i < BGP_LS_MIN_NLRI_TYPE`.  Modelled from the spec: `route_table_init()` (not among the
sources) gives an empty table. -/
def bgp_lsdb_init (lsdb : bgp_lsdb) : bgp_lsdb :=
  (for_range BGP_LS_MIN_NLRI_TYPE BGP_LS_MIN_NLRI_TYPE).foldl
    (fun l i => type_set l i { l.type i with db := some [] }) lsdb

/-- The function `bgp_lsdb_new()`: a zeroed structure, then `bgp_lsdb_init`. -/
def bgp_lsdb_new : bgp_lsdb := bgp_lsdb_init { type := fun _ => ⟨0, none⟩, total := 0 }

/-- The first definition of `bgp_lsdb_delete_entry(lsdb, rn)` (bgp_lsdb.c:226), the one
in scope at the calls; `rn` is the node of `rn_key` in the table of cell `rn_table`.  The
condition is the index of `lsdb->type[ls->header.nlri_type]` being in the array and the
`assert` on `rn->table`. -/
def bgp_lsdb_delete_entry (st : lsdb_state) (rn_table rn_key : Nat) : Option lsdb_state :=
  match lsdb_db st.lsdb rn_table with
  | none => none
  | some table =>
    match route_info table rn_key with
    | none => some st
    | some ls =>
      match st.heap ls with
      | none => none
      | some r =>
        if r.nlri_type < BGP_LS_MAX_NLRI_TYPE ∧ r.nlri_type = rn_table then
          match bgp_ls_unlock st.heap (some ls) with
          | none => none
          | some (heap1, _) =>
            some ⟨type_db_set
                    { type_count_set st.lsdb r.nlri_type
                        (ulong_dec (st.lsdb.type r.nlri_type).count) with
                      total := ulong_dec st.lsdb.total }
                    rn_table (route_clear_info table rn_key), heap1⟩
        else none

/-- The second definition of `bgp_lsdb_delete_entry(lsdb, rn)` (bgp_lsdb.c:409): it
decrements `total` alone and does not unlock the record. -/
def bgp_lsdb_delete_entry_second (st : lsdb_state) (rn_table rn_key : Nat) :
    Option lsdb_state :=
  match lsdb_db st.lsdb rn_table with
  | none => none
  | some table =>
    match route_info table rn_key with
    | none => some st
    | some _ =>
      some ⟨type_db_set { st.lsdb with total := ulong_dec st.lsdb.total }
              rn_table (route_clear_info table rn_key), st.heap⟩

/-- One round of the `for` loop of `bgp_lsdb_add(lsdb, ls)`; the flag says that the round
has executed `return lsdb`.  The node `rn` is the one of the key of `ls` in the table of
the type of `ls`; the lock counts of the route nodes are not modelled. -/
def bgp_lsdb_add_round (st : lsdb_state) (ls : Nat) : Option (lsdb_state × Bool) :=
  match st.heap ls with
  | none => none
  | some r =>
    match lsdb_db st.lsdb r.nlri_type with
    | none => none
    | some table =>
      if route_info table r.key = some ls then some (st, true)
      else
        match (if route_info table r.key = none then some st
               else bgp_lsdb_delete_entry st r.nlri_type r.key) with
        | none => none
        | some st1 =>
          match st1.heap ls with
          | none => none
          | some r1 =>
            if r1.nlri_type < BGP_LS_MAX_NLRI_TYPE then
              match bgp_ls_lock st1.heap ls with
              | none => none
              | some heap2 =>
                match ((type_count_set st1.lsdb r1.nlri_type
                    (ulong_inc (st1.lsdb.type r1.nlri_type).count)).type r.nlri_type).db with
                | none => none
                | some table1 =>
                  some (⟨type_db_set
                          { type_count_set st1.lsdb r1.nlri_type
                              (ulong_inc (st1.lsdb.type r1.nlri_type).count) with
                            total := ulong_inc st1.lsdb.total }
                          r.nlri_type (route_set_info table1 r.key ls), heap2⟩, false)
            else none

/-- The rounds of a `for` loop whose body may return. -/
def for_rounds (body : lsdb_state → Option (lsdb_state × Bool)) :
    List Nat → lsdb_state → Option lsdb_state
  | [], st => some st
  | _ :: is, st =>
    match body st with
    | none => none
    | some (st1, true) => some st1
    | some (st1, false) => for_rounds body is st1

/-- The function `bgp_lsdb_add(lsdb, ls)`: the loop runs over `i = BGP_LS_MIN_NLRI_TYPE;
i <= BGP_LS_MAX_NLRI_TYPE` and its body does not use `i`. -/
def bgp_lsdb_add (st : lsdb_state) (ls : Nat) : Option lsdb_state :=
  for_rounds (fun s => bgp_lsdb_add_round s ls)
    (for_range BGP_LS_MIN_NLRI_TYPE (BGP_LS_MAX_NLRI_TYPE + 1)) st

/-- The function `bgp_lsdb_delete(lsdb, ls)` for a database that exists; `ls` is `none`
for `NULL`.  The result `none` is the failed `assert` on the type or a table pointer
`NULL`. -/
def bgp_lsdb_delete (st : lsdb_state) (ls : Option Nat) : Option lsdb_state :=
  match ls with
  | none => some st
  | some p =>
    match st.heap p with
    | none => none
    | some r =>
      if r.nlri_type < BGP_LS_MAX_NLRI_TYPE then
        match (st.lsdb.type r.nlri_type).db with
        | none => none
        | some table =>
          match route_info table r.key with
          | none => some st
          | some info =>
            if info = p then bgp_lsdb_delete_entry st r.nlri_type r.key else some st
      else none

/-- The calls of `bgp_lsdb_delete_entry` on the nodes of one table, in the order of
`route_top` / `route_next`. -/
def lsdb_delete_nodes (i : Nat) : List (Nat × Nat) → lsdb_state → Option lsdb_state
  | [], st => some st
  | e :: es, st =>
    match bgp_lsdb_delete_entry st i e.1 with
    | none => none
    | some st1 => lsdb_delete_nodes i es st1

/-- The body of the outer loop of `bgp_lsdb_delete_all`, on the table of cell `i`. -/
def lsdb_delete_table (st : lsdb_state) (i : Nat) : Option lsdb_state :=
  match lsdb_db st.lsdb i with
  | none => none
  | some table => lsdb_delete_nodes i table st

/-- The tables of the cells in `is`, one after the other. -/
def lsdb_delete_tables : List Nat → lsdb_state → Option lsdb_state
  | [], st => some st
  | i :: is, st =>
    match lsdb_delete_table st i with
    | none => none
    | some st1 => lsdb_delete_tables is st1

/-- The function `bgp_lsdb_delete_all(lsdb)`: the outer loop runs over
`i = BGP_LS_MIN_NLRI_TYPE; i < BGP_LS_MAX_NLRI_TYPE`. -/
def bgp_lsdb_delete_all (st : lsdb_state) : Option lsdb_state :=
  lsdb_delete_tables (for_range BGP_LS_MIN_NLRI_TYPE BGP_LS_MAX_NLRI_TYPE) st

/-- The function `bgp_lsdb_count_all(lsdb)`. -/
def bgp_lsdb_count_all (lsdb : bgp_lsdb) : Nat := lsdb.total

/-- The function `bgp_lsdb_count(lsdb, type)`; it fails when `type` is not an index of
the array. -/
def bgp_lsdb_count (lsdb : bgp_lsdb) (type : Nat) : Option Nat :=
  if type < BGP_LS_MAX_NLRI_TYPE then some (lsdb.type type).count else none

/-- The function `bgp_lsdb_isempty(lsdb)`. -/
def bgp_lsdb_isempty (lsdb : bgp_lsdb) : Bool := decide (lsdb.total = 0)

/-- An empty database in which every cell of the array has a table, the state in which
`route_table_init` would leave each cell. -/
def lsdb_with_tables : bgp_lsdb := { type := fun _ => ⟨0, some []⟩, total := 0 }

/-- A call of one of the three functions that change the database. -/
inductive lsdb_op where
  | add (ls : Nat)
  | delete (ls : Option Nat)
  | delete_all

/-- The effect of one call. -/
def lsdb_apply (st : lsdb_state) : lsdb_op → Option lsdb_state
  | lsdb_op.add ls => bgp_lsdb_add st ls
  | lsdb_op.delete ls => bgp_lsdb_delete st ls
  | lsdb_op.delete_all => bgp_lsdb_delete_all st

/-- The effect of a sequence of calls; it stops at the first call that fails. -/
def lsdb_run : List lsdb_op → lsdb_state → Option lsdb_state
  | [], st => some st
  | op :: ops, st =>
    match lsdb_apply st op with
    | none => none
    | some st1 => lsdb_run ops st1

/-- The sum of the per-type counters of the array. -/
def lsdb_count_sum (lsdb : bgp_lsdb) : Nat :=
  ((List.range BGP_LS_MAX_NLRI_TYPE).map (fun i => (lsdb.type i).count)).sum

/-- The database after the stores `lsdb->type[t].count = c`, `lsdb->total = total` and a
table with the contents `table` in `lsdb->type[t].db`. -/
def lsdb_put (lsdb : bgp_lsdb) (t c : Nat) (table : route_table) (total : Nat) : bgp_lsdb :=
  { type := fun i => if i = t then ⟨c, some table⟩ else lsdb.type i, total := total }

/-- The memory that holds the listed records at the listed addresses and nothing else. -/
def heap_of : List (Nat × bgp_ls) → ls_heap
  | [] => fun _ => none
  | (p, r) :: rest => heap_set (heap_of rest) p (some r)

/-- The calls `bgp_lsdb_add(lsdb, ls)`, `bgp_ls_lock(ls)` twice and `bgp_ls_unlock(&ls)` three
times through one handle; the result is the memory and the handle at the end. -/
def lsdb_add_lock_unlock (st : lsdb_state) (ls : Nat) : Option (lsdb_state × Option Nat) :=
  match bgp_lsdb_add st ls with
  | none => none
  | some st1 =>
    match bgp_ls_lock st1.heap ls with
    | none => none
    | some h2 =>
      match bgp_ls_lock h2 ls with
      | none => none
      | some h3 =>
        match bgp_ls_unlock h3 (some ls) with
        | none => none
        | some (h4, d4) =>
          match bgp_ls_unlock h4 d4 with
          | none => none
          | some (h5, d5) =>
            match bgp_ls_unlock h5 d5 with
            | none => none
            | some (h6, d6) => some (⟨st1.lsdb, h6⟩, d6)

/-- The calls `bgp_lsdb_add(lsdb, ls)`, `bgp_ls_lock(ls)` twice, `bgp_ls_unlock(&ls)` twice
and `bgp_lsdb_delete(lsdb, ls)`. -/
def lsdb_add_lock_unlock_delete (st : lsdb_state) (ls : Nat) : Option lsdb_state :=
  match bgp_lsdb_add st ls with
  | none => none
  | some st1 =>
    match bgp_ls_lock st1.heap ls with
    | none => none
    | some h2 =>
      match bgp_ls_lock h2 ls with
      | none => none
      | some h3 =>
        match bgp_ls_unlock h3 (some ls) with
        | none => none
        | some (h4, d4) =>
          match bgp_ls_unlock h4 d4 with
          | none => none
          | some (h5, d5) => bgp_lsdb_delete ⟨st1.lsdb, h5⟩ d5

/-- The bookkeeping of the reference counts: a table holds each key once, the record filed
under a key in the table of a type is in memory, has that type and key and a count of at
least 1, and no record in memory has a negative count. -/
def lsdb_refs_ok (st : lsdb_state) : Prop :=
  (∀ t table, lsdb_db st.lsdb t = some table → (table.map Prod.fst).Nodup) ∧
  (∀ t table k p, lsdb_db st.lsdb t = some table → route_info table k = some p →
    ∃ r, st.heap p = some r ∧ r.nlri_type = t ∧ r.key = k ∧ 1 ≤ r.lock) ∧
  (∀ p r, st.heap p = some r → 0 ≤ r.lock)

/-- No record in memory has a `lock` above `b`. -/
def lsdb_locks_le (heap : ls_heap) (b : Int) : Prop :=
  ∀ p r, heap p = some r → r.lock ≤ b

/-- The bookkeeping of the counters: `total` and the per-type counts hold `unsigned long`
values and `total` is the sum of the per-type counts in `unsigned long` arithmetic. -/
def lsdb_counts_ok (lsdb : bgp_lsdb) : Prop :=
  lsdb.total ≤ ULONG_MAX ∧
  (∀ t, t < BGP_LS_MAX_NLRI_TYPE → (lsdb.type t).count ≤ ULONG_MAX) ∧
  lsdb.total = lsdb_count_sum lsdb % (ULONG_MAX + 1)

/-! ## Further scenarios, the loop outcomes, the TLV macros and the release of the database -/

/-- A Link NLRI of 29 bytes whose outer TLV is Remote Node Descriptors (type 257, length 16)
with the sub-TLVs Autonomous System 65002 and IGP Router-ID 10.0.0.2 (length 4). -/
def remote_node_scenario : List Nat :=
  [3, 0, 0, 0, 0, 0, 0, 0, 0, 1, 1, 0, 16,
   2, 0, 0, 4, 0, 0, 253, 234,
   2, 3, 0, 4, 10, 0, 0, 2]

/-- A Link NLRI of 21 bytes whose outer TLV is Link Local/Remote Identifiers (type 258,
length 8) with the identifiers `loc` and `rem`, each in four bytes, most significant first. -/
def link_identifiers_scenario (loc rem : Nat) : List Nat :=
  [3, 0, 0, 0, 0, 0, 0, 0, 0, 1, 2, 0, 8,
   loc / 16777216 % 256, loc / 65536 % 256, loc / 256 % 256, loc % 256,
   rem / 16777216 % 256, rem / 65536 % 256, rem / 256 % 256, rem % 256]

/-- The ways in which a sub-TLV loop that is cut off after a number of rounds can end: the
loop condition became false and the function went on with the record and the stream, a read
of the body failed, or the rounds ran out with the loop condition still true. -/
inductive loop_outcome (σ : Type) where
  | returned (a : σ) (s : stream)
  | read_failed
  | rounds_left

/-- What the caller of the loop gets: the record and the stream when the loop has ended. -/
def loop_outcome.result {σ : Type} : loop_outcome σ → Option (σ × stream)
  | loop_outcome.returned a s => some (a, s)
  | loop_outcome.read_failed => none
  | loop_outcome.rounds_left => none

/-- The loop `while (stream_get_getp (s) < endp) body` cut off after `rounds` rounds, with
the way in which it ended. -/
def stream_while_outcome {σ : Type} (body : σ → stream → Option (σ × stream)) (endp : Nat) :
    Nat → σ → stream → loop_outcome σ
  | 0, a, s =>
    if stream_get_getp s < endp then loop_outcome.rounds_left else loop_outcome.returned a s
  | rounds + 1, a, s =>
    if stream_get_getp s < endp then
      match body a s with
      | none => loop_outcome.read_failed
      | some (a1, s1) => stream_while_outcome body endp rounds a1 s1
    else loop_outcome.returned a s

/-- The header `struct te_tlv_nlri_header` as it lies in memory: the two bytes of the field
`nlri_type` and the two bytes of the field `nlri_length`, both fields in network order. -/
structure te_tlv_nlri_header where
  nlri_type : Nat × Nat
  nlri_length : Nat × Nat

/-- Modelled from the spec: `ntohs` (a system header, not among the sources) on a 16-bit field
given by its two bytes in memory order. -/
def ntohs (field : Nat × Nat) : Nat := field.1 % 256 * 256 + field.2 % 256

/-- The macro `BGP_TLV_HDR_SIZE`, `sizeof(struct te_tlv_nlri_header)`: two `u_int16_t`. -/
def BGP_TLV_HDR_SIZE : Nat := 4

/-- The macro `ROUNDUP(val, gran)` in its own definition `(((val) - 1 | (gran) - 1) + 1)`,
the one used when the system has no `roundup`.  With `gran` a `sizeof` the arithmetic is the
one of `unsigned long`: for `val` 0 the left operand is all ones and the sum wraps to 0. -/
def ROUNDUP (val gran : Nat) : Nat :=
  if val = 0 then 0 else ((val - 1) ||| (gran - 1)) + 1

/-- The macro `BGP_TLV_BODY_SIZE(tlvh)`. -/
def BGP_TLV_BODY_SIZE (tlvh : te_tlv_nlri_header) : Nat := ROUNDUP (ntohs tlvh.nlri_length) 4

/-- The macro `BGP_TLV_SIZE(tlvh)`. -/
def BGP_TLV_SIZE (tlvh : te_tlv_nlri_header) : Nat := BGP_TLV_HDR_SIZE + ntohs tlvh.nlri_length

/-- The macro `BGP_TLV_HDR_NEXT(tlvh)` for the header `h` found at the address `tlvh`: the
address of the next header. -/
def BGP_TLV_HDR_NEXT (tlvh : Nat) (h : te_tlv_nlri_header) : Nat := tlvh + BGP_TLV_SIZE h

/-- The function `bgp_lsdb_cleanup(lsdb)` for a database that exists: `assert(lsdb->total ==
0)`, then `bgp_lsdb_delete_all(lsdb)`, then the loop over `i = BGP_LS_MIN_NLRI_TYPE;
i < BGP_LS_MIN_NLRI_TYPE` that calls `route_table_finish`.  Modelled from the spec:
`route_table_finish` (not among the sources) releases the table, after which the cell has no
table to use. -/
def bgp_lsdb_cleanup (st : lsdb_state) : Option lsdb_state :=
  if st.lsdb.total = 0 then
    match bgp_lsdb_delete_all st with
    | none => none
    | some st1 =>
      some ⟨(for_range BGP_LS_MIN_NLRI_TYPE BGP_LS_MIN_NLRI_TYPE).foldl
              (fun l i => type_set l i { l.type i with db := none }) st1.lsdb, st1.heap⟩
  else none

/-- The function `bgp_lsdb_free(lsdb)` for a database that exists: `bgp_lsdb_cleanup`, then
`XFREE` of the structure; what is left is the memory of the records. -/
def bgp_lsdb_free (st : lsdb_state) : Option ls_heap :=
  match bgp_lsdb_cleanup st with
  | none => none
  | some st1 => some st1.heap

/-- The bookkeeping of the index: a table holds each key once, and the count of a cell of the
array is the number of nodes of its table that hold a record, in `unsigned long` arithmetic,
and 0 when the cell has no table. -/
def lsdb_index_ok (lsdb : bgp_lsdb) : Prop :=
  (∀ t table, lsdb_db lsdb t = some table → (table.map Prod.fst).Nodup) ∧
  ∀ t, t < BGP_LS_MAX_NLRI_TYPE →
    ((lsdb.type t).db = none → (lsdb.type t).count = 0) ∧
    ∀ table, (lsdb.type t).db = some table →
      (lsdb.type t).count = table.length % (ULONG_MAX + 1)

/-- A Node NLRI of 29 bytes: Protocol-ID 3 and identifier 0; Local Node Descriptors
(type 256, length 16) with Autonomous System 65001 and then an IGP Router-ID (type 515) of
length 4 with the bytes 10, 0, 0, 1. -/
def router_id_second_scenario : List Nat :=
  [3, 0, 0, 0, 0, 0, 0, 0, 0, 1, 0, 0, 16,
   2, 0, 0, 4, 0, 0, 253, 233,
   2, 3, 0, 4, 10, 0, 0, 1]

/-! ## Lemmas on the stream readers -/

theorem stream_get_eq_some (s : stream) (n : Nat) (bs : List Nat) (s1 : stream) :
    stream_get s n = some (bs, s1) ↔
      n ≤ STREAM_READABLE s ∧ bs = ((s.data.drop s.getp).take n).map (fun b => b % 256) ∧
        s1 = ⟨s.data, s.getp + n⟩ := by
  unfold stream_get
  split_ifs with h
  · simp; omega
  · simp only [Option.some.injEq, Prod.mk.injEq]
    constructor
    · rintro ⟨rfl, rfl⟩; exact ⟨by omega, rfl, rfl⟩
    · rintro ⟨_, rfl, rfl⟩; exact ⟨rfl, rfl⟩

theorem stream_get_eq_none (s : stream) (n : Nat) :
    stream_get s n = none ↔ STREAM_READABLE s < n := by
  unfold stream_get
  split_ifs with h <;> simp [h]

theorem stream_getn_eq_some (s : stream) (n v : Nat) (s1 : stream) :
    stream_getn s n = some (v, s1) ↔
      n ≤ STREAM_READABLE s ∧
        v = be_value (((s.data.drop s.getp).take n).map (fun b => b % 256)) ∧
        s1 = ⟨s.data, s.getp + n⟩ := by
  unfold stream_getn
  cases h : stream_get s n with
  | none =>
    rw [stream_get_eq_none] at h
    simp; omega
  | some p =>
    obtain ⟨bs, s2⟩ := p
    rw [stream_get_eq_some] at h
    obtain ⟨h1, rfl, rfl⟩ := h
    simp only [Option.some.injEq, Prod.mk.injEq]
    constructor
    · rintro ⟨rfl, rfl⟩; exact ⟨h1, rfl, rfl⟩
    · rintro ⟨_, rfl, rfl⟩; exact ⟨rfl, rfl⟩

theorem stream_getn_eq_none (s : stream) (n : Nat) :
    stream_getn s n = none ↔ STREAM_READABLE s < n := by
  unfold stream_getn
  cases h : stream_get s n with
  | none => simpa [stream_get_eq_none] using h
  | some p =>
    obtain ⟨bs, s2⟩ := p
    rw [stream_get_eq_some] at h
    simp; omega

theorem wire_values_length (k n : Nat) (bs : List Nat) : (wire_values k n bs).length = n := by
  induction n generalizing bs with
  | zero => rfl
  | succ n ih => simp [wire_values, ih]

theorem array_store_length_le (a : List Nat) (i v : Nat) (h : i ≤ a.length) :
    array_store a i v = a.take i ++ v :: a.drop (i + 1) := by
  unfold array_store
  split_ifs with hlt
  · rw [List.set_eq_take_append_cons_drop]; simp [hlt]
  · have : i = a.length := by omega
    subst this
    simp

theorem array_store_list_eq (vs a : List Nat) (i : Nat) (h : i ≤ a.length) :
    array_store_list a i vs = a.take i ++ vs ++ a.drop (i + vs.length) := by
  induction vs generalizing a i with
  | nil => simp [array_store_list]
  | cons v vs ih =>
    have hlen : i + 1 ≤ (array_store a i v).length := by
      rw [array_store_length_le a i v h]; simp; omega
    rw [array_store_list, ih _ _ hlen, array_store_length_le a i v h]
    have h1 : (a.take i ++ v :: a.drop (i + 1)).take (i + 1) = a.take i ++ [v] := by
      rw [List.take_append_eq_append_take]; simp [List.length_take, Nat.min_eq_left h]
    have h2 : (a.take i ++ v :: a.drop (i + 1)).drop (i + 1 + vs.length)
        = a.drop (i + (v :: vs).length) := by
      rw [List.drop_append_eq_append_drop]
      simp [List.length_take, Nat.min_eq_left h]
      have : i + 1 + vs.length - i = (vs.length) + 1 := by omega
      rw [show List.drop (i + 1 + vs.length) (List.take i a) = [] from by
        apply List.drop_eq_nil_of_le; simp; omega]
      simp [this]
      congr 1; omega
    rw [h1, h2]; simp

theorem array_store_list_zero (vs a : List Nat) :
    array_store_list a 0 vs = vs ++ a.drop vs.length := by
  rw [array_store_list_eq vs a 0 (Nat.zero_le _)]; simp

theorem read_array_eq_some (get : stream → Option (Nat × stream)) (k : Nat)
    (hget : ∀ s, get s = stream_getn s k) (n i : Nat) (a : List Nat) (s : stream)
    (a1 : List Nat) (s1 : stream) :
    read_array get n i a s = some (a1, s1) ↔
      k * n ≤ STREAM_READABLE s ∧
        a1 = array_store_list a i (wire_values k n (s.data.drop s.getp)) ∧
        s1 = ⟨s.data, s.getp + k * n⟩ := by
  induction n generalizing i a s with
  | zero =>
    simp only [read_array, wire_values, array_store_list, Option.some.injEq, Prod.mk.injEq]
    constructor
    · rintro ⟨rfl, rfl⟩; exact ⟨by simp, rfl, by cases s; simp⟩
    · rintro ⟨_, rfl, h⟩; exact ⟨rfl, by rw [h]; cases s; simp⟩
  | succ n ih =>
    rw [read_array, hget]
    cases hg : stream_getn s k with
    | none =>
      rw [stream_getn_eq_none] at hg
      simp only [false_iff, not_and, reduceCtorEq]
      intro h; exfalso
      have : k * (n + 1) = k * n + k := by ring
      omega
    | some p =>
      obtain ⟨v, s2⟩ := p
      rw [stream_getn_eq_some] at hg
      obtain ⟨h1, rfl, rfl⟩ := hg
      simp only [ih, STREAM_READABLE, wire_values, array_store_list, List.drop_drop]
      have e1 : k * (n + 1) = k * n + k := by ring
      have e2 : s.getp + k + k * n = s.getp + k * (n + 1) := by rw [e1]; omega
      have e3 : k + s.getp = s.getp + k := by omega
      unfold STREAM_READABLE at h1
      constructor
      · rintro ⟨h2, rfl, rfl⟩
        refine ⟨by omega, ?_, by rw [e2]⟩
        simp [e3]
      · rintro ⟨h2, rfl, rfl⟩
        refine ⟨by omega, ?_, by rw [e2]⟩
        simp [e3]

theorem stream_getw_eq_some (s : stream) (v : Nat) (s1 : stream) :
    stream_getw s = some (v, s1) ↔
      2 ≤ STREAM_READABLE s ∧ v = peek_w s 0 ∧ s1 = ⟨s.data, s.getp + 2⟩ := by
  unfold stream_getw peek_w
  rw [stream_getn_eq_some]; simp

theorem read_then_getn_eq_some (s : stream) (k : Nat) {β : Type} (f : Nat → β) (a1 : β)
    (s1 : stream) :
    read_then (stream_getn s k) f = some (a1, s1) ↔
      k ≤ STREAM_READABLE s ∧
        a1 = f (be_value (((s.data.drop s.getp).take k).map (fun b => b % 256))) ∧
        s1 = ⟨s.data, s.getp + k⟩ := by
  unfold read_then
  cases hg : stream_getn s k with
  | none => rw [stream_getn_eq_none] at hg; simp; omega
  | some p =>
    obtain ⟨v, s2⟩ := p
    rw [stream_getn_eq_some] at hg
    obtain ⟨h1, rfl, rfl⟩ := hg
    simp only [Option.some.injEq, Prod.mk.injEq]
    constructor
    · rintro ⟨rfl, rfl⟩; exact ⟨h1, rfl, rfl⟩
    · rintro ⟨_, rfl, rfl⟩; exact ⟨rfl, rfl⟩

theorem read_then_get_eq_some (s : stream) (k : Nat) {β : Type} (f : List Nat → β) (a1 : β)
    (s1 : stream) :
    read_then (stream_get s k) f = some (a1, s1) ↔
      k ≤ STREAM_READABLE s ∧
        a1 = f (((s.data.drop s.getp).take k).map (fun b => b % 256)) ∧
        s1 = ⟨s.data, s.getp + k⟩ := by
  unfold read_then
  cases hg : stream_get s k with
  | none => rw [stream_get_eq_none] at hg; simp; omega
  | some p =>
    obtain ⟨v, s2⟩ := p
    rw [stream_get_eq_some] at hg
    obtain ⟨h1, rfl, rfl⟩ := hg
    simp only [Option.some.injEq, Prod.mk.injEq]
    constructor
    · rintro ⟨rfl, rfl⟩; exact ⟨h1, rfl, rfl⟩
    · rintro ⟨_, rfl, rfl⟩; exact ⟨rfl, rfl⟩

theorem read_then_array_eq_some (get : stream → Option (Nat × stream)) (k : Nat)
    (hget : ∀ s, get s = stream_getn s k) (n i : Nat) (a : List Nat) (s : stream)
    {β : Type} (f : List Nat → β) (a1 : β) (s1 : stream) :
    read_then (read_array get n i a s) f = some (a1, s1) ↔
      k * n ≤ STREAM_READABLE s ∧
        a1 = f (array_store_list a i (wire_values k n (s.data.drop s.getp))) ∧
        s1 = ⟨s.data, s.getp + k * n⟩ := by
  unfold read_then
  cases hg : read_array get n i a s with
  | none =>
    simp only [false_iff, not_and, reduceCtorEq]
    intro h1 h2 h3
    have := (read_array_eq_some get k hget n i a s _ _).2 ⟨h1, rfl, rfl⟩
    rw [hg] at this; simp at this
  | some p =>
    obtain ⟨v, s2⟩ := p
    rw [read_array_eq_some get k hget] at hg
    obtain ⟨h1, rfl, rfl⟩ := hg
    simp only [Option.some.injEq, Prod.mk.injEq]
    constructor
    · rintro ⟨rfl, rfl⟩; exact ⟨h1, rfl, rfl⟩
    · rintro ⟨_, rfl, rfl⟩; exact ⟨rfl, rfl⟩

theorem u32_to_float_of_lt (n : Nat) (h : n < 16777216) : u32_to_float n = n := by
  simp [u32_to_float, float_spacing, h, Nat.mod_one]

theorem u32_to_float_rounds :
    u32_to_float 16777217 = 16777216 ∧ u32_to_float 16777219 = 16777220 ∧
    u32_to_float 4294967295 = 4294967296 ∧ u32_to_float 1000000000 = 1000000000 := by
  decide

theorem stream_getl_float_eq_some (s : stream) (v : Nat) (s1 : stream) :
    stream_getl_float s = some (v, s1) ↔
      4 ≤ STREAM_READABLE s ∧
        v = u32_to_float (be_value (((s.data.drop s.getp).take 4).map (fun b => b % 256))) ∧
        s1 = ⟨s.data, s.getp + 4⟩ := by
  unfold stream_getl_float stream_getl
  exact read_then_getn_eq_some s 4 u32_to_float v s1

theorem stream_getl_float_eq_none (s : stream) :
    stream_getl_float s = none ↔ STREAM_READABLE s < 4 := by
  unfold stream_getl_float stream_getl read_then
  cases hg : stream_getn s 4 with
  | none => rw [stream_getn_eq_none] at hg; simp [hg]
  | some p =>
    obtain ⟨v, s2⟩ := p
    rw [stream_getn_eq_some] at hg
    simp only [reduceCtorEq, false_iff, not_lt]
    exact hg.1

theorem read_then_getl_float_eq_some (s : stream) {β : Type} (f : Nat → β) (a1 : β)
    (s1 : stream) :
    read_then (stream_getl_float s) f = some (a1, s1) ↔
      4 ≤ STREAM_READABLE s ∧
        a1 = f (u32_to_float
          (be_value (((s.data.drop s.getp).take 4).map (fun b => b % 256)))) ∧
        s1 = ⟨s.data, s.getp + 4⟩ := by
  unfold stream_getl_float stream_getl
  have e : read_then (read_then (stream_getn s 4) u32_to_float) f =
      read_then (stream_getn s 4) (fun v => f (u32_to_float v)) := by
    unfold read_then
    cases stream_getn s 4 with
    | none => rfl
    | some p => rfl
  rw [e]
  exact read_then_getn_eq_some s 4 _ a1 s1

theorem read_array_float_eq_some (n i : Nat) (a : List Nat) (s : stream)
    (a1 : List Nat) (s1 : stream) :
    read_array stream_getl_float n i a s = some (a1, s1) ↔
      4 * n ≤ STREAM_READABLE s ∧
        a1 = array_store_list a i ((wire_values 4 n (s.data.drop s.getp)).map u32_to_float) ∧
        s1 = ⟨s.data, s.getp + 4 * n⟩ := by
  induction n generalizing i a s with
  | zero =>
    simp only [read_array, wire_values, array_store_list, List.map_nil, Option.some.injEq,
      Prod.mk.injEq]
    constructor
    · rintro ⟨rfl, rfl⟩; exact ⟨by simp, rfl, by cases s; simp⟩
    · rintro ⟨_, rfl, h⟩; exact ⟨rfl, by rw [h]; cases s; simp⟩
  | succ n ih =>
    rw [read_array]
    cases hg : stream_getl_float s with
    | none =>
      rw [stream_getl_float_eq_none] at hg
      simp only [false_iff, not_and, reduceCtorEq]
      intro h; exfalso
      omega
    | some p =>
      obtain ⟨v, s2⟩ := p
      rw [stream_getl_float_eq_some] at hg
      obtain ⟨h1, rfl, rfl⟩ := hg
      simp only [ih, STREAM_READABLE, wire_values, array_store_list, List.drop_drop,
        List.map_cons]
      have e2 : s.getp + 4 + 4 * n = s.getp + 4 * (n + 1) := by omega
      have e3 : 4 + s.getp = s.getp + 4 := by omega
      unfold STREAM_READABLE at h1
      constructor
      · rintro ⟨h2, rfl, rfl⟩
        refine ⟨by omega, ?_, by rw [e2]⟩
        simp [e3]
      · rintro ⟨h2, rfl, rfl⟩
        refine ⟨by omega, ?_, by rw [e2]⟩
        simp [e3]

theorem read_then_array_float_eq_some (n i : Nat) (a : List Nat) (s : stream)
    {β : Type} (f : List Nat → β) (a1 : β) (s1 : stream) :
    read_then (read_array stream_getl_float n i a s) f = some (a1, s1) ↔
      4 * n ≤ STREAM_READABLE s ∧
        a1 = f (array_store_list a i
          ((wire_values 4 n (s.data.drop s.getp)).map u32_to_float)) ∧
        s1 = ⟨s.data, s.getp + 4 * n⟩ := by
  unfold read_then
  cases hg : read_array stream_getl_float n i a s with
  | none =>
    simp only [false_iff, not_and, reduceCtorEq]
    intro h1 h2 h3
    have := (read_array_float_eq_some n i a s _ _).2 ⟨h1, rfl, rfl⟩
    rw [hg] at this; simp at this
  | some p =>
    obtain ⟨v, s2⟩ := p
    rw [read_array_float_eq_some] at hg
    obtain ⟨h1, rfl, rfl⟩ := hg
    simp only [Option.some.injEq, Prod.mk.injEq]
    constructor
    · rintro ⟨rfl, rfl⟩; exact ⟨h1, rfl, rfl⟩
    · rintro ⟨_, rfl, rfl⟩; exact ⟨rfl, rfl⟩

theorem ls_decode_value_263 (ls_length : Nat) (a : attr) (s : stream) :
    ls_decode_value 263 ls_length a s =
      match stream_getw s with
      | none => none
      | some (_, s1) =>
        match stream_getw s1 with
        | none => none
        | some (mid_length, s2) =>
          read_then (read_array stream_getw (mid_length / 2) 0 a.mp_bgpls_nlri.mid s2)
            (fun v => { a with mp_bgpls_nlri := { a.mp_bgpls_nlri with mid := v } }) := rfl

theorem ls_decode_value_1024 (ls_length : Nat) (a : attr) (s : stream) :
    ls_decode_value 1024 ls_length a s =
      read_then (stream_getn s 1)
        (fun v => { a with link_state_attr := { a.link_state_attr with nfb := v } }) := rfl

theorem ls_decode_value_1025 (ls_length : Nat) (a : attr) (s : stream) :
    ls_decode_value 1025 ls_length a s = read_then (stream_get s ls_length) (fun _ => a) := rfl

theorem ls_decode_value_1026 (ls_length : Nat) (a : attr) (s : stream) :
    ls_decode_value 1026 ls_length a s = read_then (stream_get s ls_length) (fun _ => a) := rfl

theorem ls_decode_value_1027 (ls_length : Nat) (a : attr) (s : stream) :
    ls_decode_value 1027 ls_length a s = read_then (stream_get s ls_length) (fun _ => a) := rfl

theorem ls_decode_value_1028 (ls_length : Nat) (a : attr) (s : stream) :
    ls_decode_value 1028 ls_length a s =
      read_then (stream_get s 4)
        (fun v => { a with link_state_attr := { a.link_state_attr with i4ridofln := v } }) := rfl

theorem ls_decode_value_1029 (ls_length : Nat) (a : attr) (s : stream) :
    ls_decode_value 1029 ls_length a s = read_then (stream_get s 16) (fun _ => a) := rfl

theorem ls_decode_value_1030 (ls_length : Nat) (a : attr) (s : stream) :
    ls_decode_value 1030 ls_length a s =
      read_then (stream_get s 4)
        (fun v => { a with link_state_attr := { a.link_state_attr with i4ridofrn := v } }) := rfl

theorem ls_decode_value_1031 (ls_length : Nat) (a : attr) (s : stream) :
    ls_decode_value 1031 ls_length a s = read_then (stream_get s 16) (fun _ => a) := rfl

theorem ls_decode_value_1088 (ls_length : Nat) (a : attr) (s : stream) :
    ls_decode_value 1088 ls_length a s =
      read_then (stream_getn s 4)
        (fun v => { a with link_state_attr := { a.link_state_attr with agc := v } }) := rfl

theorem ls_decode_value_1089 (ls_length : Nat) (a : attr) (s : stream) :
    ls_decode_value 1089 ls_length a s =
      read_then (stream_getl_float s)
        (fun v => { a with link_state_attr := { a.link_state_attr with mlb := v } }) := rfl

theorem ls_decode_value_1090 (ls_length : Nat) (a : attr) (s : stream) :
    ls_decode_value 1090 ls_length a s =
      read_then (stream_getl_float s)
        (fun v => { a with link_state_attr := { a.link_state_attr with mrlb := v } }) := rfl

theorem ls_decode_value_1091 (ls_length : Nat) (a : attr) (s : stream) :
    ls_decode_value 1091 ls_length a s =
      read_then
        (read_array stream_getl_float a.link_state_attr.header_nlri_length 0
          a.link_state_attr.urb s)
        (fun v => { a with link_state_attr := { a.link_state_attr with urb := v } }) := rfl

theorem ls_decode_value_1092 (ls_length : Nat) (a : attr) (s : stream) :
    ls_decode_value 1092 ls_length a s =
      read_then (stream_getn s 4)
        (fun v => { a with link_state_attr := { a.link_state_attr with tdm := v } }) := rfl

theorem ls_decode_value_1093 (ls_length : Nat) (a : attr) (s : stream) :
    ls_decode_value 1093 ls_length a s =
      read_then (stream_getn s 2)
        (fun v => { a with link_state_attr := { a.link_state_attr with lpt := v } }) := rfl

theorem ls_decode_value_1094 (ls_length : Nat) (a : attr) (s : stream) :
    ls_decode_value 1094 ls_length a s =
      read_then (stream_getn s 1)
        (fun v => { a with link_state_attr := { a.link_state_attr with mpm := v } }) := rfl

theorem ls_decode_value_1095 (ls_length : Nat) (a : attr) (s : stream) :
    ls_decode_value 1095 ls_length a s = read_then (stream_get s ls_length) (fun _ => a) := rfl

theorem ls_decode_value_1096 (ls_length : Nat) (a : attr) (s : stream) :
    ls_decode_value 1096 ls_length a s =
      read_then (read_array stream_getl (ls_length / 4) 0 a.link_state_attr.srlg s)
        (fun v => { a with link_state_attr := { a.link_state_attr with srlg := v } }) := rfl

theorem ls_decode_value_1097 (ls_length : Nat) (a : attr) (s : stream) :
    ls_decode_value 1097 ls_length a s = read_then (stream_get s ls_length) (fun _ => a) := rfl

theorem ls_decode_value_1098 (ls_length : Nat) (a : attr) (s : stream) :
    ls_decode_value 1098 ls_length a s = read_then (stream_get s ls_length) (fun _ => a) := rfl

theorem ls_decode_value_1152 (ls_length : Nat) (a : attr) (s : stream) :
    ls_decode_value 1152 ls_length a s =
      read_then (stream_getn s 1)
        (fun v => { a with link_state_attr := { a.link_state_attr with ifl := v } }) := rfl

theorem ls_decode_value_1153 (ls_length : Nat) (a : attr) (s : stream) :
    ls_decode_value 1153 ls_length a s =
      read_then (read_array stream_getl (ls_length / 4) 0 a.link_state_attr.rt s)
        (fun v => { a with link_state_attr := { a.link_state_attr with rt := v } }) := rfl

theorem ls_decode_value_1154 (ls_length : Nat) (a : attr) (s : stream) :
    ls_decode_value 1154 ls_length a s =
      read_then (read_array stream_getq (ls_length / 8) 0 a.link_state_attr.et s)
        (fun v => { a with link_state_attr := { a.link_state_attr with et := v } }) := rfl

theorem ls_decode_value_1155 (ls_length : Nat) (a : attr) (s : stream) :
    ls_decode_value 1155 ls_length a s =
      read_then (stream_getn s 4)
        (fun v => { a with link_state_attr := { a.link_state_attr with pm := v } }) := rfl

theorem ls_decode_value_1156 (ls_length : Nat) (a : attr) (s : stream) :
    ls_decode_value 1156 ls_length a s =
      if ls_length = 4 then
        read_then (stream_get s 4)
          (fun v => { a with link_state_attr := { a.link_state_attr with ofa_addr4 := v } })
      else if ls_length = 16 then read_then (stream_get s 16) (fun _ => a)
      else some (a, s) := rfl

theorem ls_decode_value_1157 (ls_length : Nat) (a : attr) (s : stream) :
    ls_decode_value 1157 ls_length a s = read_then (stream_get s ls_length) (fun _ => a) := rfl

theorem ls_decode_value_default (t l : Nat) (a : attr) (s : stream) (h : t ∉ ls_known_types) :
    ls_decode_value t l a s = some (a, s) := by
  simp only [ls_known_types, List.mem_cons, List.mem_singleton, not_or, List.mem_nil_iff, or_false] at h
  obtain ⟨h1, h2, h3, h4, h5, h6, h7, h8, h9, h10, h11, h12, h13, h14, h15, h16, h17, h18, h19,
    h20, h21, h22, h23, h24, h25, h26⟩ := h
  unfold ls_decode_value
  rw [if_neg h1, if_neg h2, if_neg h3, if_neg h4, if_neg h5, if_neg h6, if_neg h7, if_neg h8,
    if_neg h9, if_neg h10, if_neg h11, if_neg h12, if_neg h13, if_neg h14, if_neg h15, if_neg h16,
    if_neg h17, if_neg h18, if_neg h19, if_neg h20, if_neg h21, if_neg h22, if_neg h23,
    if_neg h24, if_neg h25, if_neg h26]

theorem ls_value_size_default (t l : Nat) (a : attr) (s : stream) (h : t ∉ ls_known_types) :
    ls_value_size a s t l = 0 := by
  simp only [ls_known_types, List.mem_cons, List.mem_singleton, not_or, List.mem_nil_iff,
    or_false] at h
  simp [ls_value_size, h]

theorem ls_decode_value_getp (t l : Nat) (a : attr) (s : stream) (a1 : attr) (s1 : stream)
    (h : ls_decode_value t l a s = some (a1, s1)) :
    s1 = ⟨s.data, s.getp + ls_value_size a s t l⟩ ∧ ls_value_size a s t l ≤ STREAM_READABLE s := by
  by_cases hk : t ∈ ls_known_types
  swap
  · rw [ls_decode_value_default t l a s hk] at h
    rw [ls_value_size_default t l a s hk]
    simp only [Option.some.injEq, Prod.mk.injEq] at h
    obtain ⟨_, rfl⟩ := h
    exact ⟨rfl, Nat.zero_le _⟩
  simp only [ls_known_types, List.mem_cons, List.mem_singleton, List.mem_nil_iff, or_false] at hk
  rcases hk with rfl | rfl | rfl | rfl | rfl | rfl | rfl | rfl | rfl | rfl | rfl | rfl | rfl |
    rfl | rfl | rfl | rfl | rfl | rfl | rfl | rfl | rfl | rfl | rfl | rfl | rfl
  · rw [ls_decode_value_263] at h
    cases hg1 : stream_getw s with
    | none => rw [hg1] at h; simp at h
    | some p1 =>
      obtain ⟨v1, s2⟩ := p1
      rw [hg1] at h; simp only at h
      cases hg2 : stream_getw s2 with
      | none => rw [hg2] at h; simp at h
      | some p2 =>
        obtain ⟨v2, s3⟩ := p2
        rw [hg2] at h; simp only at h
        rw [stream_getw_eq_some] at hg1 hg2
        obtain ⟨r1, rfl, rfl⟩ := hg1
        obtain ⟨r2, rfl, rfl⟩ := hg2
        rw [read_then_array_eq_some stream_getw 2 (fun _ => rfl)] at h
        obtain ⟨r3, _, rfl⟩ := h
        have e : peek_w ⟨s.data, s.getp + 2⟩ 0 = peek_w s 2 := by simp [peek_w]
        rw [e] at r3 ⊢
        have e2 : ls_value_size a s 263 l = 4 + 2 * (peek_w s 2 / 2) := by simp [ls_value_size]
        rw [e2]
        simp only [STREAM_READABLE] at *
        refine ⟨?_, by omega⟩
        congr 1; omega
  · rw [ls_decode_value_1024, read_then_getn_eq_some] at h
    obtain ⟨h1, _, rfl⟩ := h
    exact ⟨rfl, h1⟩
  · rw [ls_decode_value_1025, read_then_get_eq_some] at h
    obtain ⟨h1, _, rfl⟩ := h
    exact ⟨rfl, h1⟩
  · rw [ls_decode_value_1026, read_then_get_eq_some] at h
    obtain ⟨h1, _, rfl⟩ := h
    exact ⟨rfl, h1⟩
  · rw [ls_decode_value_1027, read_then_get_eq_some] at h
    obtain ⟨h1, _, rfl⟩ := h
    exact ⟨rfl, h1⟩
  · rw [ls_decode_value_1028, read_then_get_eq_some] at h
    obtain ⟨h1, _, rfl⟩ := h
    exact ⟨rfl, h1⟩
  · rw [ls_decode_value_1029, read_then_get_eq_some] at h
    obtain ⟨h1, _, rfl⟩ := h
    exact ⟨rfl, h1⟩
  · rw [ls_decode_value_1030, read_then_get_eq_some] at h
    obtain ⟨h1, _, rfl⟩ := h
    exact ⟨rfl, h1⟩
  · rw [ls_decode_value_1031, read_then_get_eq_some] at h
    obtain ⟨h1, _, rfl⟩ := h
    exact ⟨rfl, h1⟩
  · rw [ls_decode_value_1088, read_then_getn_eq_some] at h
    obtain ⟨h1, _, rfl⟩ := h
    exact ⟨rfl, h1⟩
  · rw [ls_decode_value_1089, read_then_getl_float_eq_some] at h
    obtain ⟨h1, _, rfl⟩ := h
    exact ⟨rfl, h1⟩
  · rw [ls_decode_value_1090, read_then_getl_float_eq_some] at h
    obtain ⟨h1, _, rfl⟩ := h
    exact ⟨rfl, h1⟩
  · rw [ls_decode_value_1091, read_then_array_float_eq_some] at h
    obtain ⟨h1, _, rfl⟩ := h
    exact ⟨rfl, h1⟩
  · rw [ls_decode_value_1092, read_then_getn_eq_some] at h
    obtain ⟨h1, _, rfl⟩ := h
    exact ⟨rfl, h1⟩
  · rw [ls_decode_value_1093, read_then_getn_eq_some] at h
    obtain ⟨h1, _, rfl⟩ := h
    exact ⟨rfl, h1⟩
  · rw [ls_decode_value_1094, read_then_getn_eq_some] at h
    obtain ⟨h1, _, rfl⟩ := h
    exact ⟨rfl, h1⟩
  · rw [ls_decode_value_1095, read_then_get_eq_some] at h
    obtain ⟨h1, _, rfl⟩ := h
    exact ⟨rfl, h1⟩
  · rw [ls_decode_value_1096, read_then_array_eq_some stream_getl 4 (fun _ => rfl)] at h
    obtain ⟨h1, _, rfl⟩ := h
    exact ⟨rfl, h1⟩
  · rw [ls_decode_value_1097, read_then_get_eq_some] at h
    obtain ⟨h1, _, rfl⟩ := h
    exact ⟨rfl, h1⟩
  · rw [ls_decode_value_1098, read_then_get_eq_some] at h
    obtain ⟨h1, _, rfl⟩ := h
    exact ⟨rfl, h1⟩
  · rw [ls_decode_value_1152, read_then_getn_eq_some] at h
    obtain ⟨h1, _, rfl⟩ := h
    exact ⟨rfl, h1⟩
  · rw [ls_decode_value_1153, read_then_array_eq_some stream_getl 4 (fun _ => rfl)] at h
    obtain ⟨h1, _, rfl⟩ := h
    exact ⟨rfl, h1⟩
  · rw [ls_decode_value_1154, read_then_array_eq_some stream_getq 8 (fun _ => rfl)] at h
    obtain ⟨h1, _, rfl⟩ := h
    exact ⟨rfl, h1⟩
  · rw [ls_decode_value_1155, read_then_getn_eq_some] at h
    obtain ⟨h1, _, rfl⟩ := h
    exact ⟨rfl, h1⟩
  · rw [ls_decode_value_1156] at h
    by_cases h4 : l = 4
    · subst h4
      rw [if_pos rfl, read_then_get_eq_some] at h
      obtain ⟨h1, _, rfl⟩ := h
      exact ⟨rfl, h1⟩
    · by_cases h16 : l = 16
      · subst h16
        rw [if_neg (by decide), if_pos rfl, read_then_get_eq_some] at h
        obtain ⟨h1, _, rfl⟩ := h
        exact ⟨rfl, h1⟩
      · rw [if_neg h4, if_neg h16] at h
        simp only [Option.some.injEq, Prod.mk.injEq] at h
        obtain ⟨_, rfl⟩ := h
        have e : ls_value_size a s 1156 l = 0 := by simp [ls_value_size, h4, h16]
        rw [e]
        exact ⟨rfl, Nat.zero_le _⟩
  · rw [ls_decode_value_1157, read_then_get_eq_some] at h
    obtain ⟨h1, _, rfl⟩ := h
    exact ⟨rfl, h1⟩

/-- One round of the loop of `bgp_link_state_decode` that returns has read the four
header bytes and then the value bytes its case reads. -/
theorem ls_decode_tlv_getp (a : attr) (s : stream) (a1 : attr) (s1 : stream)
    (h : ls_decode_tlv a s = some (a1, s1)) :
    s1 = ⟨s.data, s.getp + 4 + ls_value_size a ⟨s.data, s.getp + 4⟩ (peek_w s 0) (peek_w s 2)⟩ ∧
      4 + ls_value_size a ⟨s.data, s.getp + 4⟩ (peek_w s 0) (peek_w s 2) ≤ STREAM_READABLE s := by
  unfold ls_decode_tlv at h
  cases hg1 : stream_getw s with
  | none => rw [hg1] at h; simp at h
  | some p1 =>
    obtain ⟨v1, s2⟩ := p1
    rw [hg1] at h; simp only at h
    cases hg2 : stream_getw s2 with
    | none => rw [hg2] at h; simp at h
    | some p2 =>
      obtain ⟨v2, s3⟩ := p2
      rw [hg2] at h; simp only at h
      rw [stream_getw_eq_some] at hg1 hg2
      obtain ⟨r1, rfl, rfl⟩ := hg1
      obtain ⟨r2, rfl, rfl⟩ := hg2
      have e : peek_w ⟨s.data, s.getp + 2⟩ 0 = peek_w s 2 := by simp [peek_w]
      rw [e] at h
      have e4 : (⟨s.data, s.getp + 2 + 2⟩ : stream) = ⟨s.data, s.getp + 4⟩ := rfl
      rw [e4] at h
      obtain ⟨h1, h2⟩ := ls_decode_value_getp _ _ _ _ _ _ h
      simp only [STREAM_READABLE] at *
      exact ⟨by rw [h1], by omega⟩

theorem stream_while_fuel {σ : Type} (body : σ → stream → Option (σ × stream))
    (hb : body_advances body) (endp : Nat) (f1 f2 : Nat) (a : σ) (s : stream)
    (h1 : STREAM_READABLE s ≤ f1) (h2 : STREAM_READABLE s ≤ f2) :
    stream_while body endp f1 a s = stream_while body endp f2 a s := by
  induction f1 generalizing f2 a s with
  | zero =>
    cases f2 with
    | zero => rfl
    | succ k =>
      simp only [stream_while]
      split_ifs with hlt
      · cases hbody : body a s with
        | none => rfl
        | some p =>
          obtain ⟨a1, s1⟩ := p
          have := hb a s a1 s1 hbody
          simp only [STREAM_READABLE] at h1
          omega
      · rfl
  | succ n ih =>
    cases f2 with
    | zero =>
      simp only [stream_while]
      split_ifs with hlt
      · cases hbody : body a s with
        | none => rfl
        | some p =>
          obtain ⟨a1, s1⟩ := p
          have := hb a s a1 s1 hbody
          simp only [STREAM_READABLE] at h2
          omega
      · rfl
    | succ k =>
      simp only [stream_while]
      split_ifs with hlt
      · cases hbody : body a s with
        | none => rfl
        | some p =>
          obtain ⟨a1, s1⟩ := p
          obtain ⟨d, g1, g2⟩ := hb a s a1 s1 hbody
          simp only
          apply ih
          · simp only [STREAM_READABLE, d] at h1 ⊢; omega
          · simp only [STREAM_READABLE, d] at h2 ⊢; omega
      · rfl

theorem ls_decode_tlv_advances : body_advances ls_decode_tlv := by
  intro a s a1 s1 h
  obtain ⟨h1, h2⟩ := ls_decode_tlv_getp a s a1 s1 h
  subst h1
  simp only [STREAM_READABLE] at h2
  exact ⟨rfl, by simp only; omega, by simp only; omega⟩

theorem header_reads (s : stream) (h : 4 ≤ STREAM_READABLE s) :
    stream_getw s = some (peek_w s 0, ⟨s.data, s.getp + 2⟩) ∧
      stream_getw ⟨s.data, s.getp + 2⟩ = some (peek_w s 2, ⟨s.data, s.getp + 4⟩) := by
  constructor
  · exact (stream_getw_eq_some _ _ _).2 ⟨by omega, rfl, rfl⟩
  · exact (stream_getw_eq_some _ _ _).2 ⟨by simp only [STREAM_READABLE] at h ⊢; omega,
      by simp [peek_w], rfl⟩

theorem header_reads_none (s : stream) (h : STREAM_READABLE s < 4) :
    stream_getw s = none ∨
      (stream_getw s = some (peek_w s 0, ⟨s.data, s.getp + 2⟩) ∧
        stream_getw ⟨s.data, s.getp + 2⟩ = none) := by
  by_cases h2 : STREAM_READABLE s < 2
  · left; exact (stream_getn_eq_none _ _).2 h2
  · right
    refine ⟨(stream_getw_eq_some _ _ _).2 ⟨by omega, rfl, rfl⟩, ?_⟩
    exact (stream_getn_eq_none _ _).2 (by simp only [STREAM_READABLE] at h ⊢; omega)

theorem node_decode_subtlv_eq (m : mp_bgpls_nlri) (s : stream) :
    node_decode_subtlv m s = node_subtlv_ref copy_local_value copy_local_value_addr m s := by
  unfold node_decode_subtlv node_subtlv_ref
  by_cases hr : STREAM_READABLE s < 4
  · rw [if_pos hr]
    rcases header_reads_none s hr with h | ⟨h1, h2⟩
    · rw [h]
    · rw [h1]; simp only; rw [h2]
  · rw [if_neg hr]
    obtain ⟨h1, h2⟩ := header_reads s (by omega)
    rw [h1]; simp only; rw [h2]; simp only
    by_cases c1 : peek_w s 0 = 512
    · simp [c1]
    by_cases c2 : peek_w s 0 = 513
    · simp [c2]
    by_cases c3 : peek_w s 0 = 514
    · simp [c3]
    by_cases c4 : peek_w s 0 = 515
    · by_cases d1 : peek_w s 2 = 6
      · simp [c4, d1]
      by_cases d2 : peek_w s 2 = 7
      · simp [c4, d2]
      by_cases d3 : peek_w s 2 = 4
      · simp [c4, d3]
      by_cases d4 : peek_w s 2 = 8
      · simp [c4, d4]
      simp [c4, d1, d2, d3, d4]
    simp [c1, c2, c3, c4]

theorem link_decode_local_subtlv_eq (m : mp_bgpls_nlri) (s : stream) :
    link_decode_local_subtlv m s = node_subtlv_ref copy_local_value copy_local_value_addr m s := by
  unfold link_decode_local_subtlv node_subtlv_ref
  by_cases hr : STREAM_READABLE s < 4
  · rw [if_pos hr]
    rcases header_reads_none s hr with h | ⟨h1, h2⟩
    · rw [h]
    · rw [h1]; simp only; rw [h2]
  · rw [if_neg hr]
    obtain ⟨h1, h2⟩ := header_reads s (by omega)
    rw [h1]; simp only; rw [h2]; simp only
    by_cases c1 : peek_w s 0 = 512
    · simp [c1]
    by_cases c2 : peek_w s 0 = 513
    · simp [c2]
    by_cases c3 : peek_w s 0 = 514
    · simp [c3]
    by_cases c4 : peek_w s 0 = 515
    · by_cases d1 : peek_w s 2 = 6
      · simp [c4, d1]
      by_cases d2 : peek_w s 2 = 7
      · simp [c4, d2]
      by_cases d3 : peek_w s 2 = 4
      · simp [c4, d3]
      by_cases d4 : peek_w s 2 = 8
      · simp [c4, d4]
      simp [c4, d1, d2, d3, d4]
    simp [c1, c2, c3, c4]

theorem link_decode_remote_subtlv_eq (m : mp_bgpls_nlri) (s : stream) :
    link_decode_remote_subtlv m s = node_subtlv_ref copy_local_value copy_remote_value_addr m s := by
  unfold link_decode_remote_subtlv node_subtlv_ref
  by_cases hr : STREAM_READABLE s < 4
  · rw [if_pos hr]
    rcases header_reads_none s hr with h | ⟨h1, h2⟩
    · rw [h]
    · rw [h1]; simp only; rw [h2]
  · rw [if_neg hr]
    obtain ⟨h1, h2⟩ := header_reads s (by omega)
    rw [h1]; simp only; rw [h2]; simp only
    by_cases c1 : peek_w s 0 = 512
    · simp [c1]
    by_cases c2 : peek_w s 0 = 513
    · simp [c2]
    by_cases c3 : peek_w s 0 = 514
    · simp [c3]
    by_cases c4 : peek_w s 0 = 515
    · by_cases d1 : peek_w s 2 = 6
      · simp [c4, d1]
      by_cases d2 : peek_w s 2 = 7
      · simp [c4, d2]
      by_cases d3 : peek_w s 2 = 4
      · simp [c4, d3]
      by_cases d4 : peek_w s 2 = 8
      · simp [c4, d4]
      simp [c4, d1, d2, d3, d4]
    simp [c1, c2, c3, c4]

theorem prefix_decode_local_subtlv_eq (m : mp_bgpls_nlri) (s : stream) :
    prefix_decode_local_subtlv m s = node_subtlv_ref copy_local_value copy_local_value_addr m s := by
  unfold prefix_decode_local_subtlv node_subtlv_ref
  by_cases hr : STREAM_READABLE s < 4
  · rw [if_pos hr]
    rcases header_reads_none s hr with h | ⟨h1, h2⟩
    · rw [h]
    · rw [h1]; simp only; rw [h2]
  · rw [if_neg hr]
    obtain ⟨h1, h2⟩ := header_reads s (by omega)
    rw [h1]; simp only; rw [h2]; simp only
    by_cases c1 : peek_w s 0 = 512
    · simp [c1]
    by_cases c2 : peek_w s 0 = 513
    · simp [c2]
    by_cases c3 : peek_w s 0 = 514
    · simp [c3]
    by_cases c4 : peek_w s 0 = 515
    · by_cases d1 : peek_w s 2 = 6
      · simp [c4, d1]
      by_cases d2 : peek_w s 2 = 7
      · simp [c4, d2]
      by_cases d3 : peek_w s 2 = 4
      · simp [c4, d3]
      by_cases d4 : peek_w s 2 = 8
      · simp [c4, d4]
      simp [c4, d1, d2, d3, d4]
    simp [c1, c2, c3, c4]

theorem node_subtlv_ref_getp (cv cva : mp_bgpls_nlri → List Nat → mp_bgpls_nlri)
    (m : mp_bgpls_nlri) (s : stream) (m1 : mp_bgpls_nlri) (s1 : stream)
    (h : node_subtlv_ref cv cva m s = some (m1, s1)) :
    s1 = ⟨s.data, s.getp + 4 + node_value_size (peek_w s 0) (peek_w s 2)⟩ ∧
      4 + node_value_size (peek_w s 0) (peek_w s 2) ≤ STREAM_READABLE s := by
  unfold node_subtlv_ref at h
  unfold node_value_size
  split_ifs at h with c0 c1 c2
  · rw [read_then_get_eq_some] at h
    obtain ⟨h1, _, rfl⟩ := h
    rw [if_pos c1]
    refine ⟨rfl, ?_⟩
    simp only [STREAM_READABLE] at *
    omega
  · rw [read_then_get_eq_some] at h
    obtain ⟨h1, _, rfl⟩ := h
    rw [if_neg c1, if_pos c2]
    refine ⟨rfl, ?_⟩
    simp only [STREAM_READABLE] at *
    omega
  · simp only [Option.some.injEq, Prod.mk.injEq] at h
    obtain ⟨_, rfl⟩ := h
    rw [if_neg c1, if_neg c2]
    exact ⟨rfl, by omega⟩

theorem node_subtlv_ref_eq_none (cv cva : mp_bgpls_nlri → List Nat → mp_bgpls_nlri)
    (m : mp_bgpls_nlri) (s : stream) :
    node_subtlv_ref cv cva m s = none ↔
      STREAM_READABLE s < 4 + node_value_size (peek_w s 0) (peek_w s 2) := by
  constructor
  · intro h
    by_contra hc
    unfold node_subtlv_ref at h
    unfold node_value_size at hc
    split_ifs at h with c0 c1 c2
    · omega
    · rw [if_pos c1] at hc
      have := (read_then_get_eq_some ⟨s.data, s.getp + 4⟩ 4 (cv m) _ _).2
        ⟨by simp only [STREAM_READABLE] at hc ⊢; omega, rfl, rfl⟩
      rw [h] at this; simp at this
    · rw [if_neg c1, if_pos c2] at hc
      have := (read_then_get_eq_some ⟨s.data, s.getp + 4⟩ (peek_w s 2) (cva m) _ _).2
        ⟨by simp only [STREAM_READABLE] at hc ⊢; omega, rfl, rfl⟩
      rw [h] at this; simp at this
  · intro h
    cases hd : node_subtlv_ref cv cva m s with
    | none => rfl
    | some p =>
      obtain ⟨m1, s1⟩ := p
      have := (node_subtlv_ref_getp cv cva m s m1 s1 hd).2
      omega

theorem node_subtlv_ref_advances (cv cva : mp_bgpls_nlri → List Nat → mp_bgpls_nlri) :
    body_advances (node_subtlv_ref cv cva) := by
  intro m s m1 s1 h
  obtain ⟨h1, h2⟩ := node_subtlv_ref_getp cv cva m s m1 s1 h
  subst h1
  simp only [STREAM_READABLE] at h2
  exact ⟨rfl, by simp only; omega, by simp only; omega⟩

theorem link_decode_local_subtlv_advances : body_advances link_decode_local_subtlv := by
  intro m s m1 s1 h
  rw [link_decode_local_subtlv_eq] at h
  exact node_subtlv_ref_advances _ _ m s m1 s1 h

theorem link_decode_remote_subtlv_advances : body_advances link_decode_remote_subtlv := by
  intro m s m1 s1 h
  rw [link_decode_remote_subtlv_eq] at h
  exact node_subtlv_ref_advances _ _ m s m1 s1 h

theorem prefix_decode_local_subtlv_advances : body_advances prefix_decode_local_subtlv := by
  intro m s m1 s1 h
  rw [prefix_decode_local_subtlv_eq] at h
  exact node_subtlv_ref_advances _ _ m s m1 s1 h

theorem bgp_mp_node_decode_ret (args : bgp_attr_parser_args) (s : stream)
    (r : attr × stream × bgp_attr_parse_ret_t) (h : bgp_mp_node_decode args s = some r) :
    r.2.2 = BGP_ATTR_PARSE_PROCEED := by
  unfold bgp_mp_node_decode at h
  cases h1 : stream_getc s with
  | none => rw [h1] at h; simp at h
  | some p1 =>
    obtain ⟨v1, s1⟩ := p1
    rw [h1] at h; simp only at h
    cases h2 : stream_getq s1 with
    | none => rw [h2] at h; simp at h
    | some p2 =>
      obtain ⟨v2, s2⟩ := p2
      rw [h2] at h; simp only at h
      cases h3 : stream_getw s2 with
      | none => rw [h3] at h; simp at h
      | some p3 =>
        obtain ⟨v3, s3⟩ := p3
        rw [h3] at h; simp only at h
        cases h4 : stream_getw s3 with
        | none => rw [h4] at h; simp at h
        | some p4 =>
          obtain ⟨v4, s4⟩ := p4
          rw [h4] at h; simp only at h
          split_ifs at h
          · cases h5 : node_decode_subtlv _ s4 with
            | none => rw [h5] at h; simp at h
            | some p5 =>
              obtain ⟨m5, s5⟩ := p5
              rw [h5] at h
              simp only [Option.some.injEq] at h
              rw [← h]
          · simp only [Option.some.injEq] at h
            rw [← h]

theorem bgp_mp_link_decode_ret (args : bgp_attr_parser_args) (s : stream)
    (r : attr × stream × bgp_attr_parse_ret_t) (h : bgp_mp_link_decode args s = some r) :
    r.2.2 = BGP_ATTR_PARSE_PROCEED := by
  unfold bgp_mp_link_decode at h
  cases h1 : stream_getc s with
  | none => rw [h1] at h; simp at h
  | some p1 =>
    obtain ⟨v1, s1⟩ := p1
    rw [h1] at h; simp only at h
    cases h2 : stream_getq s1 with
    | none => rw [h2] at h; simp at h
    | some p2 =>
      obtain ⟨v2, s2⟩ := p2
      rw [h2] at h; simp only at h
      cases h3 : stream_getw s2 with
      | none => rw [h3] at h; simp at h
      | some p3 =>
        obtain ⟨v3, s3⟩ := p3
        rw [h3] at h; simp only at h
        cases h4 : stream_getw s3 with
        | none => rw [h4] at h; simp at h
        | some p4 =>
          obtain ⟨v4, s4⟩ := p4
          rw [h4] at h; simp only at h
          cases h5 : link_decode_switch v3 v4 _ s4 with
          | none => rw [h5] at h; simp at h
          | some p5 =>
            obtain ⟨m5, s5⟩ := p5
            rw [h5] at h
            simp only [Option.some.injEq] at h
            rw [← h]

theorem prefix_decode_switch_ret (t l : Nat) (m : mp_bgpls_nlri) (s : stream)
    (r : mp_bgpls_nlri × stream × bgp_attr_parse_ret_t)
    (h : prefix_decode_switch t l m s = some r) :
    (r.2.2 = BGP_ATTR_PARSE_ERROR_NOTIFYPLS ↔ t ∉ [256, 263, 264, 265]) ∧
      (r.2.2 = BGP_ATTR_PARSE_PROCEED ↔ t ∈ [256, 263, 264, 265]) := by
  unfold prefix_decode_switch at h
  split_ifs at h with c1 c2 c3 c4
  · simp only at h
    split at h
    · simp at h
    · simp only [Option.some.injEq] at h
      subst h; subst c1; simp
  · split at h
    · simp at h
    · split at h
      · simp at h
      · split at h
        · simp at h
        · simp only [Option.some.injEq] at h
          subst h; subst c2; simp
  · split at h
    · simp at h
    · split at h
      · simp at h
      · split at h
        · simp at h
        · simp only [Option.some.injEq] at h
          subst h; subst c3; simp
  · split at h
    · simp at h
    · split at h
      · simp at h
      · split at h
        · simp at h
        · split at h
          · simp at h
          · simp only [Option.some.injEq] at h
            subst h; subst c4; simp
  · simp only [Option.some.injEq] at h
    subst h
    simp [c1, c2, c3, c4]

theorem bgp_mp_prefix_decode_ret (args : bgp_attr_parser_args) (s : stream)
    (r : attr × stream × bgp_attr_parse_ret_t) (h : bgp_mp_prefix_decode args s = some r) :
    (r.2.2 = BGP_ATTR_PARSE_ERROR_NOTIFYPLS ↔ peek_w s 9 ∉ [256, 263, 264, 265]) ∧
      (r.2.2 = BGP_ATTR_PARSE_PROCEED ↔ peek_w s 9 ∈ [256, 263, 264, 265]) := by
  unfold bgp_mp_prefix_decode at h
  cases h1 : stream_getc s with
  | none => rw [h1] at h; simp at h
  | some p1 =>
    obtain ⟨v1, s1⟩ := p1
    rw [h1] at h; simp only at h
    cases h2 : stream_getq s1 with
    | none => rw [h2] at h; simp at h
    | some p2 =>
      obtain ⟨v2, s2⟩ := p2
      rw [h2] at h; simp only at h
      cases h3 : stream_getw s2 with
      | none => rw [h3] at h; simp at h
      | some p3 =>
        obtain ⟨v3, s3⟩ := p3
        rw [h3] at h; simp only at h
        cases h4 : stream_getw s3 with
        | none => rw [h4] at h; simp at h
        | some p4 =>
          obtain ⟨v4, s4⟩ := p4
          rw [h4] at h; simp only at h
          cases h5 : prefix_decode_switch v3 v4 _ s4 with
          | none => rw [h5] at h; simp at h
          | some p5 =>
            obtain ⟨m5, s5, ret⟩ := p5
            rw [h5] at h
            simp only [Option.some.injEq] at h
            have hr := prefix_decode_switch_ret _ _ _ _ _ h5
            have e : v3 = peek_w s 9 := by
              unfold stream_getc at h1
              unfold stream_getq at h2
              rw [stream_getn_eq_some] at h1 h2
              rw [stream_getw_eq_some] at h3
              obtain ⟨_, _, rfl⟩ := h1
              obtain ⟨_, _, rfl⟩ := h2
              obtain ⟨_, rfl, _⟩ := h3
              simp [peek_w, Nat.add_assoc]
            rw [← h, ← e]
            exact hr

theorem stream_while_done {σ : Type} (body : σ → stream → Option (σ × stream)) (endp : Nat)
    (fuel : Nat) (a : σ) (s : stream) (h : ¬ s.getp < endp) :
    stream_while body endp fuel a s = some (a, s) := by
  cases fuel <;> simp [stream_while, stream_get_getp, h]

theorem stream_while_step {σ : Type} (body : σ → stream → Option (σ × stream))
    (hb : body_advances body) (endp : Nat) (fuel : Nat) (a : σ) (s : stream) (a1 : σ)
    (s1 : stream) (h : s.getp < endp) (hbody : body a s = some (a1, s1))
    (hf : STREAM_READABLE s ≤ fuel) :
    stream_while body endp fuel a s = stream_while body endp (STREAM_READABLE s1) a1 s1 := by
  obtain ⟨d, g1, g2⟩ := hb a s a1 s1 hbody
  cases fuel with
  | zero => simp only [STREAM_READABLE] at hf; omega
  | succ k =>
    simp only [stream_while, stream_get_getp, h, if_true, hbody]
    apply stream_while_fuel body hb
    · simp only [STREAM_READABLE, d] at hf ⊢; omega
    · exact Nat.le_refl _

theorem stream_while_fail {σ : Type} (body : σ → stream → Option (σ × stream)) (endp : Nat)
    (fuel : Nat) (a : σ) (s : stream) (h : s.getp < endp) (hbody : body a s = none) :
    stream_while body endp fuel a s = none := by
  cases fuel <;> simp [stream_while, stream_get_getp, h, hbody]

theorem ls_decode_tlv_unknown (a : attr) (s : stream) (h : 4 ≤ STREAM_READABLE s)
    (ht : peek_w s 0 ∉ ls_known_types) :
    ls_decode_tlv a s = some (a, ⟨s.data, s.getp + 4⟩) := by
  unfold ls_decode_tlv
  obtain ⟨h1, h2⟩ := header_reads s h
  rw [h1]; simp only; rw [h2]; simp only
  exact ls_decode_value_default _ _ _ _ ht

theorem ls_decode_tlv_nfb (a : attr) (s : stream) (h : 5 ≤ STREAM_READABLE s)
    (ht : peek_w s 0 = BGP_NLRI_TLV_NODE_FLAG_BITS) :
    ls_decode_tlv a s =
      some ({ a with link_state_attr := { a.link_state_attr with nfb := peek_c s 4 } },
            ⟨s.data, s.getp + 5⟩) := by
  unfold ls_decode_tlv
  obtain ⟨h1, h2⟩ := header_reads s (by omega)
  rw [h1]; simp only; rw [h2]; simp only
  rw [ht, ls_decode_value_1024, read_then_getn_eq_some]
  refine ⟨by simp only [STREAM_READABLE] at h ⊢; omega, rfl, rfl⟩

theorem nlri_prelude (s : stream) (h : 13 ≤ STREAM_READABLE s) :
    stream_getc s = some (peek_c s 0, ⟨s.data, s.getp + 1⟩) ∧
    stream_getq ⟨s.data, s.getp + 1⟩ = some (peek_q s 1, ⟨s.data, s.getp + 9⟩) ∧
    stream_getw ⟨s.data, s.getp + 9⟩ = some (peek_w s 9, ⟨s.data, s.getp + 11⟩) ∧
    stream_getw ⟨s.data, s.getp + 11⟩ = some (peek_w s 11, ⟨s.data, s.getp + 13⟩) := by
  simp only [STREAM_READABLE] at h
  refine ⟨?_, ?_, ?_, ?_⟩
  · exact (stream_getn_eq_some _ _ _ _).2
      ⟨by simp only [STREAM_READABLE]; omega, by simp [peek_c], rfl⟩
  · exact (stream_getn_eq_some _ _ _ _).2
      ⟨by simp only [STREAM_READABLE]; omega, by simp [peek_q, peek_bytes], rfl⟩
  · exact (stream_getw_eq_some _ _ _).2
      ⟨by simp only [STREAM_READABLE]; omega, by simp [peek_w], rfl⟩
  · exact (stream_getw_eq_some _ _ _).2
      ⟨by simp only [STREAM_READABLE]; omega, by simp [peek_w], rfl⟩

theorem node_subtlv_ref_value (cv cva : mp_bgpls_nlri → List Nat → mp_bgpls_nlri)
    (m : mp_bgpls_nlri) (s : stream) (h : 8 ≤ STREAM_READABLE s)
    (ht : peek_w s 0 = 512 ∨ peek_w s 0 = 513 ∨ peek_w s 0 = 514) :
    node_subtlv_ref cv cva m s = some (cv m (peek_bytes s 4 4), ⟨s.data, s.getp + 8⟩) := by
  unfold node_subtlv_ref
  rw [if_neg (by omega), if_pos ht, read_then_get_eq_some]
  exact ⟨by simp only [STREAM_READABLE] at h ⊢; omega, rfl, rfl⟩

theorem node_subtlv_ref_router_id (cv cva : mp_bgpls_nlri → List Nat → mp_bgpls_nlri)
    (m : mp_bgpls_nlri) (s : stream) (ht : peek_w s 0 = 515)
    (hl : peek_w s 2 = 6 ∨ peek_w s 2 = 7 ∨ peek_w s 2 = 4 ∨ peek_w s 2 = 8)
    (h : 4 + peek_w s 2 ≤ STREAM_READABLE s) :
    node_subtlv_ref cv cva m s =
      some (cva m (peek_bytes s 4 (peek_w s 2)), ⟨s.data, s.getp + 4 + peek_w s 2⟩) := by
  unfold node_subtlv_ref
  rw [if_neg (by omega), if_neg (by omega), if_pos ⟨ht, hl⟩, read_then_get_eq_some]
  exact ⟨by simp only [STREAM_READABLE] at h ⊢; omega, rfl, rfl⟩

theorem node_subtlv_ref_header_only (cv cva : mp_bgpls_nlri → List Nat → mp_bgpls_nlri)
    (m : mp_bgpls_nlri) (s : stream) (h : 4 ≤ STREAM_READABLE s)
    (ht : ¬ (peek_w s 0 = 512 ∨ peek_w s 0 = 513 ∨ peek_w s 0 = 514))
    (hl : ¬ (peek_w s 0 = 515 ∧
      (peek_w s 2 = 6 ∨ peek_w s 2 = 7 ∨ peek_w s 2 = 4 ∨ peek_w s 2 = 8))) :
    node_subtlv_ref cv cva m s = some (m, ⟨s.data, s.getp + 4⟩) := by
  unfold node_subtlv_ref
  rw [if_neg (by omega), if_neg ht, if_neg hl]

theorem peek_bytes_length (s : stream) (off k : Nat) (h : off + k ≤ STREAM_READABLE s) :
    (peek_bytes s off k).length = k := by
  simp only [STREAM_READABLE] at h
  simp only [peek_bytes, List.length_map, List.length_take, List.length_drop]
  omega

theorem memcpy_take (dst src : List Nat) : (memcpy dst src).take src.length = src := by
  simp [memcpy]

theorem array_store_list_wire (a : List Nat) (k n : Nat) (bs : List Nat) :
    array_store_list a 0 (wire_values k n bs) = wire_values k n bs ++ a.drop n := by
  rw [array_store_list_zero, wire_values_length]

theorem ls_decode_tlv_srlg (a : attr) (s : stream)
    (ht : peek_w s 0 = BGP_NLRI_TLV_SHARED_RISK_LINK_GROUP)
    (h : 4 + 4 * (peek_w s 2 / 4) ≤ STREAM_READABLE s) :
    ls_decode_tlv a s =
      some ({ a with link_state_attr := { a.link_state_attr with
                srlg := wire_values 4 (peek_w s 2 / 4) (s.data.drop (s.getp + 4)) ++
                  a.link_state_attr.srlg.drop (peek_w s 2 / 4) } },
            ⟨s.data, s.getp + 4 + 4 * (peek_w s 2 / 4)⟩) := by
  unfold ls_decode_tlv
  obtain ⟨h1, h2⟩ := header_reads s (by omega)
  rw [h1]; simp only; rw [h2]; simp only
  rw [ht, ls_decode_value_1096, read_then_array_eq_some stream_getl 4 (fun _ => rfl)]
  refine ⟨by simp only [STREAM_READABLE] at h ⊢; omega, ?_, rfl⟩
  rw [array_store_list_wire]

theorem ls_decode_tlv_rt (a : attr) (s : stream)
    (ht : peek_w s 0 = BGP_NLRI_TLV_ROUTE_TAG)
    (h : 4 + 4 * (peek_w s 2 / 4) ≤ STREAM_READABLE s) :
    ls_decode_tlv a s =
      some ({ a with link_state_attr := { a.link_state_attr with
                rt := wire_values 4 (peek_w s 2 / 4) (s.data.drop (s.getp + 4)) ++
                  a.link_state_attr.rt.drop (peek_w s 2 / 4) } },
            ⟨s.data, s.getp + 4 + 4 * (peek_w s 2 / 4)⟩) := by
  unfold ls_decode_tlv
  obtain ⟨h1, h2⟩ := header_reads s (by omega)
  rw [h1]; simp only; rw [h2]; simp only
  rw [ht, ls_decode_value_1153, read_then_array_eq_some stream_getl 4 (fun _ => rfl)]
  refine ⟨by simp only [STREAM_READABLE] at h ⊢; omega, ?_, rfl⟩
  rw [array_store_list_wire]

theorem ls_decode_tlv_et (a : attr) (s : stream)
    (ht : peek_w s 0 = BGP_NLRI_TLV_EXTENDED_TAG)
    (h : 4 + 8 * (peek_w s 2 / 8) ≤ STREAM_READABLE s) :
    ls_decode_tlv a s =
      some ({ a with link_state_attr := { a.link_state_attr with
                et := wire_values 8 (peek_w s 2 / 8) (s.data.drop (s.getp + 4)) ++
                  a.link_state_attr.et.drop (peek_w s 2 / 8) } },
            ⟨s.data, s.getp + 4 + 8 * (peek_w s 2 / 8)⟩) := by
  unfold ls_decode_tlv
  obtain ⟨h1, h2⟩ := header_reads s (by omega)
  rw [h1]; simp only; rw [h2]; simp only
  rw [ht, ls_decode_value_1154, read_then_array_eq_some stream_getq 8 (fun _ => rfl)]
  refine ⟨by simp only [STREAM_READABLE] at h ⊢; omega, ?_, rfl⟩
  rw [array_store_list_wire]

theorem ls_decode_tlv_mid (a : attr) (s : stream)
    (ht : peek_w s 0 = BGP_NLRI_TLV_MULTI_TOPOLOGY_ID)
    (h : 8 + 2 * (peek_w s 6 / 2) ≤ STREAM_READABLE s) :
    ls_decode_tlv a s =
      some ({ a with mp_bgpls_nlri := { a.mp_bgpls_nlri with
                mid := wire_values 2 (peek_w s 6 / 2) (s.data.drop (s.getp + 8)) ++
                  a.mp_bgpls_nlri.mid.drop (peek_w s 6 / 2) } },
            ⟨s.data, s.getp + 8 + 2 * (peek_w s 6 / 2)⟩) := by
  unfold ls_decode_tlv
  obtain ⟨h1, h2⟩ := header_reads s (by omega)
  rw [h1]; simp only; rw [h2]; simp only
  obtain ⟨h3, h4⟩ := header_reads ⟨s.data, s.getp + 4⟩
    (by simp only [STREAM_READABLE] at h ⊢; omega)
  have e6 : peek_w ⟨s.data, s.getp + 4⟩ 2 = peek_w s 6 := by simp [peek_w, Nat.add_assoc]
  rw [e6] at h4
  rw [ht, ls_decode_value_263, h3]; simp only; rw [h4]; simp only
  rw [read_then_array_eq_some stream_getw 2 (fun _ => rfl)]
  refine ⟨by simp only [STREAM_READABLE] at h ⊢; omega, ?_, by simp [Nat.add_assoc]⟩
  rw [array_store_list_wire]

theorem link_decode_switch_mid (l : Nat) (m : mp_bgpls_nlri) (s : stream)
    (h : 4 + 2 * (peek_w s 2 / 2) ≤ STREAM_READABLE s) :
    link_decode_switch BGP_NLRI_TLV_MULTI_TOPOLOGY_ID l m s =
      some ({ m with mid := wire_values 2 (peek_w s 2 / 2) (s.data.drop (s.getp + 4)) ++
                m.mid.drop (peek_w s 2 / 2) },
            ⟨s.data, s.getp + 4 + 2 * (peek_w s 2 / 2)⟩) := by
  obtain ⟨h1, h2⟩ := header_reads s (by omega)
  have e : link_decode_switch BGP_NLRI_TLV_MULTI_TOPOLOGY_ID l m s =
      match stream_getw s with
      | none => none
      | some (_node_type, s1) =>
        match stream_getw s1 with
        | none => none
        | some (node_length, s2) =>
          read_then (read_array stream_getw (node_length / 2) 0 m.mid s2)
            (fun v => { m with mid := v }) := rfl
  rw [e, h1]; simp only; rw [h2]; simp only
  rw [read_then_array_eq_some stream_getw 2 (fun _ => rfl)]
  refine ⟨by simp only [STREAM_READABLE] at h ⊢; omega, ?_, rfl⟩
  rw [array_store_list_wire]

theorem prefix_decode_switch_mid (l : Nat) (m : mp_bgpls_nlri) (s : stream)
    (h : 4 + 2 * (peek_w s 2 / 2) ≤ STREAM_READABLE s) :
    prefix_decode_switch BGP_NLRI_TLV_MULTI_TOPOLOGY_ID l m s =
      some ({ m with mid := wire_values 2 (peek_w s 2 / 2) (s.data.drop (s.getp + 4)) ++
                m.mid.drop (peek_w s 2 / 2) },
            ⟨s.data, s.getp + 4 + 2 * (peek_w s 2 / 2)⟩, BGP_ATTR_PARSE_PROCEED) := by
  obtain ⟨h1, h2⟩ := header_reads s (by omega)
  have e : prefix_decode_switch BGP_NLRI_TLV_MULTI_TOPOLOGY_ID l m s =
      match stream_getw s with
      | none => none
      | some (_node_type, s1) =>
        match stream_getw s1 with
        | none => none
        | some (node_length, s2) =>
          match read_array stream_getw (node_length / 2) 0 m.mid s2 with
          | none => none
          | some (v, s3) => some ({ m with mid := v }, s3, BGP_ATTR_PARSE_PROCEED) := rfl
  rw [e, h1]; simp only; rw [h2]; simp only
  have hr := (read_array_eq_some stream_getw 2 (fun _ => rfl) (peek_w s 2 / 2) 0 m.mid
    ⟨s.data, s.getp + 4⟩ _ _).2
    ⟨by simp only [STREAM_READABLE] at h ⊢; omega, rfl, rfl⟩
  rw [hr]; simp only
  rw [array_store_list_wire]

theorem bgp_mp_link_decode_mid (args : bgp_attr_parser_args) (s : stream)
    (ht : peek_w s 9 = BGP_NLRI_TLV_MULTI_TOPOLOGY_ID)
    (h : 17 + 2 * (peek_w s 15 / 2) ≤ STREAM_READABLE s) :
    bgp_mp_link_decode args s =
      some ({ args.attr with mp_bgpls_nlri := { args.attr.mp_bgpls_nlri with
                proto_id := peek_c s 0, nlri_identifier := peek_q s 1,
                mid := wire_values 2 (peek_w s 15 / 2) (s.data.drop (s.getp + 17)) ++
                  args.attr.mp_bgpls_nlri.mid.drop (peek_w s 15 / 2) } },
            ⟨s.data, s.getp + 17 + 2 * (peek_w s 15 / 2)⟩, BGP_ATTR_PARSE_PROCEED) := by
  obtain ⟨h1, h2, h3, h4⟩ := nlri_prelude s (by omega)
  unfold bgp_mp_link_decode
  rw [h1]; simp only; rw [h2]; simp only; rw [h3]; simp only; rw [h4]; simp only
  have e : peek_w ⟨s.data, s.getp + 13⟩ 2 = peek_w s 15 := by simp [peek_w, Nat.add_assoc]
  rw [ht, link_decode_switch_mid _ _ _ (by rw [e]; simp only [STREAM_READABLE] at h ⊢; omega)]
  simp [e, Nat.add_assoc]

theorem bgp_mp_prefix_decode_mid (args : bgp_attr_parser_args) (s : stream)
    (ht : peek_w s 9 = BGP_NLRI_TLV_MULTI_TOPOLOGY_ID)
    (h : 17 + 2 * (peek_w s 15 / 2) ≤ STREAM_READABLE s) :
    bgp_mp_prefix_decode args s =
      some ({ args.attr with mp_bgpls_nlri := { args.attr.mp_bgpls_nlri with
                proto_id := peek_c s 0, nlri_identifier := peek_q s 1,
                mid := wire_values 2 (peek_w s 15 / 2) (s.data.drop (s.getp + 17)) ++
                  args.attr.mp_bgpls_nlri.mid.drop (peek_w s 15 / 2) } },
            ⟨s.data, s.getp + 17 + 2 * (peek_w s 15 / 2)⟩, BGP_ATTR_PARSE_PROCEED) := by
  obtain ⟨h1, h2, h3, h4⟩ := nlri_prelude s (by omega)
  unfold bgp_mp_prefix_decode
  rw [h1]; simp only; rw [h2]; simp only; rw [h3]; simp only; rw [h4]; simp only
  have e : peek_w ⟨s.data, s.getp + 13⟩ 2 = peek_w s 15 := by simp [peek_w, Nat.add_assoc]
  rw [ht, prefix_decode_switch_mid _ _ _ (by rw [e]; simp only [STREAM_READABLE] at h ⊢; omega)]
  simp [e, Nat.add_assoc]

theorem ls_decode_tlv_agc (a : attr) (s : stream) (h : 8 ≤ STREAM_READABLE s)
    (ht : peek_w s 0 = BGP_NLRI_TLV_ADMINISTRATIVE_GROUP_COLOR) :
    ls_decode_tlv a s =
      some ({ a with link_state_attr := { a.link_state_attr with agc := peek_l s 4 } },
            ⟨s.data, s.getp + 8⟩) := by
  unfold ls_decode_tlv
  obtain ⟨h1, h2⟩ := header_reads s (by omega)
  rw [h1]; simp only; rw [h2]; simp only
  rw [ht, ls_decode_value_1088, read_then_getn_eq_some]
  refine ⟨by simp only [STREAM_READABLE] at h ⊢; omega, rfl, rfl⟩

theorem ls_decode_tlv_urb (a : attr) (s : stream)
    (ht : peek_w s 0 = BGP_NLRI_TLV_UNRESERVED_BANDWIDTH)
    (h : 4 + 4 * a.link_state_attr.header_nlri_length ≤ STREAM_READABLE s) :
    ls_decode_tlv a s =
      some ({ a with link_state_attr := { a.link_state_attr with
                urb := (wire_values 4 a.link_state_attr.header_nlri_length
                    (s.data.drop (s.getp + 4))).map u32_to_float ++
                  a.link_state_attr.urb.drop a.link_state_attr.header_nlri_length } },
            ⟨s.data, s.getp + 4 + 4 * a.link_state_attr.header_nlri_length⟩) := by
  unfold ls_decode_tlv
  obtain ⟨h1, h2⟩ := header_reads s (by omega)
  rw [h1]; simp only; rw [h2]; simp only
  rw [ht, ls_decode_value_1091, read_then_array_float_eq_some]
  refine ⟨by simp only [STREAM_READABLE] at h ⊢; omega, ?_, rfl⟩
  rw [array_store_list_zero, List.length_map, wire_values_length]

theorem prefix_decode_switch_ipreach (l : Nat) (m : mp_bgpls_nlri) (s : stream)
    (h : 5 + peek_c s 4 ≤ STREAM_READABLE s) :
    prefix_decode_switch BGP_NLRI_TLV_IP_REACHABILITY_INFORMATION l m s =
      some ({ m with ipreach_prefix := peek_c s 4,
                     ipreach_value := memcpy m.ipreach_value (peek_bytes s 5 (peek_c s 4)) },
            ⟨s.data, s.getp + 5 + peek_c s 4⟩, BGP_ATTR_PARSE_PROCEED) := by
  obtain ⟨h1, h2⟩ := header_reads s (by omega)
  have e : prefix_decode_switch BGP_NLRI_TLV_IP_REACHABILITY_INFORMATION l m s =
      match stream_getw s with
      | none => none
      | some (_node_type, s1) =>
        match stream_getw s1 with
        | none => none
        | some (_node_length, s2) =>
          match stream_getc s2 with
          | none => none
          | some (p, s3) =>
            match stream_get s3 p with
            | none => none
            | some (v, s4) =>
              some ({ m with ipreach_prefix := p, ipreach_value := memcpy m.ipreach_value v },
                    s4, BGP_ATTR_PARSE_PROCEED) := rfl
  rw [e, h1]; simp only; rw [h2]; simp only
  have h3 : stream_getc ⟨s.data, s.getp + 4⟩ = some (peek_c s 4, ⟨s.data, s.getp + 5⟩) :=
    (stream_getn_eq_some _ _ _ _).2
      ⟨by simp only [STREAM_READABLE] at h ⊢; omega, by simp [peek_c], rfl⟩
  rw [h3]; simp only
  have h4 : stream_get ⟨s.data, s.getp + 5⟩ (peek_c s 4) =
      some (peek_bytes s 5 (peek_c s 4), ⟨s.data, s.getp + 5 + peek_c s 4⟩) :=
    (stream_get_eq_some _ _ _ _).2
      ⟨by simp only [STREAM_READABLE] at h ⊢; omega, by simp [peek_bytes], rfl⟩
  rw [h4]

theorem prefix_decode_switch_ipreach_none (l : Nat) (m : mp_bgpls_nlri) (s : stream)
    (h5 : 5 ≤ STREAM_READABLE s) (h : STREAM_READABLE s < 5 + peek_c s 4) :
    prefix_decode_switch BGP_NLRI_TLV_IP_REACHABILITY_INFORMATION l m s = none := by
  obtain ⟨h1, h2⟩ := header_reads s (by omega)
  have e : prefix_decode_switch BGP_NLRI_TLV_IP_REACHABILITY_INFORMATION l m s =
      match stream_getw s with
      | none => none
      | some (_node_type, s1) =>
        match stream_getw s1 with
        | none => none
        | some (_node_length, s2) =>
          match stream_getc s2 with
          | none => none
          | some (p, s3) =>
            match stream_get s3 p with
            | none => none
            | some (v, s4) =>
              some ({ m with ipreach_prefix := p, ipreach_value := memcpy m.ipreach_value v },
                    s4, BGP_ATTR_PARSE_PROCEED) := rfl
  rw [e, h1]; simp only; rw [h2]; simp only
  have h3 : stream_getc ⟨s.data, s.getp + 4⟩ = some (peek_c s 4, ⟨s.data, s.getp + 5⟩) :=
    (stream_getn_eq_some _ _ _ _).2
      ⟨by simp only [STREAM_READABLE] at h5 ⊢; omega, by simp [peek_c], rfl⟩
  rw [h3]; simp only
  have h4 : stream_get ⟨s.data, s.getp + 5⟩ (peek_c s 4) = none :=
    (stream_get_eq_none _ _).2 (by simp only [STREAM_READABLE] at h h5 ⊢; omega)
  rw [h4]

theorem ls_value_size_fixed (a : attr) (s : stream) (t : Nat) (ht : t ∈ ls_fixed_types)
    (l : Nat) : ls_value_size a s t l = ls_value_size a s t 0 := by
  simp only [ls_fixed_types, List.mem_cons, List.mem_singleton, List.mem_nil_iff, or_false] at ht
  rcases ht with e | e | e | e | e | e | e | e | e | e | e | e | e <;> simp [ls_value_size, e]

/-! ## Lemmas on the Link-State database -/

theorem heap_set_self (h : ls_heap) (p : Nat) (r : Option bgp_ls) : heap_set h p r p = r := by
  simp [heap_set]

theorem heap_set_other (h : ls_heap) (p q : Nat) (r : Option bgp_ls) (hq : q ≠ p) :
    heap_set h p r q = h q := by
  simp [heap_set, hq]

theorem route_info_clear_self (table : route_table) (k : Nat) :
    route_info (route_clear_info table k) k = none := by
  induction table with
  | nil => rfl
  | cons e t ih =>
    obtain ⟨k1, p1⟩ := e
    by_cases h : k1 = k
    · simpa [route_clear_info, List.filter_cons, h] using ih
    · simp only [route_clear_info, List.filter_cons, ne_eq, h, not_false_eq_true, decide_True,
        if_true, route_info, if_false]
      exact ih

theorem route_info_clear_other (table : route_table) (k k2 : Nat) (h2 : k2 ≠ k) :
    route_info (route_clear_info table k) k2 = route_info table k2 := by
  induction table with
  | nil => rfl
  | cons e t ih =>
    obtain ⟨k1, p1⟩ := e
    by_cases h : k1 = k
    · subst h
      have h3 : ¬ k1 = k2 := fun e => h2 e.symm
      simp only [route_info, h3, if_false]
      rw [← ih]
      simp [route_clear_info, List.filter_cons]
    · simp only [route_clear_info, List.filter_cons, ne_eq, h, not_false_eq_true, decide_True,
        if_true, route_info]
      by_cases h3 : k1 = k2
      · simp [h3]
      · simp only [h3, if_false]; exact ih

theorem route_clear_info_of_none (table : route_table) (k : Nat)
    (h : route_info table k = none) : route_clear_info table k = table := by
  induction table with
  | nil => rfl
  | cons e t ih =>
    obtain ⟨k1, p1⟩ := e
    by_cases h1 : k1 = k
    · simp [route_info, h1] at h
    · simp only [route_info, h1, if_false] at h
      have := ih h
      simp only [route_clear_info] at this ⊢
      rw [List.filter_cons_of_pos (by simpa using h1), this]

theorem route_info_set_self (table : route_table) (k p : Nat) :
    route_info (route_set_info table k p) k = some p := by
  simp [route_set_info, route_info]

theorem route_info_set_other (table : route_table) (k p k2 : Nat) (h2 : k2 ≠ k) :
    route_info (route_set_info table k p) k2 = route_info table k2 := by
  have h3 : ¬ k = k2 := fun e => h2 e.symm
  simp only [route_set_info, route_info, h3, if_false]
  exact route_info_clear_other table k k2 h2

theorem type_set_type_self (lsdb : bgp_lsdb) (t : Nat) (slot : lsdb_slot) :
    (type_set lsdb t slot).type t = slot := by
  simp [type_set]

theorem type_set_type_other (lsdb : bgp_lsdb) (t i : Nat) (slot : lsdb_slot) (h : i ≠ t) :
    (type_set lsdb t slot).type i = lsdb.type i := by
  simp [type_set, h]

theorem int_inc_lt (x : Int) (h : x < INT_MAX) : int_inc x = x + 1 := by
  have h1 : ¬ x = INT_MAX := by omega
  simp only [int_inc, if_neg h1]

theorem int_inc_max : int_inc INT_MAX = INT_MIN := rfl

theorem bgp_ls_lock_some (heap : ls_heap) (p : Nat) (r : bgp_ls) (h : heap p = some r) :
    bgp_ls_lock heap p = some (heap_set heap p (some { r with lock := int_inc r.lock })) := by
  simp [bgp_ls_lock, h]

theorem bgp_ls_unlock_some (heap : ls_heap) (p : Nat) (r : bgp_ls) (h : heap p = some r)
    (hl : 1 ≤ r.lock) :
    bgp_ls_unlock heap (some p) =
      some (heap_set heap p (if r.lock = 1 then none else some { r with lock := r.lock - 1 }),
            if r.lock = 1 then none else some p) := by
  simp only [bgp_ls_unlock, h, bgp_ls_free]
  have h1 : ¬ r.lock - 1 < 0 := by omega
  rw [if_neg h1]
  by_cases h2 : r.lock = 1
  · have h3 : r.lock - 1 = 0 := by omega
    simp [h2]
  · have h3 : ¬ r.lock - 1 = 0 := by omega
    simp [h2, h3]

theorem bgp_ls_unlock_eq_some (heap : ls_heap) (p : Nat) (heap1 : ls_heap) (hd : Option Nat)
    (h : bgp_ls_unlock heap (some p) = some (heap1, hd)) :
    ∃ r, heap p = some r ∧ 1 ≤ r.lock ∧
      heap1 = heap_set heap p (if r.lock = 1 then none else some { r with lock := r.lock - 1 }) ∧
      hd = if r.lock = 1 then none else some p := by
  cases hr : heap p with
  | none => simp [bgp_ls_unlock, hr] at h
  | some r =>
    by_cases hl : 1 ≤ r.lock
    · rw [bgp_ls_unlock_some heap p r hr hl] at h
      simp only [Option.some.injEq, Prod.mk.injEq] at h
      exact ⟨r, rfl, hl, h.1.symm, h.2.symm⟩
    · have h1 : r.lock - 1 < 0 := by omega
      simp [bgp_ls_unlock, hr, h1] at h

theorem lsdb_db_eq_some (lsdb : bgp_lsdb) (t : Nat) (table : route_table) :
    lsdb_db lsdb t = some table ↔
      t < BGP_LS_MAX_NLRI_TYPE ∧ (lsdb.type t).db = some table := by
  unfold lsdb_db
  split_ifs with h <;> simp [h]

theorem bgp_lsdb_delete_entry_some (st : lsdb_state) (t k : Nat) (table : route_table)
    (old : Nat) (ro : bgp_ls) (hdb : lsdb_db st.lsdb t = some table)
    (hi : route_info table k = some old) (hro : st.heap old = some ro)
    (hty : ro.nlri_type = t) (hl : 1 ≤ ro.lock) :
    bgp_lsdb_delete_entry st t k =
      some ⟨type_db_set
              { type_count_set st.lsdb t (ulong_dec (st.lsdb.type t).count) with
                total := ulong_dec st.lsdb.total }
              t (route_clear_info table k),
            heap_set st.heap old
              (if ro.lock = 1 then none else some { ro with lock := ro.lock - 1 })⟩ := by
  have ht := ((lsdb_db_eq_some _ _ _).1 hdb).1
  subst hty
  simp only [bgp_lsdb_delete_entry, hdb, hi, hro, ht, and_self, if_true,
    bgp_ls_unlock_some st.heap old ro hro hl]

theorem bgp_lsdb_delete_entry_none_info (st : lsdb_state) (t k : Nat) (table : route_table)
    (hdb : lsdb_db st.lsdb t = some table) (hi : route_info table k = none) :
    bgp_lsdb_delete_entry st t k = some st := by
  simp only [bgp_lsdb_delete_entry, hdb, hi]

theorem bgp_lsdb_delete_entry_eq_some (st st1 : lsdb_state) (t k : Nat) (table : route_table)
    (old : Nat) (hdb : lsdb_db st.lsdb t = some table) (hi : route_info table k = some old)
    (h : bgp_lsdb_delete_entry st t k = some st1) :
    ∃ ro, st.heap old = some ro ∧ ro.nlri_type = t ∧ 1 ≤ ro.lock ∧
      st1 = ⟨type_db_set
              { type_count_set st.lsdb t (ulong_dec (st.lsdb.type t).count) with
                total := ulong_dec st.lsdb.total }
              t (route_clear_info table k),
            heap_set st.heap old
              (if ro.lock = 1 then none else some { ro with lock := ro.lock - 1 })⟩ := by
  cases hro : st.heap old with
  | none => simp [bgp_lsdb_delete_entry, hdb, hi, hro] at h
  | some ro =>
    by_cases hty : ro.nlri_type = t
    · by_cases hl : 1 ≤ ro.lock
      · rw [bgp_lsdb_delete_entry_some st t k table old ro hdb hi hro hty hl] at h
        exact ⟨ro, rfl, hty, hl, (Option.some.inj h).symm⟩
      · have h1 : ro.lock - 1 < 0 := by omega
        simp [bgp_lsdb_delete_entry, hdb, hi, hro, bgp_ls_unlock, h1] at h
    · simp [bgp_lsdb_delete_entry, hdb, hi, hro, hty] at h

theorem type_sets_eq_put (lsdb : bgp_lsdb) (t c : Nat) (table : route_table) (total : Nat) :
    type_db_set { type_count_set lsdb t c with total := total } t table =
      lsdb_put lsdb t c table total := by
  simp only [type_db_set, type_count_set, type_set, lsdb_put, bgp_lsdb.mk.injEq, and_true]
  funext i
  by_cases h : i = t <;> simp [h]

theorem lsdb_put_put (lsdb : bgp_lsdb) (t c c1 : Nat) (table table1 : route_table)
    (total total1 : Nat) :
    lsdb_put (lsdb_put lsdb t c table total) t c1 table1 total1 =
      lsdb_put lsdb t c1 table1 total1 := by
  simp only [lsdb_put, bgp_lsdb.mk.injEq, and_true]
  funext i
  by_cases h : i = t <;> simp [h]

theorem type_count_set_db (lsdb : bgp_lsdb) (t c i : Nat) :
    ((type_count_set lsdb t c).type i).db = (lsdb.type i).db := by
  by_cases h : i = t <;> simp [type_count_set, type_set, h]

theorem lsdb_db_put_self (lsdb : bgp_lsdb) (t c : Nat) (table : route_table) (total : Nat)
    (ht : t < BGP_LS_MAX_NLRI_TYPE) : lsdb_db (lsdb_put lsdb t c table total) t = some table := by
  simp [lsdb_db, lsdb_put, ht]

theorem lsdb_db_put_other (lsdb : bgp_lsdb) (t c : Nat) (table : route_table) (total i : Nat)
    (hi : i ≠ t) : lsdb_db (lsdb_put lsdb t c table total) i = lsdb_db lsdb i := by
  simp [lsdb_db, lsdb_put, hi]

theorem bgp_lsdb_delete_entry_put (st : lsdb_state) (t k : Nat) (table : route_table)
    (old : Nat) (ro : bgp_ls) (hdb : lsdb_db st.lsdb t = some table)
    (hi : route_info table k = some old) (hro : st.heap old = some ro)
    (hty : ro.nlri_type = t) (hl : 1 ≤ ro.lock) :
    bgp_lsdb_delete_entry st t k =
      some ⟨lsdb_put st.lsdb t (ulong_dec (st.lsdb.type t).count) (route_clear_info table k)
              (ulong_dec st.lsdb.total),
            heap_set st.heap old
              (if ro.lock = 1 then none else some { ro with lock := ro.lock - 1 })⟩ := by
  rw [bgp_lsdb_delete_entry_some st t k table old ro hdb hi hro hty hl, type_sets_eq_put]

theorem bgp_lsdb_add_round_stored (st : lsdb_state) (ls : Nat) (r : bgp_ls)
    (table : route_table) (hr : st.heap ls = some r)
    (hdb : lsdb_db st.lsdb r.nlri_type = some table)
    (hi : route_info table r.key = some ls) :
    bgp_lsdb_add_round st ls = some (st, true) := by
  simp only [bgp_lsdb_add_round, hr, hdb, hi, if_true]

theorem bgp_lsdb_add_round_absent (st : lsdb_state) (ls : Nat) (r : bgp_ls)
    (table : route_table) (hr : st.heap ls = some r)
    (hdb : lsdb_db st.lsdb r.nlri_type = some table)
    (hi : route_info table r.key = none) :
    bgp_lsdb_add_round st ls =
      some (⟨lsdb_put st.lsdb r.nlri_type (ulong_inc (st.lsdb.type r.nlri_type).count)
               (route_set_info table r.key ls) (ulong_inc st.lsdb.total),
             heap_set st.heap ls (some { r with lock := int_inc r.lock })⟩, false) := by
  obtain ⟨ht, hdb1⟩ := (lsdb_db_eq_some _ _ _).1 hdb
  simp only [bgp_lsdb_add_round, hr, hdb, hi, reduceCtorEq, if_false, if_true, ht,
    bgp_ls_lock_some st.heap ls r hr, type_count_set_db, hdb1, type_sets_eq_put]

theorem bgp_lsdb_add_round_replace (st : lsdb_state) (ls : Nat) (r : bgp_ls)
    (table : route_table) (old : Nat) (ro : bgp_ls) (hr : st.heap ls = some r)
    (hdb : lsdb_db st.lsdb r.nlri_type = some table)
    (hi : route_info table r.key = some old) (hne : old ≠ ls)
    (hro : st.heap old = some ro) (hty : ro.nlri_type = r.nlri_type) (hl : 1 ≤ ro.lock) :
    bgp_lsdb_add_round st ls =
      some (⟨lsdb_put st.lsdb r.nlri_type
               (ulong_inc (ulong_dec (st.lsdb.type r.nlri_type).count))
               (route_set_info table r.key ls) (ulong_inc (ulong_dec st.lsdb.total)),
             heap_set
               (heap_set st.heap old
                 (if ro.lock = 1 then none else some { ro with lock := ro.lock - 1 }))
               ls (some { r with lock := int_inc r.lock })⟩, false) := by
  obtain ⟨ht, hdb1⟩ := (lsdb_db_eq_some _ _ _).1 hdb
  have hne1 : ¬ some old = some ls := fun e => hne (Option.some.inj e)
  have hls : heap_set st.heap old
      (if ro.lock = 1 then none else some { ro with lock := ro.lock - 1 }) ls = some r := by
    rw [heap_set_other _ _ _ _ (Ne.symm hne), hr]
  have e2 : route_set_info (route_clear_info table r.key) r.key ls =
      route_set_info table r.key ls := by
    simp only [route_set_info]
    rw [route_clear_info_of_none _ _ (route_info_clear_self table r.key)]
  have e3 : (lsdb_put st.lsdb r.nlri_type (ulong_dec (st.lsdb.type r.nlri_type).count)
      (route_clear_info table r.key) (ulong_dec st.lsdb.total)).type r.nlri_type =
      ⟨ulong_dec (st.lsdb.type r.nlri_type).count, some (route_clear_info table r.key)⟩ := by
    simp [lsdb_put]
  simp only [bgp_lsdb_add_round, hr, hdb, hi, hne1, reduceCtorEq, if_false,
    bgp_lsdb_delete_entry_put st r.nlri_type r.key table old ro hdb hi hro hty hl, hls, ht,
    if_true, bgp_ls_lock_some _ ls r hls, type_count_set_db, type_sets_eq_put, lsdb_put_put,
    e2, e3]
  rfl

theorem add_loop_indices :
    for_range BGP_LS_MIN_NLRI_TYPE (BGP_LS_MAX_NLRI_TYPE + 1) = [1, 2, 3, 4] := by decide

theorem delete_all_loop_indices :
    for_range BGP_LS_MIN_NLRI_TYPE BGP_LS_MAX_NLRI_TYPE = [1, 2, 3] := by decide

theorem bgp_lsdb_add_of_stored (st : lsdb_state) (ls : Nat) (r : bgp_ls)
    (table : route_table) (hr : st.heap ls = some r)
    (hdb : lsdb_db st.lsdb r.nlri_type = some table)
    (hi : route_info table r.key = some ls) :
    bgp_lsdb_add st ls = some st := by
  simp only [bgp_lsdb_add, add_loop_indices, for_rounds,
    bgp_lsdb_add_round_stored st ls r table hr hdb hi]

theorem bgp_lsdb_add_of_absent (st : lsdb_state) (ls : Nat) (r : bgp_ls)
    (table : route_table) (hr : st.heap ls = some r)
    (hdb : lsdb_db st.lsdb r.nlri_type = some table)
    (hi : route_info table r.key = none) :
    bgp_lsdb_add st ls =
      some ⟨lsdb_put st.lsdb r.nlri_type (ulong_inc (st.lsdb.type r.nlri_type).count)
              (route_set_info table r.key ls) (ulong_inc st.lsdb.total),
            heap_set st.heap ls (some { r with lock := int_inc r.lock })⟩ := by
  have ht := ((lsdb_db_eq_some _ _ _).1 hdb).1
  have h2 := bgp_lsdb_add_round_stored
    ⟨lsdb_put st.lsdb r.nlri_type (ulong_inc (st.lsdb.type r.nlri_type).count)
       (route_set_info table r.key ls) (ulong_inc st.lsdb.total),
     heap_set st.heap ls (some { r with lock := int_inc r.lock })⟩ ls
    { r with lock := int_inc r.lock } (route_set_info table r.key ls)
    (heap_set_self _ _ _) (lsdb_db_put_self _ _ _ _ _ ht) (route_info_set_self _ _ _)
  simp only [bgp_lsdb_add, add_loop_indices, for_rounds,
    bgp_lsdb_add_round_absent st ls r table hr hdb hi, h2]

theorem bgp_lsdb_add_of_other (st : lsdb_state) (ls : Nat) (r : bgp_ls)
    (table : route_table) (old : Nat) (ro : bgp_ls) (hr : st.heap ls = some r)
    (hdb : lsdb_db st.lsdb r.nlri_type = some table)
    (hi : route_info table r.key = some old) (hne : old ≠ ls)
    (hro : st.heap old = some ro) (hty : ro.nlri_type = r.nlri_type) (hl : 1 ≤ ro.lock) :
    bgp_lsdb_add st ls =
      some ⟨lsdb_put st.lsdb r.nlri_type
              (ulong_inc (ulong_dec (st.lsdb.type r.nlri_type).count))
              (route_set_info table r.key ls) (ulong_inc (ulong_dec st.lsdb.total)),
            heap_set
              (heap_set st.heap old
                (if ro.lock = 1 then none else some { ro with lock := ro.lock - 1 }))
              ls (some { r with lock := int_inc r.lock })⟩ := by
  have ht := ((lsdb_db_eq_some _ _ _).1 hdb).1
  have h2 := bgp_lsdb_add_round_stored
    ⟨lsdb_put st.lsdb r.nlri_type (ulong_inc (ulong_dec (st.lsdb.type r.nlri_type).count))
       (route_set_info table r.key ls) (ulong_inc (ulong_dec st.lsdb.total)),
     heap_set
       (heap_set st.heap old
         (if ro.lock = 1 then none else some { ro with lock := ro.lock - 1 }))
       ls (some { r with lock := int_inc r.lock })⟩ ls
    { r with lock := int_inc r.lock } (route_set_info table r.key ls)
    (heap_set_self _ _ _) (lsdb_db_put_self _ _ _ _ _ ht) (route_info_set_self _ _ _)
  simp only [bgp_lsdb_add, add_loop_indices, for_rounds,
    bgp_lsdb_add_round_replace st ls r table old ro hr hdb hi hne hro hty hl, h2]

theorem bgp_lsdb_add_eq_some (st st1 : lsdb_state) (ls : Nat)
    (h : bgp_lsdb_add st ls = some st1) :
    ∃ r table, st.heap ls = some r ∧ lsdb_db st.lsdb r.nlri_type = some table ∧
      ((route_info table r.key = some ls ∧ st1 = st) ∨
       (route_info table r.key = none ∧
         st1 = ⟨lsdb_put st.lsdb r.nlri_type (ulong_inc (st.lsdb.type r.nlri_type).count)
                  (route_set_info table r.key ls) (ulong_inc st.lsdb.total),
                heap_set st.heap ls (some { r with lock := int_inc r.lock })⟩) ∨
       (∃ old ro, route_info table r.key = some old ∧ old ≠ ls ∧ st.heap old = some ro ∧
         ro.nlri_type = r.nlri_type ∧ 1 ≤ ro.lock ∧
         st1 = ⟨lsdb_put st.lsdb r.nlri_type
                  (ulong_inc (ulong_dec (st.lsdb.type r.nlri_type).count))
                  (route_set_info table r.key ls) (ulong_inc (ulong_dec st.lsdb.total)),
                heap_set
                  (heap_set st.heap old
                    (if ro.lock = 1 then none else some { ro with lock := ro.lock - 1 }))
                  ls (some { r with lock := int_inc r.lock })⟩)) := by
  cases hr : st.heap ls with
  | none =>
    simp [bgp_lsdb_add, add_loop_indices, for_rounds, bgp_lsdb_add_round, hr] at h
  | some r =>
    cases hdb : lsdb_db st.lsdb r.nlri_type with
    | none =>
      simp [bgp_lsdb_add, add_loop_indices, for_rounds, bgp_lsdb_add_round, hr, hdb] at h
    | some table =>
      refine ⟨r, table, rfl, hdb, ?_⟩
      cases hi : route_info table r.key with
      | none =>
        rw [bgp_lsdb_add_of_absent st ls r table hr hdb hi] at h
        exact Or.inr (Or.inl ⟨rfl, (Option.some.inj h).symm⟩)
      | some old =>
        by_cases hne : old = ls
        · subst hne
          rw [bgp_lsdb_add_of_stored st old r table hr hdb hi] at h
          exact Or.inl ⟨rfl, (Option.some.inj h).symm⟩
        · right; right
          have hne1 : ¬ some old = some ls := fun e => hne (Option.some.inj e)
          cases hd : bgp_lsdb_delete_entry st r.nlri_type r.key with
          | none =>
            simp [bgp_lsdb_add, add_loop_indices, for_rounds, bgp_lsdb_add_round, hr, hdb, hi,
              hne1, hd] at h
          | some st2 =>
            obtain ⟨ro, hro, hty, hl, _⟩ :=
              bgp_lsdb_delete_entry_eq_some st st2 r.nlri_type r.key table old hdb hi hd
            rw [bgp_lsdb_add_of_other st ls r table old ro hr hdb hi hne hro hty hl] at h
            exact ⟨old, ro, rfl, hne, hro, hty, hl, (Option.some.inj h).symm⟩

theorem ulong_inc_dec (c : Nat) (h : c ≤ ULONG_MAX) : ulong_inc (ulong_dec c) = c := by
  simp only [ulong_inc, ulong_dec, ULONG_MAX] at h ⊢
  split_ifs with h0 <;> omega

theorem ulong_inc_lt (c : Nat) (h : c < ULONG_MAX) : ulong_inc c = c + 1 := by
  simp only [ulong_inc, ULONG_MAX] at h ⊢
  omega

theorem ulong_dec_pos (c : Nat) (h0 : 0 < c) : ulong_dec c = c - 1 := by
  simp only [ulong_dec]
  rw [if_neg (by omega)]

theorem bgp_lsdb_add_stores (st st1 : lsdb_state) (ls : Nat)
    (h : bgp_lsdb_add st ls = some st1) :
    ∃ r1 table1, st1.heap ls = some r1 ∧ lsdb_db st1.lsdb r1.nlri_type = some table1 ∧
      route_info table1 r1.key = some ls := by
  obtain ⟨r, table, hr, hdb, h3⟩ := bgp_lsdb_add_eq_some st st1 ls h
  have ht := ((lsdb_db_eq_some _ _ _).1 hdb).1
  rcases h3 with ⟨hi, rfl⟩ | ⟨_, rfl⟩ | ⟨old, ro, _, _, _, _, _, rfl⟩
  · exact ⟨r, table, hr, hdb, hi⟩
  · exact ⟨_, _, heap_set_self _ _ _, lsdb_db_put_self _ _ _ _ _ ht, route_info_set_self _ _ _⟩
  · exact ⟨_, _, heap_set_self _ _ _, lsdb_db_put_self _ _ _ _ _ ht, route_info_set_self _ _ _⟩

theorem bgp_lsdb_delete_not_stored (st : lsdb_state) (p : Nat) (r : bgp_ls)
    (table : route_table) (hr : st.heap p = some r)
    (hdb : lsdb_db st.lsdb r.nlri_type = some table) (hi : route_info table r.key ≠ some p) :
    bgp_lsdb_delete st (some p) = some st := by
  obtain ⟨ht, hdb1⟩ := (lsdb_db_eq_some _ _ _).1 hdb
  simp only [bgp_lsdb_delete, hr, ht, if_true, hdb1]
  cases hinfo : route_info table r.key with
  | none => rfl
  | some info =>
    have hne : ¬ info = p := fun e => hi (by rw [hinfo, e])
    simp only [hne, if_false]

theorem bgp_lsdb_delete_stored (st : lsdb_state) (p : Nat) (r : bgp_ls)
    (table : route_table) (hr : st.heap p = some r)
    (hdb : lsdb_db st.lsdb r.nlri_type = some table) (hi : route_info table r.key = some p) :
    bgp_lsdb_delete st (some p) = bgp_lsdb_delete_entry st r.nlri_type r.key := by
  obtain ⟨ht, hdb1⟩ := (lsdb_db_eq_some _ _ _).1 hdb
  simp only [bgp_lsdb_delete, hr, ht, if_true, hdb1, hi]

theorem heap_set_set (h : ls_heap) (p : Nat) (a b : Option bgp_ls) :
    heap_set (heap_set h p a) p b = heap_set h p b := by
  funext q
  by_cases hq : q = p <;> simp [heap_set, hq]

theorem bgp_ls_lock_set (h : ls_heap) (p : Nat) (r : bgp_ls) :
    bgp_ls_lock (heap_set h p (some r)) p =
      some (heap_set h p (some { r with lock := int_inc r.lock })) := by
  rw [bgp_ls_lock_some _ p r (heap_set_self _ _ _), heap_set_set]

theorem bgp_ls_unlock_set (h : ls_heap) (p : Nat) (r : bgp_ls) (hl : 1 ≤ r.lock) :
    bgp_ls_unlock (heap_set h p (some r)) (some p) =
      some (heap_set h p (if r.lock = 1 then none else some { r with lock := r.lock - 1 }),
            if r.lock = 1 then none else some p) := by
  rw [bgp_ls_unlock_some _ p r (heap_set_self _ _ _) hl, heap_set_set]

theorem route_clear_info_keys (table : route_table) (k : Nat) :
    (route_clear_info table k).map Prod.fst =
      (table.map Prod.fst).filter (fun x => decide (x ≠ k)) := by
  induction table with
  | nil => rfl
  | cons e t ih =>
    obtain ⟨k1, p1⟩ := e
    simp only [route_clear_info] at ih
    by_cases h : k1 = k <;> simpa [route_clear_info, List.filter_cons, h] using ih

theorem route_clear_info_nodup (table : route_table) (k : Nat)
    (hn : (table.map Prod.fst).Nodup) : ((route_clear_info table k).map Prod.fst).Nodup := by
  rw [route_clear_info_keys]
  exact hn.filter _

theorem route_set_info_nodup (table : route_table) (k p : Nat)
    (hn : (table.map Prod.fst).Nodup) : ((route_set_info table k p).map Prod.fst).Nodup := by
  simp only [route_set_info, List.map_cons, List.nodup_cons]
  refine ⟨?_, route_clear_info_nodup table k hn⟩
  rw [route_clear_info_keys]
  simp

theorem lsdb_db_put (lsdb : bgp_lsdb) (t c : Nat) (table : route_table) (total i : Nat)
    (ht : t < BGP_LS_MAX_NLRI_TYPE) :
    lsdb_db (lsdb_put lsdb t c table total) i =
      if i = t then some table else lsdb_db lsdb i := by
  by_cases h : i = t
  · subst h; simp [lsdb_db_put_self _ _ _ _ _ ht]
  · simp [lsdb_db_put_other _ _ _ _ _ _ h, h]

theorem lsdb_refs_ok_put (st : lsdb_state) (t c total : Nat) (table1 : route_table)
    (heap1 : ls_heap) (hinv : lsdb_refs_ok st) (ht : t < BGP_LS_MAX_NLRI_TYPE)
    (hn : (table1.map Prod.fst).Nodup)
    (h1 : ∀ k p, route_info table1 k = some p →
      ∃ r, heap1 p = some r ∧ r.nlri_type = t ∧ r.key = k ∧ 1 ≤ r.lock)
    (h2 : ∀ p r, st.heap p = some r → r.nlri_type ≠ t → heap1 p = some r)
    (h3 : ∀ p r, heap1 p = some r → 0 ≤ r.lock) :
    lsdb_refs_ok ⟨lsdb_put st.lsdb t c table1 total, heap1⟩ := by
  obtain ⟨i1, i2, _⟩ := hinv
  refine ⟨?_, ?_, h3⟩
  · intro t2 table2 hdb
    simp only [lsdb_db_put _ _ _ _ _ _ ht] at hdb
    by_cases h : t2 = t
    · simp only [h, if_true, Option.some.injEq] at hdb
      rw [← hdb]; exact hn
    · simp only [h, if_false] at hdb
      exact i1 t2 table2 hdb
  · intro t2 table2 k p hdb hi
    simp only [lsdb_db_put _ _ _ _ _ _ ht] at hdb
    by_cases h : t2 = t
    · simp only [h, if_true, Option.some.injEq] at hdb
      subst hdb
      rw [h]
      exact h1 k p hi
    · simp only [h, if_false] at hdb
      obtain ⟨r, hr, hty, hk, hl⟩ := i2 t2 table2 k p hdb hi
      exact ⟨r, h2 p r hr (by rw [hty]; exact h), hty, hk, hl⟩

theorem lsdb_refs_ok_delete_entry (st st1 : lsdb_state) (t k : Nat) (hinv : lsdb_refs_ok st)
    (h : bgp_lsdb_delete_entry st t k = some st1) : lsdb_refs_ok st1 := by
  cases hdb : lsdb_db st.lsdb t with
  | none => simp [bgp_lsdb_delete_entry, hdb] at h
  | some table =>
    have ht := ((lsdb_db_eq_some _ _ _).1 hdb).1
    cases hi : route_info table k with
    | none =>
      rw [bgp_lsdb_delete_entry_none_info st t k table hdb hi] at h
      rw [← Option.some.inj h]; exact hinv
    | some old =>
      obtain ⟨ro, hro, hty, hl, rfl⟩ := bgp_lsdb_delete_entry_eq_some st st1 t k table old hdb hi h
      rw [type_sets_eq_put]
      obtain ⟨i1, i2, i3⟩ := hinv
      obtain ⟨ro2, hro2, _, hk2, _⟩ := i2 t table k old hdb hi
      rw [hro] at hro2
      obtain rfl := Option.some.inj hro2
      refine lsdb_refs_ok_put st t _ _ _ _ ⟨i1, i2, i3⟩ ht
        (route_clear_info_nodup table k (i1 t table hdb)) ?_ ?_ ?_
      · intro k2 p hi2
        have hk : k2 ≠ k := by
          intro e; rw [e, route_info_clear_self] at hi2; simp at hi2
        rw [route_info_clear_other table k k2 hk] at hi2
        obtain ⟨r, hr, hty2, hkk, hl2⟩ := i2 t table k2 p hdb hi2
        have hp : p ≠ old := by
          intro e; rw [e, hro] at hr
          obtain rfl := Option.some.inj hr
          exact hk (hkk.symm.trans hk2)
        exact ⟨r, by rw [heap_set_other _ _ _ _ hp]; exact hr, hty2, hkk, hl2⟩
      · intro p r hr hne
        have hp : p ≠ old := by
          intro e; rw [e, hro] at hr
          obtain rfl := Option.some.inj hr
          exact hne hty
        rw [heap_set_other _ _ _ _ hp]; exact hr
      · intro p r hr
        by_cases hp : p = old
        · subst hp
          rw [heap_set_self] at hr
          by_cases h1l : ro.lock = 1
          · simp [h1l] at hr
          · simp only [h1l, if_false, Option.some.injEq] at hr
            rw [← hr]; simp only; omega
        · rw [heap_set_other _ _ _ _ hp] at hr
          exact i3 p r hr

theorem lsdb_refs_ok_add (st st1 : lsdb_state) (ls : Nat) (hinv : lsdb_refs_ok st)
    (hb : ∀ r, st.heap ls = some r → r.lock < INT_MAX)
    (h : bgp_lsdb_add st ls = some st1) : lsdb_refs_ok st1 := by
  obtain ⟨r, table, hr, hdb, h3⟩ := bgp_lsdb_add_eq_some st st1 ls h
  have ht := ((lsdb_db_eq_some _ _ _).1 hdb).1
  obtain ⟨i1, i2, i3⟩ := hinv
  have hinc := int_inc_lt r.lock (hb r hr)
  rcases h3 with ⟨_, rfl⟩ | ⟨_, rfl⟩ | ⟨old, ro, hi, hne, hro, hty, hl, rfl⟩
  · exact ⟨i1, i2, i3⟩
  · refine lsdb_refs_ok_put st r.nlri_type _ _ _ _ ⟨i1, i2, i3⟩ ht
      (route_set_info_nodup table r.key ls (i1 _ table hdb)) ?_ ?_ ?_
    · intro k p hi2
      by_cases hk : k = r.key
      · subst hk
        rw [route_info_set_self] at hi2
        obtain rfl := Option.some.inj hi2
        exact ⟨_, heap_set_self _ _ _, rfl, rfl, by have := i3 ls r hr; simp only [hinc]; omega⟩
      · rw [route_info_set_other table r.key ls k hk] at hi2
        obtain ⟨r2, hr2, hty2, hkk, hl2⟩ := i2 _ table k p hdb hi2
        have hp : p ≠ ls := by
          intro e; rw [e, hr] at hr2
          obtain rfl := Option.some.inj hr2
          exact hk hkk.symm
        exact ⟨r2, by rw [heap_set_other _ _ _ _ hp]; exact hr2, hty2, hkk, hl2⟩
    · intro p r2 hr2 hne
      have hp : p ≠ ls := by
        intro e; rw [e, hr] at hr2
        obtain rfl := Option.some.inj hr2
        exact hne rfl
      rw [heap_set_other _ _ _ _ hp]; exact hr2
    · intro p r2 hr2
      by_cases hp : p = ls
      · subst hp
        rw [heap_set_self] at hr2
        rw [← Option.some.inj hr2]
        have := i3 p r hr
        simp only [hinc]; omega
      · rw [heap_set_other _ _ _ _ hp] at hr2
        exact i3 p r2 hr2
  · obtain ⟨ro2, hro2, _, hk2, _⟩ := i2 _ table r.key old hdb hi
    rw [hro] at hro2
    obtain rfl := Option.some.inj hro2
    refine lsdb_refs_ok_put st r.nlri_type _ _ _ _ ⟨i1, i2, i3⟩ ht
      (route_set_info_nodup table r.key ls (i1 _ table hdb)) ?_ ?_ ?_
    · intro k p hi2
      by_cases hk : k = r.key
      · subst hk
        rw [route_info_set_self] at hi2
        obtain rfl := Option.some.inj hi2
        exact ⟨_, heap_set_self _ _ _, rfl, rfl, by have := i3 ls r hr; simp only [hinc]; omega⟩
      · rw [route_info_set_other table r.key ls k hk] at hi2
        obtain ⟨r2, hr2, hty2, hkk, hl2⟩ := i2 _ table k p hdb hi2
        have hp : p ≠ ls := by
          intro e; rw [e, hr] at hr2
          obtain rfl := Option.some.inj hr2
          exact hk hkk.symm
        have hp2 : p ≠ old := by
          intro e; rw [e, hro] at hr2
          obtain rfl := Option.some.inj hr2
          exact hk (hkk.symm.trans hk2)
        exact ⟨r2, by rw [heap_set_other _ _ _ _ hp, heap_set_other _ _ _ _ hp2]; exact hr2,
          hty2, hkk, hl2⟩
    · intro p r2 hr2 hne2
      have hp : p ≠ ls := by
        intro e; rw [e, hr] at hr2
        obtain rfl := Option.some.inj hr2
        exact hne2 rfl
      have hp2 : p ≠ old := by
        intro e; rw [e, hro] at hr2
        obtain rfl := Option.some.inj hr2
        exact hne2 hty
      rw [heap_set_other _ _ _ _ hp, heap_set_other _ _ _ _ hp2]; exact hr2
    · intro p r2 hr2
      by_cases hp : p = ls
      · subst hp
        rw [heap_set_self] at hr2
        rw [← Option.some.inj hr2]
        have := i3 p r hr
        simp only [hinc]; omega
      · rw [heap_set_other _ _ _ _ hp] at hr2
        by_cases hp2 : p = old
        · subst hp2
          rw [heap_set_self] at hr2
          by_cases h1l : ro.lock = 1
          · simp [h1l] at hr2
          · simp only [h1l, if_false, Option.some.injEq] at hr2
            rw [← hr2]; simp only; omega
        · rw [heap_set_other _ _ _ _ hp2] at hr2
          exact i3 p r2 hr2

theorem lsdb_refs_ok_delete (st st1 : lsdb_state) (ls : Option Nat) (hinv : lsdb_refs_ok st)
    (h : bgp_lsdb_delete st ls = some st1) : lsdb_refs_ok st1 := by
  cases ls with
  | none =>
    simp only [bgp_lsdb_delete, Option.some.injEq] at h
    rw [← h]; exact hinv
  | some p =>
    cases hr : st.heap p with
    | none => simp [bgp_lsdb_delete, hr] at h
    | some r =>
      cases hdb : lsdb_db st.lsdb r.nlri_type with
      | none =>
        simp only [lsdb_db] at hdb
        by_cases ht : r.nlri_type < BGP_LS_MAX_NLRI_TYPE
        · simp only [ht, if_true] at hdb
          simp [bgp_lsdb_delete, hr, ht, hdb] at h
        · simp [bgp_lsdb_delete, hr, ht] at h
      | some table =>
        by_cases hi : route_info table r.key = some p
        · rw [bgp_lsdb_delete_stored st p r table hr hdb hi] at h
          exact lsdb_refs_ok_delete_entry st st1 _ _ hinv h
        · rw [bgp_lsdb_delete_not_stored st p r table hr hdb hi] at h
          rw [← Option.some.inj h]; exact hinv

theorem lsdb_refs_ok_delete_nodes (i : Nat) (es : List (Nat × Nat)) (st st1 : lsdb_state)
    (hinv : lsdb_refs_ok st) (h : lsdb_delete_nodes i es st = some st1) : lsdb_refs_ok st1 := by
  induction es generalizing st with
  | nil =>
    simp only [lsdb_delete_nodes, Option.some.injEq] at h
    rw [← h]; exact hinv
  | cons e es ih =>
    cases hd : bgp_lsdb_delete_entry st i e.1 with
    | none => simp [lsdb_delete_nodes, hd] at h
    | some st2 =>
      simp only [lsdb_delete_nodes, hd] at h
      exact ih st2 (lsdb_refs_ok_delete_entry st st2 i e.1 hinv hd) h

theorem lsdb_refs_ok_delete_tables (is : List Nat) (st st1 : lsdb_state)
    (hinv : lsdb_refs_ok st) (h : lsdb_delete_tables is st = some st1) : lsdb_refs_ok st1 := by
  induction is generalizing st with
  | nil =>
    simp only [lsdb_delete_tables, Option.some.injEq] at h
    rw [← h]; exact hinv
  | cons i is ih =>
    cases hd : lsdb_delete_table st i with
    | none => simp [lsdb_delete_tables, hd] at h
    | some st2 =>
      simp only [lsdb_delete_tables, hd] at h
      refine ih st2 ?_ h
      cases hdb : lsdb_db st.lsdb i with
      | none => simp [lsdb_delete_table, hdb] at hd
      | some table =>
        simp only [lsdb_delete_table, hdb] at hd
        exact lsdb_refs_ok_delete_nodes i table st st2 hinv hd

theorem lsdb_locks_le_mono (heap : ls_heap) (b c : Int) (h : lsdb_locks_le heap b)
    (hbc : b ≤ c) : lsdb_locks_le heap c :=
  fun p r hr => le_trans (h p r hr) hbc

theorem lsdb_locks_le_set (heap : ls_heap) (p : Nat) (x : Option bgp_ls) (b : Int)
    (hle : lsdb_locks_le heap b) (hx : ∀ r, x = some r → r.lock ≤ b) :
    lsdb_locks_le (heap_set heap p x) b := by
  intro q r hr
  by_cases hq : q = p
  · subst hq
    rw [heap_set_self] at hr
    exact hx r hr
  · rw [heap_set_other _ _ _ _ hq] at hr
    exact hle q r hr

theorem lsdb_locks_le_unlocked (ro : bgp_ls) (b : Int) (h : ro.lock ≤ b) (r : bgp_ls)
    (hr : (if ro.lock = 1 then none else some { ro with lock := ro.lock - 1 }) = some r) :
    r.lock ≤ b := by
  by_cases h1l : ro.lock = 1
  · simp [h1l] at hr
  · simp only [h1l, if_false, Option.some.injEq] at hr
    rw [← hr]; simp only; omega

theorem lsdb_locks_le_delete_entry (st st1 : lsdb_state) (t k : Nat) (b : Int)
    (hle : lsdb_locks_le st.heap b) (h : bgp_lsdb_delete_entry st t k = some st1) :
    lsdb_locks_le st1.heap b := by
  cases hdb : lsdb_db st.lsdb t with
  | none => simp [bgp_lsdb_delete_entry, hdb] at h
  | some table =>
    cases hi : route_info table k with
    | none =>
      rw [bgp_lsdb_delete_entry_none_info st t k table hdb hi] at h
      rw [← Option.some.inj h]; exact hle
    | some old =>
      obtain ⟨ro, hro, _, _, rfl⟩ := bgp_lsdb_delete_entry_eq_some st st1 t k table old hdb hi h
      exact lsdb_locks_le_set _ _ _ _ hle (lsdb_locks_le_unlocked ro b (hle old ro hro))

theorem lsdb_locks_le_add (st st1 : lsdb_state) (ls : Nat) (b : Int)
    (hle : lsdb_locks_le st.heap b) (hb : b < INT_MAX)
    (h : bgp_lsdb_add st ls = some st1) : lsdb_locks_le st1.heap (b + 1) := by
  obtain ⟨r, table, hr, hdb, h3⟩ := bgp_lsdb_add_eq_some st st1 ls h
  have hrl := hle ls r hr
  have hinc := int_inc_lt r.lock (by omega)
  have hle1 := lsdb_locks_le_mono _ _ (b + 1) hle (by omega)
  have hnew : ∀ r2, some { r with lock := int_inc r.lock } = some r2 → r2.lock ≤ b + 1 := by
    intro r2 h2
    rw [← Option.some.inj h2]
    simp only [hinc]; omega
  rcases h3 with ⟨_, rfl⟩ | ⟨_, rfl⟩ | ⟨old, ro, hi, hne, hro, hty, hl, rfl⟩
  · exact hle1
  · exact lsdb_locks_le_set _ _ _ _ hle1 hnew
  · exact lsdb_locks_le_set _ _ _ _
      (lsdb_locks_le_set _ _ _ _ hle1 (lsdb_locks_le_unlocked ro (b + 1) (hle1 old ro hro)))
      hnew

theorem lsdb_locks_le_delete (st st1 : lsdb_state) (ls : Option Nat) (b : Int)
    (hle : lsdb_locks_le st.heap b) (h : bgp_lsdb_delete st ls = some st1) :
    lsdb_locks_le st1.heap b := by
  cases ls with
  | none =>
    simp only [bgp_lsdb_delete, Option.some.injEq] at h
    rw [← h]; exact hle
  | some p =>
    cases hr : st.heap p with
    | none => simp [bgp_lsdb_delete, hr] at h
    | some r =>
      cases hdb : lsdb_db st.lsdb r.nlri_type with
      | none =>
        simp only [lsdb_db] at hdb
        by_cases ht : r.nlri_type < BGP_LS_MAX_NLRI_TYPE
        · simp only [ht, if_true] at hdb
          simp [bgp_lsdb_delete, hr, ht, hdb] at h
        · simp [bgp_lsdb_delete, hr, ht] at h
      | some table =>
        by_cases hi : route_info table r.key = some p
        · rw [bgp_lsdb_delete_stored st p r table hr hdb hi] at h
          exact lsdb_locks_le_delete_entry st st1 _ _ b hle h
        · rw [bgp_lsdb_delete_not_stored st p r table hr hdb hi] at h
          rw [← Option.some.inj h]; exact hle

theorem lsdb_locks_le_delete_nodes (i : Nat) (es : List (Nat × Nat)) (st st1 : lsdb_state)
    (b : Int) (hle : lsdb_locks_le st.heap b) (h : lsdb_delete_nodes i es st = some st1) :
    lsdb_locks_le st1.heap b := by
  induction es generalizing st with
  | nil =>
    simp only [lsdb_delete_nodes, Option.some.injEq] at h
    rw [← h]; exact hle
  | cons e es ih =>
    cases hd : bgp_lsdb_delete_entry st i e.1 with
    | none => simp [lsdb_delete_nodes, hd] at h
    | some st2 =>
      simp only [lsdb_delete_nodes, hd] at h
      exact ih st2 (lsdb_locks_le_delete_entry st st2 i e.1 b hle hd) h

theorem lsdb_locks_le_delete_tables (is : List Nat) (st st1 : lsdb_state) (b : Int)
    (hle : lsdb_locks_le st.heap b) (h : lsdb_delete_tables is st = some st1) :
    lsdb_locks_le st1.heap b := by
  induction is generalizing st with
  | nil =>
    simp only [lsdb_delete_tables, Option.some.injEq] at h
    rw [← h]; exact hle
  | cons i is ih =>
    cases hd : lsdb_delete_table st i with
    | none => simp [lsdb_delete_tables, hd] at h
    | some st2 =>
      simp only [lsdb_delete_tables, hd] at h
      refine ih st2 ?_ h
      cases hdb : lsdb_db st.lsdb i with
      | none => simp [lsdb_delete_table, hdb] at hd
      | some table =>
        simp only [lsdb_delete_table, hdb] at hd
        exact lsdb_locks_le_delete_nodes i table st st2 b hle hd

theorem lsdb_refs_ok_apply (st st1 : lsdb_state) (op : lsdb_op) (b : Int)
    (hinv : lsdb_refs_ok st) (hle : lsdb_locks_le st.heap b) (hb : b < INT_MAX)
    (h : lsdb_apply st op = some st1) :
    lsdb_refs_ok st1 ∧ lsdb_locks_le st1.heap (b + 1) := by
  cases op with
  | add ls =>
    exact ⟨lsdb_refs_ok_add st st1 ls hinv (fun r hr => lt_of_le_of_lt (hle ls r hr) hb) h,
      lsdb_locks_le_add st st1 ls b hle hb h⟩
  | delete ls =>
    exact ⟨lsdb_refs_ok_delete st st1 ls hinv h,
      lsdb_locks_le_mono _ _ _ (lsdb_locks_le_delete st st1 ls b hle h) (by omega)⟩
  | delete_all =>
    exact ⟨lsdb_refs_ok_delete_tables _ st st1 hinv h,
      lsdb_locks_le_mono _ _ _ (lsdb_locks_le_delete_tables _ st st1 b hle h) (by omega)⟩

theorem lsdb_refs_ok_run (ops : List lsdb_op) (st st1 : lsdb_state) (b : Int)
    (hinv : lsdb_refs_ok st) (hle : lsdb_locks_le st.heap b)
    (hb : b + ops.length ≤ INT_MAX) (h : lsdb_run ops st = some st1) :
    lsdb_refs_ok st1 ∧ lsdb_locks_le st1.heap (b + ops.length) := by
  induction ops generalizing st b with
  | nil =>
    simp only [lsdb_run, Option.some.injEq] at h
    rw [← h]
    exact ⟨hinv, by simpa using hle⟩
  | cons op ops ih =>
    cases hd : lsdb_apply st op with
    | none => simp [lsdb_run, hd] at h
    | some st2 =>
      simp only [lsdb_run, hd] at h
      simp only [List.length_cons, Nat.cast_add, Nat.cast_one] at hb ⊢
      obtain ⟨h1, h2⟩ := lsdb_refs_ok_apply st st2 op b hinv hle (by omega) hd
      have := ih st2 (b + 1) h1 h2 (by omega) h
      have e : b + 1 + (ops.length : Int) = b + ((ops.length : Int) + 1) := by omega
      rw [e] at this
      exact this

theorem lsdb_count_sum_eq (lsdb : bgp_lsdb) :
    lsdb_count_sum lsdb =
      (lsdb.type 0).count + (lsdb.type 1).count + (lsdb.type 2).count + (lsdb.type 3).count := by
  simp [lsdb_count_sum, List.range_succ, Nat.add_assoc]

theorem lsdb_counts_ok_put (lsdb : bgp_lsdb) (t c total : Nat) (table : route_table)
    (hinv : lsdb_counts_ok lsdb) (ht : t < BGP_LS_MAX_NLRI_TYPE) (hc : c ≤ ULONG_MAX)
    (htot : total ≤ ULONG_MAX)
    (h : (total + (lsdb.type t).count) % (ULONG_MAX + 1) = (lsdb.total + c) % (ULONG_MAX + 1)) :
    lsdb_counts_ok (lsdb_put lsdb t c table total) := by
  obtain ⟨i1, i2, i3⟩ := hinv
  refine ⟨htot, ?_, ?_⟩
  · intro t2 ht2
    by_cases e : t2 = t
    · simp [lsdb_put, e, hc]
    · simp only [lsdb_put, e, if_false]; exact i2 t2 ht2
  · rw [lsdb_count_sum_eq] at i3 ⊢
    have h0 := i2 0 (by decide)
    have h1 := i2 1 (by decide)
    have h2 := i2 2 (by decide)
    have h3 := i2 3 (by decide)
    simp only [BGP_LS_MAX_NLRI_TYPE] at ht
    simp only [ULONG_MAX] at *
    have ht4 : t = 0 ∨ t = 1 ∨ t = 2 ∨ t = 3 := by omega
    rcases ht4 with rfl | rfl | rfl | rfl <;> simp [lsdb_put] <;> omega

theorem ulong_inc_le (c : Nat) : ulong_inc c ≤ ULONG_MAX := by
  simp only [ulong_inc, ULONG_MAX]; omega

theorem ulong_dec_le (c : Nat) (h : c ≤ ULONG_MAX) : ulong_dec c ≤ ULONG_MAX := by
  simp only [ulong_dec, ULONG_MAX] at h ⊢
  split_ifs <;> omega

theorem lsdb_counts_ok_inc (lsdb : bgp_lsdb) (t : Nat) (table : route_table)
    (hinv : lsdb_counts_ok lsdb) (ht : t < BGP_LS_MAX_NLRI_TYPE) :
    lsdb_counts_ok
      (lsdb_put lsdb t (ulong_inc (lsdb.type t).count) table (ulong_inc lsdb.total)) := by
  refine lsdb_counts_ok_put lsdb t _ _ table hinv ht (ulong_inc_le _) (ulong_inc_le _) ?_
  have h1 := hinv.1
  have h2 := hinv.2.1 t ht
  simp only [ulong_inc, ULONG_MAX] at h1 h2 ⊢
  omega

theorem lsdb_counts_ok_dec (lsdb : bgp_lsdb) (t : Nat) (table : route_table)
    (hinv : lsdb_counts_ok lsdb) (ht : t < BGP_LS_MAX_NLRI_TYPE) :
    lsdb_counts_ok
      (lsdb_put lsdb t (ulong_dec (lsdb.type t).count) table (ulong_dec lsdb.total)) := by
  have h1 := hinv.1
  have h2 := hinv.2.1 t ht
  refine lsdb_counts_ok_put lsdb t _ _ table hinv ht (ulong_dec_le _ h2) (ulong_dec_le _ h1) ?_
  simp only [ulong_dec, ULONG_MAX] at h1 h2 ⊢
  split_ifs <;> omega

theorem lsdb_counts_ok_inc_dec (lsdb : bgp_lsdb) (t : Nat) (table : route_table)
    (hinv : lsdb_counts_ok lsdb) (ht : t < BGP_LS_MAX_NLRI_TYPE) :
    lsdb_counts_ok
      (lsdb_put lsdb t (ulong_inc (ulong_dec (lsdb.type t).count)) table
        (ulong_inc (ulong_dec lsdb.total))) := by
  have h1 := hinv.1
  have h2 := hinv.2.1 t ht
  rw [ulong_inc_dec _ h1, ulong_inc_dec _ h2]
  exact lsdb_counts_ok_put lsdb t _ _ table hinv ht h2 h1 (by rw [Nat.add_comm])

theorem lsdb_counts_ok_delete_entry (st st1 : lsdb_state) (t k : Nat)
    (hinv : lsdb_counts_ok st.lsdb) (h : bgp_lsdb_delete_entry st t k = some st1) :
    lsdb_counts_ok st1.lsdb := by
  cases hdb : lsdb_db st.lsdb t with
  | none => simp [bgp_lsdb_delete_entry, hdb] at h
  | some table =>
    have ht := ((lsdb_db_eq_some _ _ _).1 hdb).1
    cases hi : route_info table k with
    | none =>
      rw [bgp_lsdb_delete_entry_none_info st t k table hdb hi] at h
      rw [← Option.some.inj h]; exact hinv
    | some old =>
      obtain ⟨ro, _, _, _, rfl⟩ := bgp_lsdb_delete_entry_eq_some st st1 t k table old hdb hi h
      rw [type_sets_eq_put]
      exact lsdb_counts_ok_dec st.lsdb t _ hinv ht

theorem lsdb_counts_ok_add (st st1 : lsdb_state) (ls : Nat) (hinv : lsdb_counts_ok st.lsdb)
    (h : bgp_lsdb_add st ls = some st1) : lsdb_counts_ok st1.lsdb := by
  obtain ⟨r, table, hr, hdb, h3⟩ := bgp_lsdb_add_eq_some st st1 ls h
  have ht := ((lsdb_db_eq_some _ _ _).1 hdb).1
  rcases h3 with ⟨_, rfl⟩ | ⟨_, rfl⟩ | ⟨old, ro, _, _, _, _, _, rfl⟩
  · exact hinv
  · exact lsdb_counts_ok_inc st.lsdb _ _ hinv ht
  · exact lsdb_counts_ok_inc_dec st.lsdb _ _ hinv ht

theorem lsdb_counts_ok_delete (st st1 : lsdb_state) (ls : Option Nat)
    (hinv : lsdb_counts_ok st.lsdb) (h : bgp_lsdb_delete st ls = some st1) :
    lsdb_counts_ok st1.lsdb := by
  cases ls with
  | none =>
    simp only [bgp_lsdb_delete, Option.some.injEq] at h
    rw [← h]; exact hinv
  | some p =>
    cases hr : st.heap p with
    | none => simp [bgp_lsdb_delete, hr] at h
    | some r =>
      cases hdb : lsdb_db st.lsdb r.nlri_type with
      | none =>
        simp only [lsdb_db] at hdb
        by_cases ht : r.nlri_type < BGP_LS_MAX_NLRI_TYPE
        · simp only [ht, if_true] at hdb
          simp [bgp_lsdb_delete, hr, ht, hdb] at h
        · simp [bgp_lsdb_delete, hr, ht] at h
      | some table =>
        by_cases hi : route_info table r.key = some p
        · rw [bgp_lsdb_delete_stored st p r table hr hdb hi] at h
          exact lsdb_counts_ok_delete_entry st st1 _ _ hinv h
        · rw [bgp_lsdb_delete_not_stored st p r table hr hdb hi] at h
          rw [← Option.some.inj h]; exact hinv

theorem lsdb_counts_ok_delete_nodes (i : Nat) (es : List (Nat × Nat)) (st st1 : lsdb_state)
    (hinv : lsdb_counts_ok st.lsdb) (h : lsdb_delete_nodes i es st = some st1) :
    lsdb_counts_ok st1.lsdb := by
  induction es generalizing st with
  | nil =>
    simp only [lsdb_delete_nodes, Option.some.injEq] at h
    rw [← h]; exact hinv
  | cons e es ih =>
    cases hd : bgp_lsdb_delete_entry st i e.1 with
    | none => simp [lsdb_delete_nodes, hd] at h
    | some st2 =>
      simp only [lsdb_delete_nodes, hd] at h
      exact ih st2 (lsdb_counts_ok_delete_entry st st2 i e.1 hinv hd) h

theorem lsdb_counts_ok_delete_tables (is : List Nat) (st st1 : lsdb_state)
    (hinv : lsdb_counts_ok st.lsdb) (h : lsdb_delete_tables is st = some st1) :
    lsdb_counts_ok st1.lsdb := by
  induction is generalizing st with
  | nil =>
    simp only [lsdb_delete_tables, Option.some.injEq] at h
    rw [← h]; exact hinv
  | cons i is ih =>
    cases hd : lsdb_delete_table st i with
    | none => simp [lsdb_delete_tables, hd] at h
    | some st2 =>
      simp only [lsdb_delete_tables, hd] at h
      refine ih st2 ?_ h
      cases hdb : lsdb_db st.lsdb i with
      | none => simp [lsdb_delete_table, hdb] at hd
      | some table =>
        simp only [lsdb_delete_table, hdb] at hd
        exact lsdb_counts_ok_delete_nodes i table st st2 hinv hd

theorem lsdb_counts_ok_run (ops : List lsdb_op) (st st1 : lsdb_state)
    (hinv : lsdb_counts_ok st.lsdb) (h : lsdb_run ops st = some st1) :
    lsdb_counts_ok st1.lsdb := by
  induction ops generalizing st with
  | nil =>
    simp only [lsdb_run, Option.some.injEq] at h
    rw [← h]; exact hinv
  | cons op ops ih =>
    cases hd : lsdb_apply st op with
    | none => simp [lsdb_run, hd] at h
    | some st2 =>
      simp only [lsdb_run, hd] at h
      refine ih st2 ?_ h
      cases op with
      | add ls => exact lsdb_counts_ok_add st st2 ls hinv hd
      | delete ls => exact lsdb_counts_ok_delete st st2 ls hinv hd
      | delete_all => exact lsdb_counts_ok_delete_tables _ st st2 hinv hd

theorem bgp_lsdb_new_counts_ok : lsdb_counts_ok bgp_lsdb_new := by
  refine ⟨by decide, fun t _ => by simp [bgp_lsdb_new, bgp_lsdb_init, for_range], ?_⟩
  rw [lsdb_count_sum_eq]
  simp [bgp_lsdb_new, bgp_lsdb_init, for_range]

theorem heap_of_lock (l : List (Nat × bgp_ls)) (h : ∀ e, e ∈ l → 0 ≤ e.2.lock) (p : Nat)
    (r : bgp_ls) (hr : heap_of l p = some r) : 0 ≤ r.lock := by
  induction l with
  | nil => simp [heap_of] at hr
  | cons e t ih =>
    obtain ⟨q, r1⟩ := e
    by_cases hp : p = q
    · subst hp
      simp only [heap_of, heap_set_self, Option.some.injEq] at hr
      rw [← hr]
      exact h (p, r1) (List.mem_cons_self _ _)
    · simp only [heap_of, heap_set_other _ _ _ _ hp] at hr
      exact ih (fun e he => h e (List.mem_cons_of_mem _ he)) hr

theorem bgp_lsdb_new_empty (t : Nat) (table : route_table)
    (h : lsdb_db bgp_lsdb_new t = some table) : table = [] := by
  obtain ⟨_, h1⟩ := (lsdb_db_eq_some _ _ _).1 h
  simp [bgp_lsdb_new, bgp_lsdb_init, for_range] at h1

/-! ## Lemmas on the link identifiers, the loop rounds and the return values -/

theorem link_decode_switch_llri (l : Nat) (m : mp_bgpls_nlri) (s : stream)
    (h : 8 ≤ STREAM_READABLE s) :
    link_decode_switch BGP_NLRI_TLV_LINK_LOCAL_REMOTE_IDENTIFIERS l m s =
      some ({ m with llri_local := peek_w s 4, llri_remote := peek_w s 6 },
            ⟨s.data, s.getp + 8⟩) := by
  obtain ⟨h1, h2⟩ := header_reads s (by omega)
  obtain ⟨h3, h4⟩ := header_reads ⟨s.data, s.getp + 4⟩
    (by simp only [STREAM_READABLE] at h ⊢; omega)
  have e : link_decode_switch BGP_NLRI_TLV_LINK_LOCAL_REMOTE_IDENTIFIERS l m s =
      match stream_getw s with
      | none => none
      | some (_node_type, s1) =>
        match stream_getw s1 with
        | none => none
        | some (_node_length, s2) =>
          match stream_getw s2 with
          | none => none
          | some (loc, s3) =>
            read_then (stream_getw s3)
              (fun rem => { m with llri_local := loc, llri_remote := rem }) := rfl
  rw [e, h1]; simp only; rw [h2]; simp only; rw [h3]; simp only
  simp only [Nat.add_assoc] at h4 ⊢
  rw [h4]
  simp [read_then, peek_w, Nat.add_assoc]

theorem bgp_mp_link_decode_llri (args : bgp_attr_parser_args) (s : stream)
    (ht : peek_w s 9 = BGP_NLRI_TLV_LINK_LOCAL_REMOTE_IDENTIFIERS)
    (h : 21 ≤ STREAM_READABLE s) :
    bgp_mp_link_decode args s =
      some ({ args.attr with mp_bgpls_nlri := { args.attr.mp_bgpls_nlri with
                proto_id := peek_c s 0, nlri_identifier := peek_q s 1,
                llri_local := peek_w s 17, llri_remote := peek_w s 19 } },
            ⟨s.data, s.getp + 21⟩, BGP_ATTR_PARSE_PROCEED) := by
  obtain ⟨h1, h2, h3, h4⟩ := nlri_prelude s (by omega)
  unfold bgp_mp_link_decode
  rw [h1]; simp only; rw [h2]; simp only; rw [h3]; simp only; rw [h4]; simp only
  rw [ht, link_decode_switch_llri _ _ _ (by simp only [STREAM_READABLE] at h ⊢; omega)]
  simp [peek_w, Nat.add_assoc]

theorem link_prefix_local_node_agree (args : bgp_attr_parser_args) (s : stream)
    (h : 13 ≤ STREAM_READABLE s) (ht : peek_w s 9 = BGP_NLRI_TLV_LOCAL_NODE_DESCRIPTORS) :
    bgp_mp_prefix_decode args s = bgp_mp_link_decode args s := by
  obtain ⟨h1, h2, h3, h4⟩ := nlri_prelude s h
  have eb : prefix_decode_local_subtlv = link_decode_local_subtlv := by
    funext m s0
    rw [prefix_decode_local_subtlv_eq, link_decode_local_subtlv_eq]
  unfold bgp_mp_prefix_decode bgp_mp_link_decode
  rw [h1]; simp only; rw [h2]; simp only; rw [h3]; simp only; rw [h4]; simp only
  rw [ht]
  have e1 : ∀ (l : Nat) (m : mp_bgpls_nlri) (s0 : stream),
      prefix_decode_switch BGP_NLRI_TLV_LOCAL_NODE_DESCRIPTORS l m s0 =
        match stream_while prefix_decode_local_subtlv (stream_get_getp s0 + l)
            (STREAM_READABLE s0) m s0 with
        | none => none
        | some (m1, s1) => some (m1, s1, BGP_ATTR_PARSE_PROCEED) := fun _ _ _ => rfl
  have e2 : ∀ (l : Nat) (m : mp_bgpls_nlri) (s0 : stream),
      link_decode_switch BGP_NLRI_TLV_LOCAL_NODE_DESCRIPTORS l m s0 =
        stream_while link_decode_local_subtlv (stream_get_getp s0 + l)
          (STREAM_READABLE s0) m s0 := fun _ _ _ => rfl
  rw [e1, e2, eb]
  cases stream_while link_decode_local_subtlv
    (stream_get_getp ⟨s.data, s.getp + 13⟩ + peek_w s 11)
    (STREAM_READABLE ⟨s.data, s.getp + 13⟩)
    { args.attr.mp_bgpls_nlri with proto_id := peek_c s 0, nlri_identifier := peek_q s 1 }
    ⟨s.data, s.getp + 13⟩ with
  | none => rfl
  | some r => rfl

theorem stream_while_outcome_ended {σ : Type} (body : σ → stream → Option (σ × stream))
    (hb : body_advances body) (endp : Nat) (rounds : Nat) (a : σ) (s : stream)
    (h : (endp - s.getp + 3) / 4 ≤ rounds) :
    stream_while_outcome body endp rounds a s ≠ loop_outcome.rounds_left := by
  induction rounds generalizing a s with
  | zero =>
    simp only [stream_while_outcome, stream_get_getp]
    rw [if_neg (by omega)]
    exact fun h0 => loop_outcome.noConfusion h0
  | succ n ih =>
    simp only [stream_while_outcome, stream_get_getp]
    split_ifs with hlt
    · cases hbody : body a s with
      | none => exact fun h0 => loop_outcome.noConfusion h0
      | some p =>
        obtain ⟨a1, s1⟩ := p
        have := hb a s a1 s1 hbody
        exact ih a1 s1 (by omega)
    · exact fun h0 => loop_outcome.noConfusion h0

theorem stream_while_outcome_more_rounds {σ : Type} (body : σ → stream → Option (σ × stream))
    (endp : Nat) (r1 r2 : Nat) (a : σ) (s : stream) (h : r1 ≤ r2)
    (he : stream_while_outcome body endp r1 a s ≠ loop_outcome.rounds_left) :
    stream_while_outcome body endp r2 a s = stream_while_outcome body endp r1 a s := by
  induction r1 generalizing r2 a s with
  | zero =>
    simp only [stream_while_outcome] at he
    split_ifs at he with hlt
    · exact absurd rfl he
    · cases r2 with
      | zero => rfl
      | succ k => simp only [stream_while_outcome, if_neg hlt]
  | succ n ih =>
    cases r2 with
    | zero => omega
    | succ k =>
      simp only [stream_while_outcome] at he ⊢
      split_ifs with hlt
      · rw [if_pos hlt] at he
        cases hbody : body a s with
        | none => rfl
        | some p =>
          obtain ⟨a1, s1⟩ := p
          rw [hbody] at he
          exact ih k a1 s1 (by omega) he
      · rfl

theorem stream_while_eq_result {σ : Type} (body : σ → stream → Option (σ × stream))
    (endp : Nat) (rounds : Nat) (a : σ) (s : stream) :
    stream_while body endp rounds a s = (stream_while_outcome body endp rounds a s).result := by
  induction rounds generalizing a s with
  | zero =>
    simp only [stream_while, stream_while_outcome]
    split_ifs <;> rfl
  | succ n ih =>
    simp only [stream_while, stream_while_outcome]
    split_ifs with hlt
    · cases hbody : body a s with
      | none => rfl
      | some p =>
        obtain ⟨a1, s1⟩ := p
        exact ih a1 s1
    · rfl

theorem stream_while_region_rounds {σ : Type} (body : σ → stream → Option (σ × stream))
    (hb : body_advances body) (endp : Nat) (rounds : Nat) (a : σ) (s : stream)
    (h : (endp - s.getp + 3) / 4 ≤ rounds) :
    (stream_while_outcome body endp rounds a s).result =
      stream_while body endp (STREAM_READABLE s) a s := by
  have he := stream_while_outcome_ended body hb endp rounds a s h
  have h1 := stream_while_outcome_more_rounds body endp rounds
    (max rounds (STREAM_READABLE s)) a s (le_max_left _ _) he
  rw [← h1, ← stream_while_eq_result]
  exact stream_while_fuel body hb endp _ _ a s (le_max_right _ _) (le_refl _)

theorem prefix_decode_switch_default (t l : Nat) (m : mp_bgpls_nlri) (s : stream)
    (h : t ∉ [256, 263, 264, 265]) :
    prefix_decode_switch t l m s = some (m, s, BGP_ATTR_PARSE_ERROR_NOTIFYPLS) := by
  simp only [List.mem_cons, List.mem_singleton, List.not_mem_nil, or_false, not_or] at h
  obtain ⟨h1, h2, h3, h4⟩ := h
  unfold prefix_decode_switch
  rw [if_neg h1, if_neg h2, if_neg h3, if_neg h4]

theorem link_decode_switch_default (t l : Nat) (m : mp_bgpls_nlri) (s : stream)
    (h : t ∉ [256, 257, 258, 259, 260, 261, 262, 263]) :
    link_decode_switch t l m s = some (m, s) := by
  simp only [List.mem_cons, List.mem_singleton, List.not_mem_nil, or_false, not_or] at h
  obtain ⟨h1, h2, h3, h4, h5, h6, h7, h8⟩ := h
  unfold link_decode_switch
  simp only []
  rw [if_neg h1, if_neg h2, if_neg h3, if_neg h4, if_neg h5, if_neg h6, if_neg h7, if_neg h8]

theorem bgp_mp_prefix_decode_unknown (args : bgp_attr_parser_args) (s : stream)
    (h : 13 ≤ STREAM_READABLE s) (ht : peek_w s 9 ∉ [256, 263, 264, 265]) :
    bgp_mp_prefix_decode args s =
      some ({ args.attr with mp_bgpls_nlri := { args.attr.mp_bgpls_nlri with
                proto_id := peek_c s 0, nlri_identifier := peek_q s 1 } },
            ⟨s.data, s.getp + 13⟩, BGP_ATTR_PARSE_ERROR_NOTIFYPLS) := by
  obtain ⟨h1, h2, h3, h4⟩ := nlri_prelude s h
  unfold bgp_mp_prefix_decode
  rw [h1]; simp only; rw [h2]; simp only; rw [h3]; simp only; rw [h4]; simp only
  rw [prefix_decode_switch_default _ _ _ _ ht]

theorem bgp_mp_link_decode_unknown (args : bgp_attr_parser_args) (s : stream)
    (h : 13 ≤ STREAM_READABLE s)
    (ht : peek_w s 9 ∉ [256, 257, 258, 259, 260, 261, 262, 263]) :
    bgp_mp_link_decode args s =
      some ({ args.attr with mp_bgpls_nlri := { args.attr.mp_bgpls_nlri with
                proto_id := peek_c s 0, nlri_identifier := peek_q s 1 } },
            ⟨s.data, s.getp + 13⟩, BGP_ATTR_PARSE_PROCEED) := by
  obtain ⟨h1, h2, h3, h4⟩ := nlri_prelude s h
  unfold bgp_mp_link_decode
  rw [h1]; simp only; rw [h2]; simp only; rw [h3]; simp only; rw [h4]; simp only
  rw [link_decode_switch_default _ _ _ _ ht]

theorem bgp_mp_node_decode_empty (args : bgp_attr_parser_args) (s : stream)
    (h : 13 ≤ STREAM_READABLE s) (hl : peek_w s 11 = 0) :
    bgp_mp_node_decode args s =
      some ({ args.attr with mp_bgpls_nlri := { args.attr.mp_bgpls_nlri with
                proto_id := peek_c s 0, nlri_identifier := peek_q s 1 } },
            ⟨s.data, s.getp + 13⟩, BGP_ATTR_PARSE_PROCEED) := by
  obtain ⟨h1, h2, h3, h4⟩ := nlri_prelude s h
  unfold bgp_mp_node_decode
  rw [h1]; simp only; rw [h2]; simp only; rw [h3]; simp only; rw [h4]; simp only
  rw [hl, if_neg (by simp [stream_get_getp])]

/-! ## Lemmas on the release and the emptying of the database -/

theorem bgp_lsdb_cleanup_of_total (st : lsdb_state) (h : st.lsdb.total ≠ 0) :
    bgp_lsdb_cleanup st = none := by
  simp only [bgp_lsdb_cleanup, if_neg h]

theorem bgp_lsdb_cleanup_of_empty (st : lsdb_state) (h : st.lsdb.total = 0)
    (h1 : lsdb_db st.lsdb 1 = some []) (h2 : lsdb_db st.lsdb 2 = some [])
    (h3 : lsdb_db st.lsdb 3 = some []) :
    bgp_lsdb_cleanup st = some st := by
  have e : bgp_lsdb_delete_all st = some st := by
    simp only [bgp_lsdb_delete_all, delete_all_loop_indices, lsdb_delete_tables,
      lsdb_delete_table, h1, h2, h3, lsdb_delete_nodes]
  simp only [bgp_lsdb_cleanup, if_pos h, e]
  rfl

theorem route_info_none_of_not_mem (table : route_table) (k : Nat)
    (h : k ∉ table.map Prod.fst) : route_info table k = none := by
  induction table with
  | nil => rfl
  | cons e t ih =>
    obtain ⟨k1, p1⟩ := e
    simp only [List.map_cons, List.mem_cons, not_or] at h
    have hne : ¬ k1 = k := fun h0 => h.1 h0.symm
    simp only [route_info, if_neg hne]
    exact ih h.2

theorem route_clear_info_length (table : route_table) (k p : Nat)
    (hn : (table.map Prod.fst).Nodup) (hi : route_info table k = some p) :
    (route_clear_info table k).length + 1 = table.length := by
  induction table with
  | nil => simp [route_info] at hi
  | cons e t ih =>
    obtain ⟨k1, p1⟩ := e
    simp only [List.map_cons, List.nodup_cons] at hn
    by_cases hk : k1 = k
    · subst hk
      have h1 : route_clear_info ((k1, p1) :: t) k1 = route_clear_info t k1 := by
        simp [route_clear_info, List.filter_cons]
      rw [h1, route_clear_info_of_none t k1 (route_info_none_of_not_mem t k1 hn.1)]
      rfl
    · have h1 : route_clear_info ((k1, p1) :: t) k = (k1, p1) :: route_clear_info t k := by
        simp [route_clear_info, List.filter_cons, hk]
      simp only [route_info, if_neg hk] at hi
      rw [h1, List.length_cons, ih hn.2 hi, List.length_cons]

theorem lsdb_db_of_type_eq (l1 l2 : bgp_lsdb) (t : Nat) (h : l1.type t = l2.type t) :
    lsdb_db l1 t = lsdb_db l2 t := by
  simp only [lsdb_db, h]

theorem lsdb_index_ok_put (lsdb : bgp_lsdb) (t c : Nat) (table : route_table) (total : Nat)
    (hinv : lsdb_index_ok lsdb) (ht : t < BGP_LS_MAX_NLRI_TYPE)
    (hn : (table.map Prod.fst).Nodup) (hc : c = table.length % (ULONG_MAX + 1)) :
    lsdb_index_ok (lsdb_put lsdb t c table total) := by
  refine ⟨fun t2 table2 hdb => ?_, fun i hi => ?_⟩
  · simp only [lsdb_db_put _ _ _ _ _ _ ht] at hdb
    by_cases h : t2 = t
    · simp only [h, if_true, Option.some.injEq] at hdb
      rw [← hdb]; exact hn
    · simp only [h, if_false] at hdb
      exact hinv.1 t2 table2 hdb
  · by_cases h : i = t
    · subst h
      have e : (lsdb_put lsdb i c table total).type i = ⟨c, some table⟩ := by simp [lsdb_put]
      rw [e]
      refine ⟨fun h0 => by simp at h0, fun table2 h2 => ?_⟩
      simp only [Option.some.injEq] at h2
      rw [← h2]; exact hc
    · have e : (lsdb_put lsdb t c table total).type i = lsdb.type i := by simp [lsdb_put, h]
      rw [e]; exact hinv.2 i hi

theorem lsdb_index_ok_db (lsdb : bgp_lsdb) (t : Nat) (table : route_table)
    (hinv : lsdb_index_ok lsdb) (hdb : lsdb_db lsdb t = some table) :
    (lsdb.type t).count = table.length % (ULONG_MAX + 1) := by
  obtain ⟨ht, h1⟩ := (lsdb_db_eq_some _ _ _).1 hdb
  exact (hinv.2 t ht).2 table h1

theorem lsdb_index_ok_delete_entry (st st1 : lsdb_state) (t k : Nat)
    (hinv : lsdb_index_ok st.lsdb) (h : bgp_lsdb_delete_entry st t k = some st1) :
    lsdb_index_ok st1.lsdb ∧ ∀ i, i ≠ t → st1.lsdb.type i = st.lsdb.type i := by
  cases hdb : lsdb_db st.lsdb t with
  | none => simp [bgp_lsdb_delete_entry, hdb] at h
  | some table =>
    have ht := ((lsdb_db_eq_some _ _ _).1 hdb).1
    cases hi : route_info table k with
    | none =>
      rw [bgp_lsdb_delete_entry_none_info st t k table hdb hi] at h
      rw [← Option.some.inj h]; exact ⟨hinv, fun _ _ => rfl⟩
    | some old =>
      obtain ⟨ro, _, _, _, e⟩ := bgp_lsdb_delete_entry_eq_some st st1 t k table old hdb hi h
      rw [e, type_sets_eq_put]
      refine ⟨lsdb_index_ok_put _ _ _ _ _ hinv ht
        (route_clear_info_nodup table k (hinv.1 t table hdb)) ?_, fun i hne => ?_⟩
      · have hl := route_clear_info_length table k old (hinv.1 t table hdb) hi
        rw [lsdb_index_ok_db _ _ _ hinv hdb]
        simp only [ulong_dec, ULONG_MAX]
        split_ifs <;> omega
      · simp [lsdb_put, hne]

theorem lsdb_index_ok_add (st st1 : lsdb_state) (ls : Nat) (r : bgp_ls)
    (hinv : lsdb_index_ok st.lsdb) (hr : st.heap ls = some r)
    (h : bgp_lsdb_add st ls = some st1) :
    lsdb_index_ok st1.lsdb ∧ (∀ i, i ≠ r.nlri_type → st1.lsdb.type i = st.lsdb.type i) ∧
      (∀ i, (st.lsdb.type i).db ≠ none → (st1.lsdb.type i).db ≠ none) ∧
      ∀ p r1, st1.heap p = some r1 → ∃ r0, st.heap p = some r0 ∧ r0.nlri_type = r1.nlri_type := by
  obtain ⟨r2, table, hr2, hdb, h3⟩ := bgp_lsdb_add_eq_some st st1 ls h
  rw [hr] at hr2
  obtain rfl := Option.some.inj hr2
  have ht := ((lsdb_db_eq_some _ _ _).1 hdb).1
  have hc := lsdb_index_ok_db _ _ _ hinv hdb
  have hput : ∀ (c total : Nat) (tb : route_table) (i : Nat),
      (st.lsdb.type i).db ≠ none → ((lsdb_put st.lsdb r.nlri_type c tb total).type i).db ≠ none := by
    intro c total tb i hne
    by_cases hi : i = r.nlri_type
    · simp [lsdb_put, hi]
    · simpa [lsdb_put, hi] using hne
  have hnew : ∀ (heap : ls_heap) (p : Nat) (r1 : bgp_ls),
      (∀ q r0, heap q = some r0 → ∃ r3, st.heap q = some r3 ∧ r3.nlri_type = r0.nlri_type) →
      heap_set heap ls (some { r with lock := int_inc r.lock }) p = some r1 →
      ∃ r0, st.heap p = some r0 ∧ r0.nlri_type = r1.nlri_type := by
    intro heap p r1 hh hp
    by_cases hpl : p = ls
    · subst hpl
      rw [heap_set_self] at hp
      exact ⟨r, hr, by rw [← Option.some.inj hp]⟩
    · rw [heap_set_other _ _ _ _ hpl] at hp
      exact hh p r1 hp
  rcases h3 with ⟨_, rfl⟩ | ⟨hi, rfl⟩ | ⟨old, ro, hi, _, hro, _, _, rfl⟩
  · exact ⟨hinv, fun _ _ => rfl, fun _ h0 => h0, fun p r1 h1 => ⟨r1, h1, rfl⟩⟩
  · refine ⟨lsdb_index_ok_put _ _ _ _ _ hinv ht
      (route_set_info_nodup table r.key ls (hinv.1 _ table hdb)) ?_,
      fun i hne => by simp [lsdb_put, hne], hput _ _ _,
      fun p r1 h1 => hnew st.heap p r1 (fun q r0 h0 => ⟨r0, h0, rfl⟩) h1⟩
    rw [hc]
    simp only [route_set_info, route_clear_info_of_none table r.key hi, List.length_cons,
      ulong_inc, ULONG_MAX]
    omega
  · refine ⟨lsdb_index_ok_put _ _ _ _ _ hinv ht
      (route_set_info_nodup table r.key ls (hinv.1 _ table hdb)) ?_,
      fun i hne => by simp [lsdb_put, hne], hput _ _ _, fun p r1 h1 => hnew _ p r1 ?_ h1⟩
    · have hl := route_clear_info_length table r.key old (hinv.1 _ table hdb) hi
      rw [ulong_inc_dec _ (by rw [hc]; simp only [ULONG_MAX]; omega), hc]
      simp only [route_set_info, List.length_cons, hl]
    · intro q r0 h0
      by_cases hq : q = old
      · subst hq
        rw [heap_set_self] at h0
        by_cases h1l : ro.lock = 1
        · simp [h1l] at h0
        · simp only [h1l, if_false, Option.some.injEq] at h0
          exact ⟨ro, hro, by rw [← h0]⟩
      · rw [heap_set_other _ _ _ _ hq] at h0
        exact ⟨r0, h0, rfl⟩

theorem lsdb_adds_keep_index (ls : List Nat) (st0 st : lsdb_state)
    (hinv : lsdb_index_ok st0.lsdb) (hc : lsdb_counts_ok st0.lsdb)
    (hty : ∀ p r, st0.heap p = some r → BGP_LS_MIN_NLRI_TYPE ≤ r.nlri_type)
    (h : lsdb_run (ls.map lsdb_op.add) st0 = some st) :
    lsdb_index_ok st.lsdb ∧ lsdb_counts_ok st.lsdb ∧ st.lsdb.type 0 = st0.lsdb.type 0 ∧
      ∀ i, (st0.lsdb.type i).db ≠ none → (st.lsdb.type i).db ≠ none := by
  induction ls generalizing st0 with
  | nil =>
    simp only [List.map_nil, lsdb_run, Option.some.injEq] at h
    rw [← h]; exact ⟨hinv, hc, rfl, fun _ h0 => h0⟩
  | cons p ps ih =>
    cases hd : bgp_lsdb_add st0 p with
    | none => simp [lsdb_run, lsdb_apply, hd] at h
    | some st2 =>
      simp only [List.map_cons, lsdb_run, lsdb_apply, hd] at h
      obtain ⟨r, table, hr, _, _⟩ := bgp_lsdb_add_eq_some st0 st2 p hd
      obtain ⟨a1, a2, a3, a4⟩ := lsdb_index_ok_add st0 st2 p r hinv hr hd
      have hty2 : ∀ q r1, st2.heap q = some r1 → BGP_LS_MIN_NLRI_TYPE ≤ r1.nlri_type := by
        intro q r1 h1
        obtain ⟨r0, h0, e⟩ := a4 q r1 h1
        rw [← e]; exact hty q r0 h0
      obtain ⟨b1, b2, b3, b4⟩ := ih st2 a1 (lsdb_counts_ok_add st0 st2 p hc hd) hty2 h
      have hne : (0 : Nat) ≠ r.nlri_type := by
        have := hty p r hr
        simp only [BGP_LS_MIN_NLRI_TYPE] at this
        omega
      exact ⟨b1, b2, by rw [b3, a2 0 hne], fun i h0 => b4 i (a3 i h0)⟩

theorem lsdb_delete_nodes_result (i : Nat) (es : List (Nat × Nat)) (st st1 : lsdb_state)
    (hinv : lsdb_index_ok st.lsdb) (hdb : lsdb_db st.lsdb i = some es)
    (h : lsdb_delete_nodes i es st = some st1) :
    lsdb_db st1.lsdb i = some [] ∧ (∀ t, t ≠ i → st1.lsdb.type t = st.lsdb.type t) ∧
      lsdb_index_ok st1.lsdb := by
  induction es generalizing st with
  | nil =>
    simp only [lsdb_delete_nodes, Option.some.injEq] at h
    rw [← h]; exact ⟨hdb, fun _ _ => rfl, hinv⟩
  | cons e rest ih =>
    obtain ⟨k, p⟩ := e
    have ht := ((lsdb_db_eq_some _ _ _).1 hdb).1
    have hn := hinv.1 i _ hdb
    have hi : route_info ((k, p) :: rest) k = some p := by simp [route_info]
    cases hd : bgp_lsdb_delete_entry st i k with
    | none => simp [lsdb_delete_nodes, hd] at h
    | some st2 =>
      simp only [lsdb_delete_nodes, hd] at h
      obtain ⟨h1, h2⟩ := lsdb_index_ok_delete_entry st st2 i k hinv hd
      obtain ⟨ro, _, _, _, e⟩ := bgp_lsdb_delete_entry_eq_some st st2 i k _ p hdb hi hd
      have hrest : route_clear_info ((k, p) :: rest) k = rest := by
        simp only [List.map_cons, List.nodup_cons] at hn
        have h3 : route_clear_info ((k, p) :: rest) k = route_clear_info rest k := by
          simp [route_clear_info, List.filter_cons]
        rw [h3, route_clear_info_of_none rest k (route_info_none_of_not_mem rest k hn.1)]
      have hdb2 : lsdb_db st2.lsdb i = some rest := by
        rw [e, type_sets_eq_put, hrest]
        exact lsdb_db_put_self _ _ _ _ _ ht
      obtain ⟨c1, c2, c3⟩ := ih st2 h1 hdb2 h
      exact ⟨c1, fun t hne => by rw [c2 t hne, h2 t hne], c3⟩

theorem lsdb_delete_table_result (i : Nat) (st st1 : lsdb_state)
    (hinv : lsdb_index_ok st.lsdb) (h : lsdb_delete_table st i = some st1) :
    lsdb_db st1.lsdb i = some [] ∧ (∀ t, t ≠ i → st1.lsdb.type t = st.lsdb.type t) ∧
      lsdb_index_ok st1.lsdb := by
  cases hdb : lsdb_db st.lsdb i with
  | none => simp [lsdb_delete_table, hdb] at h
  | some table =>
    simp only [lsdb_delete_table, hdb] at h
    exact lsdb_delete_nodes_result i table st st1 hinv hdb h

theorem bgp_lsdb_delete_all_result (st st1 : lsdb_state) (hinv : lsdb_index_ok st.lsdb)
    (hcounts : lsdb_counts_ok st.lsdb) (h : bgp_lsdb_delete_all st = some st1) :
    (∀ t, t ∈ [1, 2, 3] → lsdb_db st1.lsdb t = some [] ∧ (st1.lsdb.type t).count = 0) ∧
      st1.lsdb.type 0 = st.lsdb.type 0 ∧ st1.lsdb.total = (st.lsdb.type 0).count ∧
      lsdb_index_ok st1.lsdb := by
  have hc := lsdb_counts_ok_run [lsdb_op.delete_all] st st1 hcounts
    (by simp only [lsdb_run, lsdb_apply, h])
  simp only [bgp_lsdb_delete_all, delete_all_loop_indices, lsdb_delete_tables] at h
  cases ha : lsdb_delete_table st 1 with
  | none => simp [ha] at h
  | some sa =>
    simp only [ha] at h
    cases hb : lsdb_delete_table sa 2 with
    | none => simp [hb] at h
    | some sb =>
      simp only [hb] at h
      cases hcc : lsdb_delete_table sb 3 with
      | none => simp [hcc] at h
      | some sc =>
        simp only [hcc, Option.some.injEq] at h
        subst h
        obtain ⟨a2, a3, a5⟩ := lsdb_delete_table_result 1 st sa hinv ha
        obtain ⟨b2, b3, b5⟩ := lsdb_delete_table_result 2 sa sb a5 hb
        obtain ⟨c2, c3, c5⟩ := lsdb_delete_table_result 3 sb sc b5 hcc
        have d1 : lsdb_db sc.lsdb 1 = some [] := by
          rw [lsdb_db_of_type_eq sc.lsdb sa.lsdb 1 (by rw [c3 1 (by decide), b3 1 (by decide)])]
          exact a2
        have d2 : lsdb_db sc.lsdb 2 = some [] := by
          rw [lsdb_db_of_type_eq sc.lsdb sb.lsdb 2 (c3 2 (by decide))]
          exact b2
        have e0 : sc.lsdb.type 0 = st.lsdb.type 0 := by
          rw [c3 0 (by decide), b3 0 (by decide), a3 0 (by decide)]
        have z1 : (sc.lsdb.type 1).count = 0 := lsdb_index_ok_db _ _ _ c5 d1
        have z2 : (sc.lsdb.type 2).count = 0 := lsdb_index_ok_db _ _ _ c5 d2
        have z3 : (sc.lsdb.type 3).count = 0 := lsdb_index_ok_db _ _ _ c5 c2
        refine ⟨?_, e0, ?_, c5⟩
        · intro t ht
          simp only [List.mem_cons, List.mem_singleton, List.not_mem_nil, or_false] at ht
          rcases ht with rfl | rfl | rfl
          · exact ⟨d1, z1⟩
          · exact ⟨d2, z2⟩
          · exact ⟨c2, z3⟩
        · have h0 := hcounts.2.1 0 (by decide)
          have ht := hc.2.2
          rw [lsdb_count_sum_eq, z1, z2, z3, e0] at ht
          rw [ht]
          simp only [ULONG_MAX] at h0 ⊢
          omega

theorem lsdb_delete_nodes_returns (i : Nat) (es : List (Nat × Nat)) (st : lsdb_state)
    (hrefs : lsdb_refs_ok st) (hdb : lsdb_db st.lsdb i = some es) :
    ∃ st1, lsdb_delete_nodes i es st = some st1 ∧
      (∀ t, t ≠ i → st1.lsdb.type t = st.lsdb.type t) ∧ lsdb_refs_ok st1 := by
  induction es generalizing st with
  | nil => exact ⟨st, rfl, fun _ _ => rfl, hrefs⟩
  | cons e rest ih =>
    obtain ⟨k, p⟩ := e
    have ht := ((lsdb_db_eq_some _ _ _).1 hdb).1
    have hn := hrefs.1 i _ hdb
    have hi : route_info ((k, p) :: rest) k = some p := by simp [route_info]
    obtain ⟨r, hr, hty, _, hl⟩ := hrefs.2.1 i _ k p hdb hi
    have hd := bgp_lsdb_delete_entry_put st i k _ p r hdb hi hr hty hl
    have hrest : route_clear_info ((k, p) :: rest) k = rest := by
      simp only [List.map_cons, List.nodup_cons] at hn
      have h1 : route_clear_info ((k, p) :: rest) k = route_clear_info rest k := by
        simp [route_clear_info, List.filter_cons]
      rw [h1, route_clear_info_of_none rest k (route_info_none_of_not_mem rest k hn.1)]
    rw [hrest] at hd
    have hrefs2 := lsdb_refs_ok_delete_entry st _ i k hrefs hd
    obtain ⟨st1, h1, h3, h4⟩ := ih _ hrefs2 (lsdb_db_put_self _ _ _ _ _ ht)
    refine ⟨st1, ?_, fun t hne => ?_, h4⟩
    · simp only [lsdb_delete_nodes, hd]
      exact h1
    · rw [h3 t hne]
      simp [lsdb_put, hne]

theorem lsdb_delete_table_returns (i : Nat) (st : lsdb_state) (hi : i < BGP_LS_MAX_NLRI_TYPE)
    (hrefs : lsdb_refs_ok st) (hdb : (st.lsdb.type i).db ≠ none) :
    ∃ st1, lsdb_delete_table st i = some st1 ∧
      (∀ t, t ≠ i → st1.lsdb.type t = st.lsdb.type t) ∧ lsdb_refs_ok st1 := by
  cases htb : (st.lsdb.type i).db with
  | none => exact absurd htb hdb
  | some table =>
    have h1 : lsdb_db st.lsdb i = some table := (lsdb_db_eq_some _ _ _).2 ⟨hi, htb⟩
    obtain ⟨st1, h⟩ := lsdb_delete_nodes_returns i table st hrefs h1
    exact ⟨st1, by simp only [lsdb_delete_table, h1]; exact h.1, h.2⟩

theorem bgp_lsdb_delete_all_returns (st : lsdb_state) (hrefs : lsdb_refs_ok st)
    (h1 : (st.lsdb.type 1).db ≠ none) (h2 : (st.lsdb.type 2).db ≠ none)
    (h3 : (st.lsdb.type 3).db ≠ none) :
    ∃ st1, bgp_lsdb_delete_all st = some st1 := by
  obtain ⟨sa, a1, a3, a4⟩ := lsdb_delete_table_returns 1 st (by decide) hrefs h1
  obtain ⟨sb, b1, b3, b4⟩ := lsdb_delete_table_returns 2 sa (by decide) a4
    (by rw [a3 2 (by decide)]; exact h2)
  obtain ⟨sc, c1, _, _⟩ := lsdb_delete_table_returns 3 sb (by decide) b4
    (by rw [b3 3 (by decide), a3 3 (by decide)]; exact h3)
  exact ⟨sc, by
    simp only [bgp_lsdb_delete_all, delete_all_loop_indices, lsdb_delete_tables, a1, b1, c1]⟩

/-! ## What `bgp_lsdb_add` does in a cell that has a table -/

theorem int_inc_zero : int_inc 0 = 1 := by decide

theorem heap_of_mem (l : List (Nat × bgp_ls)) (p : Nat) (r : bgp_ls)
    (hr : heap_of l p = some r) : (p, r) ∈ l := by
  induction l with
  | nil => simp [heap_of] at hr
  | cons e t ih =>
    obtain ⟨q, r1⟩ := e
    by_cases hp : p = q
    · subst hp
      simp only [heap_of, heap_set_self, Option.some.injEq] at hr
      rw [← hr]
      exact List.mem_cons_self _ _
    · simp only [heap_of, heap_set_other _ _ _ _ hp] at hr
      exact List.mem_cons_of_mem _ (ih hr)

/-- When the cell of the type of a fresh record `ls` (reference count 0) has a table that
holds no record under the key of `ls`, `bgp_lsdb_add` returns with `ls` stored under its key,
the other keys and records untouched, the reference count of `ls` at 1, the count of the type
and the total incremented (in `unsigned long` arithmetic, so by exactly 1 below `ULONG_MAX`),
and the other cells unchanged. -/
theorem lsdb_add_fresh_record (st : lsdb_state) (ls : Nat) (r : bgp_ls) (table : route_table)
    (hr : st.heap ls = some r) (hfresh : r.lock = 0)
    (hdb : lsdb_db st.lsdb r.nlri_type = some table) (hi : route_info table r.key = none) :
    ∃ st1 table1, bgp_lsdb_add st ls = some st1 ∧
      lsdb_db st1.lsdb r.nlri_type = some table1 ∧
      route_info table1 r.key = some ls ∧
      (∀ k, k ≠ r.key → route_info table1 k = route_info table k) ∧
      st1.heap ls = some { r with lock := 1 } ∧
      (∀ q, q ≠ ls → st1.heap q = st.heap q) ∧
      bgp_lsdb_count st1.lsdb r.nlri_type = some (ulong_inc (st.lsdb.type r.nlri_type).count) ∧
      bgp_lsdb_count_all st1.lsdb = ulong_inc (bgp_lsdb_count_all st.lsdb) ∧
      ((st.lsdb.type r.nlri_type).count < ULONG_MAX →
        bgp_lsdb_count st1.lsdb r.nlri_type = some ((st.lsdb.type r.nlri_type).count + 1)) ∧
      (bgp_lsdb_count_all st.lsdb < ULONG_MAX →
        bgp_lsdb_count_all st1.lsdb = bgp_lsdb_count_all st.lsdb + 1) ∧
      ∀ t, t ≠ r.nlri_type → st1.lsdb.type t = st.lsdb.type t := by
  have ht := ((lsdb_db_eq_some _ _ _).1 hdb).1
  refine ⟨_, route_set_info table r.key ls, bgp_lsdb_add_of_absent st ls r table hr hdb hi,
    lsdb_db_put_self _ _ _ _ _ ht, route_info_set_self _ _ _,
    fun k hk => route_info_set_other _ _ _ _ hk, ?_, fun q hq => heap_set_other _ _ _ _ hq,
    ?_, rfl, ?_, ?_, ?_⟩
  · simp only [heap_set_self, hfresh, int_inc_zero]
  · simp [bgp_lsdb_count, lsdb_put, ht]
  · intro hc
    simp [bgp_lsdb_count, lsdb_put, ht, ulong_inc_lt _ hc]
  · intro hc
    exact ulong_inc_lt _ hc
  · intro t h
    simp [lsdb_put, h]

/-- Let `bgp_lsdb_add(a)` have returned, with `a` holding at least the reference of the
database, and let `b` be another record in memory with the NLRI type and key of `a`, the
counters holding `unsigned long` values.  Then `bgp_lsdb_add(b)` returns, `bgp_lsdb_count_all`
and the count of that type are what they were after the first call, and the table of that
type holds `b` under that key, with `lock++` applied to `b`. -/
theorem lsdb_add_replaces (st st1 : lsdb_state) (a b : Nat) (ra rb : bgp_ls) (hab : a ≠ b)
    (h1 : bgp_lsdb_add st a = some st1)
    (ha : st1.heap a = some ra) (hla : 1 ≤ ra.lock)
    (hb : st1.heap b = some rb) (hty : rb.nlri_type = ra.nlri_type) (hk : rb.key = ra.key)
    (hc : (st1.lsdb.type ra.nlri_type).count ≤ ULONG_MAX)
    (htot : st1.lsdb.total ≤ ULONG_MAX) :
    ∃ st2, bgp_lsdb_add st1 b = some st2 ∧
      bgp_lsdb_count_all st2.lsdb = bgp_lsdb_count_all st1.lsdb ∧
      bgp_lsdb_count st2.lsdb ra.nlri_type = bgp_lsdb_count st1.lsdb ra.nlri_type ∧
      bgp_lsdb_count st1.lsdb ra.nlri_type = some (st1.lsdb.type ra.nlri_type).count ∧
      (∃ table2, lsdb_db st2.lsdb ra.nlri_type = some table2 ∧
        route_info table2 ra.key = some b) ∧
      st2.heap b = some { rb with lock := int_inc rb.lock } := by
  obtain ⟨r1, table1, hr1, hdb, hi⟩ := bgp_lsdb_add_stores st st1 a h1
  rw [ha] at hr1
  obtain rfl := Option.some.inj hr1
  have ht := ((lsdb_db_eq_some _ _ _).1 hdb).1
  rw [← hty] at hdb
  rw [← hk] at hi
  have h2 := bgp_lsdb_add_of_other st1 b rb table1 a ra hb hdb hi hab ha hty.symm hla
  have ht2 : rb.nlri_type < BGP_LS_MAX_NLRI_TYPE := by rw [hty]; exact ht
  refine ⟨_, h2, ?_, ?_, ?_, ?_, heap_set_self _ _ _⟩
  · simp only [bgp_lsdb_count_all, lsdb_put]
    exact ulong_inc_dec _ htot
  · simp only [bgp_lsdb_count, lsdb_put, ht, if_true, hty, Option.some.injEq]
    exact ulong_inc_dec _ hc
  · simp only [bgp_lsdb_count, ht, if_true]
  · refine ⟨route_set_info table1 rb.key b, ?_, ?_⟩
    · rw [← hty]; exact lsdb_db_put_self _ _ _ _ _ ht2
    · rw [← hk]; exact route_info_set_self _ _ _

/-! ## The rounds of the fixed-shape cases and of the IGP Router-ID -/

theorem ls_decode_tlv_i4ridofln (a : attr) (s : stream) (h : 8 ≤ STREAM_READABLE s)
    (ht : peek_w s 0 = BGP_NLRI_TLV_IPV4_ROUTER_ID_OF_LOCAL_NODE) :
    ls_decode_tlv a s =
      some ({ a with link_state_attr := { a.link_state_attr with
                i4ridofln := peek_bytes s 4 4 } }, ⟨s.data, s.getp + 8⟩) := by
  unfold ls_decode_tlv
  obtain ⟨h1, h2⟩ := header_reads s (by omega)
  rw [h1]; simp only; rw [h2]; simp only
  rw [ht, ls_decode_value_1028]
  rw [read_then_get_eq_some]
  exact ⟨by simp only [STREAM_READABLE] at h ⊢; omega, rfl, rfl⟩

theorem ls_decode_tlv_i4ridofrn (a : attr) (s : stream) (h : 8 ≤ STREAM_READABLE s)
    (ht : peek_w s 0 = BGP_NLRI_TLV_IPV4_ROUTER_ID_OF_REMOTE_NODE) :
    ls_decode_tlv a s =
      some ({ a with link_state_attr := { a.link_state_attr with
                i4ridofrn := peek_bytes s 4 4 } }, ⟨s.data, s.getp + 8⟩) := by
  unfold ls_decode_tlv
  obtain ⟨h1, h2⟩ := header_reads s (by omega)
  rw [h1]; simp only; rw [h2]; simp only
  rw [ht, ls_decode_value_1030]
  rw [read_then_get_eq_some]
  exact ⟨by simp only [STREAM_READABLE] at h ⊢; omega, rfl, rfl⟩

theorem ls_decode_tlv_mlb (a : attr) (s : stream) (h : 8 ≤ STREAM_READABLE s)
    (ht : peek_w s 0 = BGP_NLRI_TLV_MAX_LINK_BANDWIDTH) :
    ls_decode_tlv a s =
      some ({ a with link_state_attr := { a.link_state_attr with
                mlb := u32_to_float (peek_l s 4) } }, ⟨s.data, s.getp + 8⟩) := by
  unfold ls_decode_tlv
  obtain ⟨h1, h2⟩ := header_reads s (by omega)
  rw [h1]; simp only; rw [h2]; simp only
  rw [ht, ls_decode_value_1089, read_then_getl_float_eq_some]
  exact ⟨by simp only [STREAM_READABLE] at h ⊢; omega, rfl, rfl⟩

theorem ls_decode_tlv_mrlb (a : attr) (s : stream) (h : 8 ≤ STREAM_READABLE s)
    (ht : peek_w s 0 = BGP_NLRI_TLV_MAX_RESERVABLE_LINK_BANDWIDTH) :
    ls_decode_tlv a s =
      some ({ a with link_state_attr := { a.link_state_attr with
                mrlb := u32_to_float (peek_l s 4) } }, ⟨s.data, s.getp + 8⟩) := by
  unfold ls_decode_tlv
  obtain ⟨h1, h2⟩ := header_reads s (by omega)
  rw [h1]; simp only; rw [h2]; simp only
  rw [ht, ls_decode_value_1090, read_then_getl_float_eq_some]
  exact ⟨by simp only [STREAM_READABLE] at h ⊢; omega, rfl, rfl⟩

theorem ls_decode_tlv_tdm (a : attr) (s : stream) (h : 8 ≤ STREAM_READABLE s)
    (ht : peek_w s 0 = BGP_NLRI_TLV_TE_DEFAULT_METRIC) :
    ls_decode_tlv a s =
      some ({ a with link_state_attr := { a.link_state_attr with tdm := peek_l s 4 } },
            ⟨s.data, s.getp + 8⟩) := by
  unfold ls_decode_tlv
  obtain ⟨h1, h2⟩ := header_reads s (by omega)
  rw [h1]; simp only; rw [h2]; simp only
  rw [ht, ls_decode_value_1092, read_then_getn_eq_some]
  exact ⟨by simp only [STREAM_READABLE] at h ⊢; omega, rfl, rfl⟩

theorem ls_decode_tlv_pm (a : attr) (s : stream) (h : 8 ≤ STREAM_READABLE s)
    (ht : peek_w s 0 = BGP_NLRI_TLV_PREFIX_METRIC) :
    ls_decode_tlv a s =
      some ({ a with link_state_attr := { a.link_state_attr with pm := peek_l s 4 } },
            ⟨s.data, s.getp + 8⟩) := by
  unfold ls_decode_tlv
  obtain ⟨h1, h2⟩ := header_reads s (by omega)
  rw [h1]; simp only; rw [h2]; simp only
  rw [ht, ls_decode_value_1155, read_then_getn_eq_some]
  exact ⟨by simp only [STREAM_READABLE] at h ⊢; omega, rfl, rfl⟩

theorem ls_decode_tlv_lpt (a : attr) (s : stream) (h : 6 ≤ STREAM_READABLE s)
    (ht : peek_w s 0 = BGP_NLRI_TLV_LINK_PROTECTION_TYPE) :
    ls_decode_tlv a s =
      some ({ a with link_state_attr := { a.link_state_attr with lpt := peek_w s 4 } },
            ⟨s.data, s.getp + 6⟩) := by
  unfold ls_decode_tlv
  obtain ⟨h1, h2⟩ := header_reads s (by omega)
  rw [h1]; simp only; rw [h2]; simp only
  rw [ht, ls_decode_value_1093, read_then_getn_eq_some]
  exact ⟨by simp only [STREAM_READABLE] at h ⊢; omega, rfl, rfl⟩

theorem ls_decode_tlv_mpm (a : attr) (s : stream) (h : 5 ≤ STREAM_READABLE s)
    (ht : peek_w s 0 = BGP_NLRI_TLV_MPLS_PROTOCOL_MASK) :
    ls_decode_tlv a s =
      some ({ a with link_state_attr := { a.link_state_attr with mpm := peek_c s 4 } },
            ⟨s.data, s.getp + 5⟩) := by
  unfold ls_decode_tlv
  obtain ⟨h1, h2⟩ := header_reads s (by omega)
  rw [h1]; simp only; rw [h2]; simp only
  rw [ht, ls_decode_value_1094, read_then_getn_eq_some]
  exact ⟨by simp only [STREAM_READABLE] at h ⊢; omega, rfl, rfl⟩

theorem ls_decode_tlv_ifl (a : attr) (s : stream) (h : 5 ≤ STREAM_READABLE s)
    (ht : peek_w s 0 = BGP_NLRI_TLV_IGP_FLAGS) :
    ls_decode_tlv a s =
      some ({ a with link_state_attr := { a.link_state_attr with ifl := peek_c s 4 } },
            ⟨s.data, s.getp + 5⟩) := by
  unfold ls_decode_tlv
  obtain ⟨h1, h2⟩ := header_reads s (by omega)
  rw [h1]; simp only; rw [h2]; simp only
  rw [ht, ls_decode_value_1152, read_then_getn_eq_some]
  exact ⟨by simp only [STREAM_READABLE] at h ⊢; omega, rfl, rfl⟩

/-- A round on an IPv6 Router-ID sub-TLV (type 1029 or 1031) that returns has read 16 value
bytes and has left the attribute record as it was. -/
theorem ls_decode_tlv_ipv6_router_id (a : attr) (s : stream) (a1 : attr) (s1 : stream)
    (ht : peek_w s 0 = BGP_NLRI_TLV_IPV6_ROUTER_ID_OF_LOCAL_NODE ∨
      peek_w s 0 = BGP_NLRI_TLV_IPV6_ROUTER_ID_OF_REMOTE_NODE)
    (h : ls_decode_tlv a s = some (a1, s1)) :
    a1 = a ∧ s1 = ⟨s.data, s.getp + 20⟩ := by
  unfold ls_decode_tlv at h
  by_cases h4 : 4 ≤ STREAM_READABLE s
  · obtain ⟨h1, h2⟩ := header_reads s h4
    rw [h1] at h; simp only at h; rw [h2] at h; simp only at h
    rcases ht with ht | ht
    · rw [ht, ls_decode_value_1029, read_then_get_eq_some] at h
      exact ⟨h.2.1, h.2.2⟩
    · rw [ht, ls_decode_value_1031, read_then_get_eq_some] at h
      exact ⟨h.2.1, h.2.2⟩
  · rcases header_reads_none s (by omega) with h1 | ⟨h1, h2⟩
    · rw [h1] at h; simp at h
    · rw [h1] at h; simp only at h; rw [h2] at h; simp at h

/-- The first round of `bgp_link_state_decode`: when the attribute length is not 0 and the
round returns, the function goes on from the state the round has left. -/
theorem bgp_link_state_decode_first_round (args : bgp_attr_parser_args) (s : stream)
    (hpos : 0 < args.length) (a1 : attr) (s1 : stream)
    (h : ls_decode_tlv args.attr s = some (a1, s1)) :
    bgp_link_state_decode args s =
      stream_while ls_decode_tlv (s.getp + args.length) (STREAM_READABLE s1) a1 s1 := by
  unfold bgp_link_state_decode
  simp only [stream_get_getp]
  exact stream_while_step _ ls_decode_tlv_advances _ _ _ _ _ _ (by omega) h (Nat.le_refl _)

/-- In each of the four node-descriptor loops, a round that starts at an IGP Router-ID
sub-TLV (type 515) of declared length `n`, with `n` one of 4, 6, 7, 8 and the `n` value bytes
in the stream, copies these `n` bytes over the member `value` of the descriptor (destination
`&local_node->value`, in the remote case `&remote_node->value`) and advances the read position
by 4 + `n`. -/
theorem router_id_round_by_length (m : mp_bgpls_nlri) (s : stream) (n : Nat)
    (ht : peek_w s 0 = BGP_NLRI_TLV_IGP_ROUTER_ID) (hl : peek_w s 2 = n)
    (hn : n = BGP_NLRI_OSPF_NON_PSEUDONODE ∨ n = BGP_NLRI_IS_IS_NON_PSEUDONODE ∨
      n = BGP_NLRI_IS_IS_PSEUDONODE ∨ n = BGP_NLRI_OSPF_PSEUDONODE)
    (h : 4 + n ≤ STREAM_READABLE s) :
    node_decode_subtlv m s =
      some (copy_local_value_addr m (peek_bytes s 4 n), ⟨s.data, s.getp + 4 + n⟩) ∧
    link_decode_local_subtlv m s =
      some (copy_local_value_addr m (peek_bytes s 4 n), ⟨s.data, s.getp + 4 + n⟩) ∧
    link_decode_remote_subtlv m s =
      some (copy_remote_value_addr m (peek_bytes s 4 n), ⟨s.data, s.getp + 4 + n⟩) ∧
    prefix_decode_local_subtlv m s =
      some (copy_local_value_addr m (peek_bytes s 4 n), ⟨s.data, s.getp + 4 + n⟩) ∧
    (peek_bytes s 4 n).length = n := by
  simp only [BGP_NLRI_TLV_IGP_ROUTER_ID, BGP_NLRI_OSPF_NON_PSEUDONODE,
    BGP_NLRI_IS_IS_NON_PSEUDONODE, BGP_NLRI_IS_IS_PSEUDONODE, BGP_NLRI_OSPF_PSEUDONODE] at ht hn
  have hl4 : peek_w s 2 = 6 ∨ peek_w s 2 = 7 ∨ peek_w s 2 = 4 ∨ peek_w s 2 = 8 := by
    rw [hl]; omega
  have hb : ∀ cv cva, node_subtlv_ref cv cva m s =
      some (cva m (peek_bytes s 4 n), ⟨s.data, s.getp + 4 + n⟩) := by
    intro cv cva
    rw [node_subtlv_ref_router_id cv cva m s ht hl4 (by rw [hl]; exact h), hl]
  have hlen := peek_bytes_length s 4 n h
  refine ⟨?_, ?_, ?_, ?_, hlen⟩
  · rw [node_decode_subtlv_eq]; exact hb _ _
  · rw [link_decode_local_subtlv_eq]; exact hb _ _
  · rw [link_decode_remote_subtlv_eq]; exact hb _ _
  · rw [prefix_decode_local_subtlv_eq]; exact hb _ _

/-! ## The claims -/

/-! ### C1 -/

/-- C2, counterexample: the outer TLV (type 256) declares a region of 2 bytes, so the sub-TLV
header that starts in it is truncated by the region end (2 bytes remain).  All three NLRI
decoders read the header and the four value bytes across the region end (position 15) and
return `BGP_ATTR_PARSE_PROCEED` with the read position at 21. -/
theorem nlri_decode_truncated_header_proceeds :
    (bgp_mp_node_decode ⟨0, attr_zero⟩
        ⟨[3, 0, 0, 0, 0, 0, 0, 0, 0, 1, 0, 0, 2, 2, 0, 0, 4, 0, 0, 253, 233], 0⟩).map
      (fun r => (r.2.1.getp, r.2.2)) = some (21, BGP_ATTR_PARSE_PROCEED) ∧
    (bgp_mp_link_decode ⟨0, attr_zero⟩
        ⟨[3, 0, 0, 0, 0, 0, 0, 0, 0, 1, 0, 0, 2, 2, 0, 0, 4, 0, 0, 253, 233], 0⟩).map
      (fun r => (r.2.1.getp, r.2.2)) = some (21, BGP_ATTR_PARSE_PROCEED) ∧
    (bgp_mp_prefix_decode ⟨0, attr_zero⟩
        ⟨[3, 0, 0, 0, 0, 0, 0, 0, 0, 1, 0, 0, 2, 2, 0, 0, 4, 0, 0, 253, 233], 0⟩).map
      (fun r => (r.2.1.getp, r.2.2)) = some (21, BGP_ATTR_PARSE_PROCEED) ∧
    13 + 2 < 21 := by decide

/-- C2, as amended: the NLRI decoders return no parse error for a truncated sub-TLV header or
an overlong declared length.  Whenever `bgp_mp_node_decode` or `bgp_mp_link_decode` return,
they return `BGP_ATTR_PARSE_PROCEED`; `bgp_mp_prefix_decode` returns
`BGP_ATTR_PARSE_ERROR_NOTIFYPLS` exactly when the outer type is none of 256, 263, 264, 265.
A round of a node-descriptor loop stops the run, without a return value, whenever the stream,
whatever the region end, holds fewer bytes than the four header bytes plus the value bytes its
case reads. -/
theorem nlri_decode_no_bounds_error (args : bgp_attr_parser_args) (s : stream)
    (r : attr × stream × bgp_attr_parse_ret_t) :
    (bgp_mp_node_decode args s = some r → r.2.2 = BGP_ATTR_PARSE_PROCEED) ∧
    (bgp_mp_link_decode args s = some r → r.2.2 = BGP_ATTR_PARSE_PROCEED) ∧
    (bgp_mp_prefix_decode args s = some r →
      (r.2.2 = BGP_ATTR_PARSE_ERROR_NOTIFYPLS ↔ peek_w s 9 ∉ [256, 263, 264, 265])) ∧
    (∀ (m : mp_bgpls_nlri) (s0 : stream),
      STREAM_READABLE s0 < 4 + node_value_size (peek_w s0 0) (peek_w s0 2) →
      node_decode_subtlv m s0 = none ∧ link_decode_local_subtlv m s0 = none ∧
      link_decode_remote_subtlv m s0 = none ∧ prefix_decode_local_subtlv m s0 = none) := by
  refine ⟨bgp_mp_node_decode_ret args s r, bgp_mp_link_decode_ret args s r,
    fun h => (bgp_mp_prefix_decode_ret args s r h).1, fun m s0 hlt => ⟨?_, ?_, ?_, ?_⟩⟩
  · rw [node_decode_subtlv_eq]; exact (node_subtlv_ref_eq_none _ _ _ _).2 hlt
  · rw [link_decode_local_subtlv_eq]; exact (node_subtlv_ref_eq_none _ _ _ _).2 hlt
  · rw [link_decode_remote_subtlv_eq]; exact (node_subtlv_ref_eq_none _ _ _ _).2 hlt
  · rw [prefix_decode_local_subtlv_eq]; exact (node_subtlv_ref_eq_none _ _ _ _).2 hlt

/-- C2, witness: `bgp_mp_link_decode` on the input with the truncated sub-TLV header returns,
and what it returns is `BGP_ATTR_PARSE_PROCEED`. -/
theorem nlri_decode_no_bounds_error_witness :
    bgp_mp_link_decode ⟨0, attr_zero⟩
        ⟨[3, 0, 0, 0, 0, 0, 0, 0, 0, 1, 0, 0, 2, 2, 0, 0, 4, 0, 0, 253, 233], 0⟩ =
      some ({ attr_zero with mp_bgpls_nlri :=
              { attr_zero.mp_bgpls_nlri with
                proto_id := 3, local_node := ⟨[], [0, 0, 253, 233]⟩ } },
            ⟨[3, 0, 0, 0, 0, 0, 0, 0, 0, 1, 0, 0, 2, 2, 0, 0, 4, 0, 0, 253, 233], 21⟩,
            BGP_ATTR_PARSE_PROCEED) ∧
    (({ attr_zero with mp_bgpls_nlri :=
          { attr_zero.mp_bgpls_nlri with proto_id := 3, local_node := ⟨[], [0, 0, 253, 233]⟩ } },
      ⟨[3, 0, 0, 0, 0, 0, 0, 0, 0, 1, 0, 0, 2, 2, 0, 0, 4, 0, 0, 253, 233], 21⟩,
      BGP_ATTR_PARSE_PROCEED) : attr × stream × bgp_attr_parse_ret_t).2.2
      = BGP_ATTR_PARSE_PROCEED :=
  ⟨by decide,
   (nlri_decode_no_bounds_error ⟨0, attr_zero⟩
    ⟨[3, 0, 0, 0, 0, 0, 0, 0, 0, 1, 0, 0, 2, 2, 0, 0, 4, 0, 0, 253, 233], 0⟩
    ({ attr_zero with mp_bgpls_nlri :=
          { attr_zero.mp_bgpls_nlri with proto_id := 3, local_node := ⟨[], [0, 0, 253, 233]⟩ } },
      ⟨[3, 0, 0, 0, 0, 0, 0, 0, 0, 1, 0, 0, 2, 2, 0, 0, 4, 0, 0, 253, 233], 21⟩,
      BGP_ATTR_PARSE_PROCEED)).2.1 (by decide)⟩

/-! ### C3 -/

/-- C3, counterexample: a round on a sub-TLV of the unregistered type 9999 with declared
length 3 advances the read position by 4, not by 4 + 3; a round on a Node Flag Bits sub-TLV
(type 1024) with declared length 3 advances it by 5. -/
theorem link_state_round_not_declared_length :
    ls_decode_tlv attr_zero ⟨[39, 15, 0, 3, 1, 2, 3], 0⟩ =
      some (attr_zero, ⟨[39, 15, 0, 3, 1, 2, 3], 4⟩) ∧
    (ls_decode_tlv attr_zero ⟨[4, 0, 0, 3, 1, 2, 3], 0⟩).map (fun r => r.2.getp) = some 5 ∧
    4 ≠ 0 + 4 + 3 ∧ 5 ≠ 0 + 4 + 3 := by decide

/-- C3, as amended: a round of the loop of `bgp_link_state_decode` that returns has advanced the
read position by 4 plus the number of value bytes its case reads (`ls_value_size`).  That is
4 + `ls_length` for the seven variable-length types, and 4 alone for a type code without a
case; the fixed-shape cases read their fixed size whatever `ls_length` is, the array cases
whole elements. -/
theorem link_state_round_advance (a : attr) (s : stream) (a1 : attr) (s1 : stream)
    (h : ls_decode_tlv a s = some (a1, s1)) :
    s1.getp = s.getp + 4 + ls_value_size a ⟨s.data, s.getp + 4⟩ (peek_w s 0) (peek_w s 2) ∧
    (peek_w s 0 ∈ [1025, 1026, 1027, 1095, 1097, 1098, 1157] →
      s1.getp = s.getp + 4 + peek_w s 2) ∧
    (peek_w s 0 ∉ ls_known_types → s1.getp = s.getp + 4) ∧
    (peek_w s 0 ∈ [1024, 1094, 1152] → s1.getp = s.getp + 4 + 1) ∧
    (peek_w s 0 = 1093 → s1.getp = s.getp + 4 + 2) ∧
    (peek_w s 0 ∈ [1028, 1030, 1088, 1089, 1090, 1092, 1155] → s1.getp = s.getp + 4 + 4) ∧
    (peek_w s 0 ∈ [1029, 1031] → s1.getp = s.getp + 4 + 16) ∧
    (peek_w s 0 ∈ [1096, 1153] → s1.getp = s.getp + 4 + 4 * (peek_w s 2 / 4)) ∧
    (peek_w s 0 = 1154 → s1.getp = s.getp + 4 + 8 * (peek_w s 2 / 8)) := by
  obtain ⟨h1, _⟩ := ls_decode_tlv_getp a s a1 s1 h
  subst h1
  refine ⟨rfl, ?_, ?_, ?_, ?_, ?_, ?_, ?_, ?_⟩
  · intro ht
    simp only [List.mem_cons, List.mem_singleton, List.mem_nil_iff, or_false] at ht
    rcases ht with e | e | e | e | e | e | e <;> simp [ls_value_size, e]
  · intro ht
    rw [ls_value_size_default _ _ _ _ ht]
  · intro ht
    simp only [List.mem_cons, List.mem_singleton, List.mem_nil_iff, or_false] at ht
    rcases ht with e | e | e <;> simp [ls_value_size, e]
  · intro e
    simp [ls_value_size, e]
  · intro ht
    simp only [List.mem_cons, List.mem_singleton, List.mem_nil_iff, or_false] at ht
    rcases ht with e | e | e | e | e | e | e <;> simp [ls_value_size, e]
  · intro ht
    simp only [List.mem_cons, List.mem_singleton, List.mem_nil_iff, or_false] at ht
    rcases ht with e | e <;> simp [ls_value_size, e]
  · intro ht
    simp only [List.mem_cons, List.mem_singleton, List.mem_nil_iff, or_false] at ht
    rcases ht with e | e <;> simp [ls_value_size, e]
  · intro e
    simp [ls_value_size, e]

/-- C3, witness: the round on type 9999 with declared length 3 returns at position 4. -/
theorem link_state_round_advance_witness :
    ls_decode_tlv attr_zero ⟨[39, 15, 0, 3, 1, 2, 3], 0⟩ =
      some (attr_zero, ⟨[39, 15, 0, 3, 1, 2, 3], 4⟩) ∧
    peek_w ⟨[39, 15, 0, 3, 1, 2, 3], 0⟩ 0 ∉ ls_known_types ∧
    (⟨[39, 15, 0, 3, 1, 2, 3], 4⟩ : stream).getp = 0 + 4 :=
  ⟨by decide, by decide,
   (link_state_round_advance attr_zero ⟨[39, 15, 0, 3, 1, 2, 3], 0⟩ attr_zero
      ⟨[39, 15, 0, 3, 1, 2, 3], 4⟩ (by decide)).2.2.1 (by decide)⟩

/-! ### C4 -/

/-- C4, counterexample: the region holds a sub-TLV of type 9999 with declared length 3 and
value bytes 0, 0, 0, then Node Flag Bits (type 1024, length 1, value 5).  The decoder does not
skip the three value bytes: it reads them, with the next byte, as a header, and so on; it ends
at the region end with `nfb.value` still 0. -/
theorem link_state_decode_unknown_then_flags :
    bgp_link_state_decode ⟨12, attr_zero⟩ ⟨[39, 15, 0, 3, 0, 0, 0, 4, 0, 0, 1, 5], 0⟩ =
      some (attr_zero, ⟨[39, 15, 0, 3, 0, 0, 0, 4, 0, 0, 1, 5], 12⟩) ∧
    attr_zero.link_state_attr.nfb ≠ 5 := by decide

/-- C4, as amended: when the four header bytes of a sub-TLV with an unregistered type code
are directly followed by a Node Flag Bits sub-TLV (type 1024, one value byte `v`), as they are
when the unknown sub-TLV declares length 0, `bgp_link_state_decode` over these 9 bytes stores `v`
in `link_state_attr->nfb.value`, changes nothing else and ends with the read position at the
region end.  (The case reads one byte without looking at the length the header declares.) -/
theorem link_state_decode_unknown_header_then_flags (args : bgp_attr_parser_args) (s : stream)
    (hlen : args.length = 9) (hr : 9 ≤ STREAM_READABLE s)
    (ht : peek_w s 0 ∉ ls_known_types)
    (hnfb : peek_w s 4 = BGP_NLRI_TLV_NODE_FLAG_BITS) :
    bgp_link_state_decode args s =
      some ({ args.attr with
              link_state_attr := { args.attr.link_state_attr with nfb := peek_c s 8 } },
            ⟨s.data, s.getp + 9⟩) := by
  unfold bgp_link_state_decode
  simp only [stream_get_getp, hlen]
  have r1 := ls_decode_tlv_unknown args.attr s (by omega) ht
  rw [stream_while_step _ ls_decode_tlv_advances _ _ _ _ _ _ (by omega) r1 (Nat.le_refl _)]
  have e4 : peek_w ⟨s.data, s.getp + 4⟩ 0 = BGP_NLRI_TLV_NODE_FLAG_BITS := by
    rw [← hnfb]; simp [peek_w]
  have r2 := ls_decode_tlv_nfb args.attr ⟨s.data, s.getp + 4⟩
    (by simp only [STREAM_READABLE] at hr ⊢; omega) e4
  rw [stream_while_step _ ls_decode_tlv_advances _ _ _ _ _ _ (by simp only; omega) r2
    (Nat.le_refl _)]
  rw [stream_while_done _ _ _ _ _ (by simp only; omega)]
  simp [peek_c, Nat.add_assoc]

/-- C4, witness: type 9999 with declared length 0, then Node Flag Bits with value 5. -/
theorem link_state_decode_unknown_header_then_flags_witness :
    bgp_link_state_decode ⟨9, attr_zero⟩ ⟨[39, 15, 0, 0, 4, 0, 0, 1, 5], 0⟩ =
      some ({ attr_zero with link_state_attr := { attr_zero.link_state_attr with nfb := 5 } },
            ⟨[39, 15, 0, 0, 4, 0, 0, 1, 5], 9⟩) :=
  link_state_decode_unknown_header_then_flags ⟨9, attr_zero⟩ ⟨[39, 15, 0, 0, 4, 0, 0, 1, 5], 0⟩
    (by decide) (by decide) (by decide) (by decide)

/-! ### C5 -/

/-- C5, counterexample: on the scenario's Link NLRI, `bgp_mp_link_decode` returns after the
Local Node Descriptors TLV with the read position at 37 of 77; the link identifiers and the
addresses are not decoded, the remote node is untouched, and the one value buffer of the
local node holds the Area-ID bytes, not the Autonomous System 65001. -/
theorem link_decode_scenario_stops_early :
    bgp_mp_link_decode ⟨77, attr_zero⟩ ⟨link_nlri_scenario, 0⟩ =
      some ({ attr_zero with mp_bgpls_nlri :=
              { attr_zero.mp_bgpls_nlri with
                proto_id := 3, local_node := ⟨[], [0, 0, 0, 0]⟩ } },
            ⟨link_nlri_scenario, 37⟩, BGP_ATTR_PARSE_PROCEED) ∧
    link_nlri_scenario.length = 77 ∧ 37 ≠ 77 ∧
    attr_zero.mp_bgpls_nlri.llri_local ≠ 3 ∧ attr_zero.mp_bgpls_nlri.llri_remote ≠ 7 ∧
    attr_zero.mp_bgpls_nlri.i4ia ≠ [10, 0, 0, 1] ∧
    attr_zero.mp_bgpls_nlri.i4na ≠ [10, 0, 0, 2] := by decide

/-- C5, as amended: on the scenario's Link NLRI, whatever the record held before,
`bgp_mp_link_decode` decodes the Protocol-ID, the identifier and the first outer TLV only: the
three sub-TLVs of the Local Node Descriptors are copied one after the other to
`local_node->value`, which ends holding the four Area-ID bytes; every other field keeps its
value, the read position is left at 37, the end of that TLV, and the result is
`BGP_ATTR_PARSE_PROCEED`. -/
theorem link_decode_scenario_local_node_only (args : bgp_attr_parser_args) :
    bgp_mp_link_decode args ⟨link_nlri_scenario, 0⟩ =
      some ({ args.attr with mp_bgpls_nlri :=
              { args.attr.mp_bgpls_nlri with
                proto_id := 3, nlri_identifier := 0,
                local_node :=
                  { args.attr.mp_bgpls_nlri.local_node with
                    value_target :=
                      [0, 0, 0, 0] ++
                        args.attr.mp_bgpls_nlri.local_node.value_target.drop 4 } } },
            ⟨link_nlri_scenario, 37⟩, BGP_ATTR_PARSE_PROCEED) := by
  rfl

/-! ### C6 -/

/-- C6, counterexample: the Local Node Descriptors region of the scenario holds Autonomous
System 65001, BGP-LS Identifier 1 and Area-ID 0.  `bgp_mp_node_decode` decodes the first
sub-TLV and returns (the loop body ends in `break`): the read position is 21, the region ends
at 37, and the record holds only the bytes of 65001. -/
theorem node_decode_scenario_first_subtlv_only :
    bgp_mp_node_decode ⟨37, attr_zero⟩ ⟨node_nlri_scenario, 0⟩ =
      some ({ attr_zero with mp_bgpls_nlri :=
              { attr_zero.mp_bgpls_nlri with
                proto_id := 3, local_node := ⟨[], [0, 0, 253, 233]⟩ } },
            ⟨node_nlri_scenario, 21⟩, BGP_ATTR_PARSE_PROCEED) ∧
    node_nlri_scenario.length = 37 ∧ 21 ≠ 37 := by decide

/-- C6, as amended: for a Local Node Descriptors region that holds one sub-TLV, an Autonomous
System, a BGP-LS Identifier or an OSPF Area-ID carrying four value bytes, `bgp_mp_node_decode`
passes over the whole region and copies the four bytes to `local_node->value`: the three types
share this one destination, the record has no field of its own for each. -/
theorem node_decode_single_subtlv (args : bgp_attr_parser_args) (s : stream)
    (hr : 21 ≤ STREAM_READABLE s) (hlen : peek_w s 11 = 8)
    (ht : peek_w s 13 = BGP_NLRI_TLV_AUTONOMOUS_SYSTEM ∨
      peek_w s 13 = BGP_NLRI_TLV_BGP_LS_IDENTIFIER ∨ peek_w s 13 = BGP_NLRI_TLV_AREA_ID) :
    bgp_mp_node_decode args s =
      some (⟨copy_local_value
                { args.attr.mp_bgpls_nlri with
                  proto_id := peek_c s 0, nlri_identifier := peek_q s 1 }
                (peek_bytes s 17 4),
              args.attr.link_state_attr⟩,
            ⟨s.data, s.getp + 13 + 8⟩, BGP_ATTR_PARSE_PROCEED) := by
  obtain ⟨h1, h2, h3, h4⟩ := nlri_prelude s (by omega)
  unfold bgp_mp_node_decode
  rw [h1]; simp only; rw [h2]; simp only; rw [h3]; simp only; rw [h4]
  simp only [stream_get_getp, hlen]
  rw [if_pos (by omega), node_decode_subtlv_eq]
  have e0 : peek_w ⟨s.data, s.getp + 13⟩ 0 = peek_w s 13 := by simp [peek_w]
  rw [node_subtlv_ref_value _ _ _ _ (by simp only [STREAM_READABLE] at hr ⊢; omega)
    (by rw [e0]; exact ht)]
  simp [peek_bytes, Nat.add_assoc]

/-- C6, witness: a region holding the one sub-TLV BGP-LS Identifier 1. -/
theorem node_decode_single_subtlv_witness :
    bgp_mp_node_decode ⟨21, attr_zero⟩
        ⟨[3, 0, 0, 0, 0, 0, 0, 0, 0, 1, 0, 0, 8, 2, 1, 0, 4, 0, 0, 0, 1], 0⟩ =
      some ({ attr_zero with mp_bgpls_nlri :=
              { attr_zero.mp_bgpls_nlri with
                proto_id := 3, local_node := ⟨[], [0, 0, 0, 1]⟩ } },
            ⟨[3, 0, 0, 0, 0, 0, 0, 0, 0, 1, 0, 0, 8, 2, 1, 0, 4, 0, 0, 0, 1], 21⟩,
            BGP_ATTR_PARSE_PROCEED) :=
  node_decode_single_subtlv ⟨21, attr_zero⟩
    ⟨[3, 0, 0, 0, 0, 0, 0, 0, 0, 1, 0, 0, 8, 2, 1, 0, 4, 0, 0, 0, 1], 0⟩
    (by decide) (by decide) (by decide)

/-! ### C7 -/

/-- C7, the code at the failing input: the Local Node Descriptors region (16 bytes, from 13
to 29) holds Autonomous System 65001 and then an IGP Router-ID sub-TLV of declared length 4
with the bytes 10, 0, 0, 1, which starts at position 21.  `bgp_mp_node_decode` returns
`BGP_ATTR_PARSE_PROCEED` with the read position at 21: its loop body ends in `break`, the
Router-ID is not read, and nothing has been copied to `&local_node->value`.  On the same bytes
`bgp_mp_link_decode` and `bgp_mp_prefix_decode` read the Router-ID and return at position
29. -/
theorem node_decode_router_id_not_read :
    (bgp_mp_node_decode ⟨29, attr_zero⟩ ⟨router_id_second_scenario, 0⟩).map
        (fun r => (r.1.mp_bgpls_nlri.local_node, r.2.1.getp, r.2.2)) =
      some ({ value := [], value_target := [0, 0, 253, 233] }, 21, BGP_ATTR_PARSE_PROCEED) ∧
    peek_w ⟨router_id_second_scenario, 21⟩ 0 = BGP_NLRI_TLV_IGP_ROUTER_ID ∧
    peek_w ⟨router_id_second_scenario, 21⟩ 2 = BGP_NLRI_OSPF_NON_PSEUDONODE ∧
    peek_bytes ⟨router_id_second_scenario, 21⟩ 4 4 = [10, 0, 0, 1] ∧
    peek_w ⟨router_id_second_scenario, 0⟩ 11 = 16 ∧ 21 + (4 + 4) = 13 + 16 ∧
    (bgp_mp_link_decode ⟨29, attr_zero⟩ ⟨router_id_second_scenario, 0⟩).map
        (fun r => (r.1.mp_bgpls_nlri.local_node, r.2.1.getp, r.2.2)) =
      some ({ value := [10, 0, 0, 1], value_target := [0, 0, 253, 233] }, 29,
        BGP_ATTR_PARSE_PROCEED) ∧
    (bgp_mp_prefix_decode ⟨29, attr_zero⟩ ⟨router_id_second_scenario, 0⟩).map
        (fun r => (r.1.mp_bgpls_nlri.local_node, r.2.1.getp, r.2.2)) =
      some ({ value := [10, 0, 0, 1], value_target := [0, 0, 253, 233] }, 29,
        BGP_ATTR_PARSE_PROCEED) := by decide

/-! ### C8 -/

/-- C8, counterexample: the Local Node Descriptors region (17 bytes) holds an IGP Router-ID
sub-TLV of declared length 5 and then Autonomous System 65001.  `bgp_mp_link_decode` does not
skip the five value bytes: it reads the next headers from them, never decodes the Autonomous
System, and returns with the read position at 33, past the region end 30.  With the bad
sub-TLV absent the Autonomous System bytes are stored. -/
theorem link_decode_bad_router_id_not_skipped :
    bgp_mp_link_decode ⟨0, attr_zero⟩
        ⟨[3, 0, 0, 0, 0, 0, 0, 0, 0, 1, 0, 0, 17, 2, 3, 0, 5, 0, 0, 0, 0, 0,
          2, 0, 0, 4, 0, 0, 253, 233, 0, 0, 0], 0⟩ =
      some ({ attr_zero with mp_bgpls_nlri := { attr_zero.mp_bgpls_nlri with proto_id := 3 } },
            ⟨[3, 0, 0, 0, 0, 0, 0, 0, 0, 1, 0, 0, 17, 2, 3, 0, 5, 0, 0, 0, 0, 0,
              2, 0, 0, 4, 0, 0, 253, 233, 0, 0, 0], 33⟩, BGP_ATTR_PARSE_PROCEED) ∧
    (bgp_mp_link_decode ⟨0, attr_zero⟩
        ⟨[3, 0, 0, 0, 0, 0, 0, 0, 0, 1, 0, 0, 8, 2, 0, 0, 4, 0, 0, 253, 233, 0, 0, 0], 0⟩).map
      (fun r => (r.1.mp_bgpls_nlri.local_node.value_target, r.2.1.getp)) =
      some ([0, 0, 253, 233], 21) ∧
    attr_zero.mp_bgpls_nlri.local_node.value_target ≠ [0, 0, 253, 233] ∧ 13 + 17 < 33 := by
  decide

/-- C8, as amended: a round of the Local Node Descriptors loop of `bgp_mp_link_decode` that
starts at an IGP Router-ID sub-TLV whose declared length is none of 4, 6, 7, 8 leaves the
router-id and every other field as they were and consumes the four header bytes only: the
declared value bytes are not skipped, the loop goes on with the byte after the header. -/
theorem link_decode_bad_router_id_header_only (m : mp_bgpls_nlri) (s : stream)
    (ht : peek_w s 0 = BGP_NLRI_TLV_IGP_ROUTER_ID)
    (hl : ¬ (peek_w s 2 = 4 ∨ peek_w s 2 = 6 ∨ peek_w s 2 = 7 ∨ peek_w s 2 = 8))
    (h : 4 ≤ STREAM_READABLE s) :
    link_decode_local_subtlv m s = some (m, ⟨s.data, s.getp + 4⟩) ∧
    ∀ (endp fuel : Nat), s.getp < endp → STREAM_READABLE s ≤ fuel →
      stream_while link_decode_local_subtlv endp fuel m s =
        stream_while link_decode_local_subtlv endp (STREAM_READABLE ⟨s.data, s.getp + 4⟩) m
          ⟨s.data, s.getp + 4⟩ := by
  simp only [BGP_NLRI_TLV_IGP_ROUTER_ID] at ht
  have hb : link_decode_local_subtlv m s = some (m, ⟨s.data, s.getp + 4⟩) := by
    rw [link_decode_local_subtlv_eq]
    exact node_subtlv_ref_header_only _ _ m s h (by omega) (by omega)
  exact ⟨hb, fun endp fuel he hf =>
    stream_while_step _ link_decode_local_subtlv_advances endp fuel m s m _ he hb hf⟩

/-- C8, witness: an IGP Router-ID of declared length 5; the round ends at position 4. -/
theorem link_decode_bad_router_id_header_only_witness :
    link_decode_local_subtlv attr_zero.mp_bgpls_nlri
        ⟨[2, 3, 0, 5, 0, 0, 0, 0, 0, 2, 0, 0, 4, 0, 0, 253, 233], 0⟩ =
      some (attr_zero.mp_bgpls_nlri,
            ⟨[2, 3, 0, 5, 0, 0, 0, 0, 0, 2, 0, 0, 4, 0, 0, 253, 233], 0 + 4⟩) :=
  (link_decode_bad_router_id_header_only attr_zero.mp_bgpls_nlri
    ⟨[2, 3, 0, 5, 0, 0, 0, 0, 0, 2, 0, 0, 4, 0, 0, 253, 233], 0⟩
    (by decide) (by decide) (by decide)).1

/-! ### C9 -/

/-- C9, counterexample: a Multi-Topology-ID sub-TLV (type 263) of declared length 4 with the
values 7 and 0.  `bgp_link_state_decode` and `bgp_mp_link_decode` read a second header from
the four value bytes (type 7, length 0) and store no element; with the value bytes 0, 1, 0, 2
and two more bytes in the stream, `bgp_link_state_decode` stores the single element 2313 taken
from after the sub-TLV and ends at 10, past the declared length. -/
theorem multi_topology_length_four_not_two_elements :
    bgp_link_state_decode ⟨8, attr_zero⟩ ⟨[1, 7, 0, 4, 0, 7, 0, 0], 0⟩ =
      some (attr_zero, ⟨[1, 7, 0, 4, 0, 7, 0, 0], 8⟩) ∧
    (bgp_mp_link_decode ⟨0, attr_zero⟩
        ⟨[3, 0, 0, 0, 0, 0, 0, 0, 0, 1, 7, 0, 4, 0, 7, 0, 0], 0⟩).map
      (fun r => (r.1.mp_bgpls_nlri.mid, r.2.1.getp)) = some ([], 17) ∧
    attr_zero.mp_bgpls_nlri.mid = [] ∧
    (bgp_link_state_decode ⟨8, attr_zero⟩ ⟨[1, 7, 0, 4, 0, 1, 0, 2, 9, 9], 0⟩).map
      (fun r => (r.1.mp_bgpls_nlri.mid, r.2.getp)) = some ([2313], 10) := by decide

/-- C9, as amended: for a Shared Risk Link Group or Route Tag sub-TLV (4-byte elements) and
an Extended Tag sub-TLV (8-byte elements) whose declared length is `k` times the element size,
a round of `bgp_link_state_decode` stores exactly the `k` big-endian values of the value bytes,
in wire order, in the first `k` cells of the array, and consumes exactly the declared length.
For a Multi-Topology-ID sub-TLV (type 263) the count is not taken from the declared length:
`bgp_link_state_decode` and `bgp_mp_link_decode` read a second (type, length) header after the
first and store `k` two-byte elements from the bytes after it when that second length is
`2 * k`. -/
theorem count_derived_arrays_exact (args : bgp_attr_parser_args) (s : stream) (k : Nat) :
    (peek_w s 0 = BGP_NLRI_TLV_SHARED_RISK_LINK_GROUP → peek_w s 2 = 4 * k →
      4 + 4 * k ≤ STREAM_READABLE s →
      ls_decode_tlv args.attr s =
        some ({ args.attr with link_state_attr := { args.attr.link_state_attr with
                  srlg := wire_values 4 k (s.data.drop (s.getp + 4)) ++
                    args.attr.link_state_attr.srlg.drop k } },
              ⟨s.data, s.getp + 4 + 4 * k⟩)) ∧
    (peek_w s 0 = BGP_NLRI_TLV_ROUTE_TAG → peek_w s 2 = 4 * k →
      4 + 4 * k ≤ STREAM_READABLE s →
      ls_decode_tlv args.attr s =
        some ({ args.attr with link_state_attr := { args.attr.link_state_attr with
                  rt := wire_values 4 k (s.data.drop (s.getp + 4)) ++
                    args.attr.link_state_attr.rt.drop k } },
              ⟨s.data, s.getp + 4 + 4 * k⟩)) ∧
    (peek_w s 0 = BGP_NLRI_TLV_EXTENDED_TAG → peek_w s 2 = 8 * k →
      4 + 8 * k ≤ STREAM_READABLE s →
      ls_decode_tlv args.attr s =
        some ({ args.attr with link_state_attr := { args.attr.link_state_attr with
                  et := wire_values 8 k (s.data.drop (s.getp + 4)) ++
                    args.attr.link_state_attr.et.drop k } },
              ⟨s.data, s.getp + 4 + 8 * k⟩)) ∧
    (∀ (size : Nat) (bs : List Nat), (wire_values size k bs).length = k) ∧
    (peek_w s 0 = BGP_NLRI_TLV_MULTI_TOPOLOGY_ID → peek_w s 6 = 2 * k →
      8 + 2 * k ≤ STREAM_READABLE s →
      ls_decode_tlv args.attr s =
        some ({ args.attr with mp_bgpls_nlri := { args.attr.mp_bgpls_nlri with
                  mid := wire_values 2 k (s.data.drop (s.getp + 8)) ++
                    args.attr.mp_bgpls_nlri.mid.drop k } },
              ⟨s.data, s.getp + 8 + 2 * k⟩)) ∧
    (peek_w s 9 = BGP_NLRI_TLV_MULTI_TOPOLOGY_ID → peek_w s 15 = 2 * k →
      17 + 2 * k ≤ STREAM_READABLE s →
      bgp_mp_link_decode args s =
        some ({ args.attr with mp_bgpls_nlri := { args.attr.mp_bgpls_nlri with
                  proto_id := peek_c s 0, nlri_identifier := peek_q s 1,
                  mid := wire_values 2 k (s.data.drop (s.getp + 17)) ++
                    args.attr.mp_bgpls_nlri.mid.drop k } },
              ⟨s.data, s.getp + 17 + 2 * k⟩, BGP_ATTR_PARSE_PROCEED)) := by
  have d4 : 4 * k / 4 = k := by omega
  have d8 : 8 * k / 8 = k := by omega
  have d2 : 2 * k / 2 = k := by omega
  refine ⟨?_, ?_, ?_, fun size bs => wire_values_length size k bs, ?_, ?_⟩
  · intro ht hl h
    have := ls_decode_tlv_srlg args.attr s ht (by rw [hl, d4]; exact h)
    rw [hl, d4] at this; exact this
  · intro ht hl h
    have := ls_decode_tlv_rt args.attr s ht (by rw [hl, d4]; exact h)
    rw [hl, d4] at this; exact this
  · intro ht hl h
    have := ls_decode_tlv_et args.attr s ht (by rw [hl, d8]; exact h)
    rw [hl, d8] at this; exact this
  · intro ht hl h
    have := ls_decode_tlv_mid args.attr s ht (by rw [hl, d2]; exact h)
    rw [hl, d2] at this; exact this
  · intro ht hl h
    have := bgp_mp_link_decode_mid args s ht (by rw [hl, d2]; exact h)
    rw [hl, d2] at this; exact this

/-- C9, witness: a Shared Risk Link Group sub-TLV of length 8 holding 1 and 2. -/
theorem count_derived_arrays_exact_witness :
    ls_decode_tlv attr_zero ⟨[4, 72, 0, 8, 0, 0, 0, 1, 0, 0, 0, 2], 0⟩ =
      some ({ attr_zero with link_state_attr := { attr_zero.link_state_attr with
                srlg := [1, 2] } },
            ⟨[4, 72, 0, 8, 0, 0, 0, 1, 0, 0, 0, 2], 12⟩) :=
  (count_derived_arrays_exact ⟨12, attr_zero⟩
    ⟨[4, 72, 0, 8, 0, 0, 0, 1, 0, 0, 0, 2], 0⟩ 2).1
    (by decide) (by decide) (by decide)

/-! ### C10 -/

/-- C10, counterexample: a Shared Risk Link Group sub-TLV of declared length 5 makes
`bgp_link_state_decode` store one element and go on (the fifth value byte starts the next
header), and a Multi-Topology-ID TLV of declared length 5 makes `bgp_mp_prefix_decode` return
`BGP_ATTR_PARSE_PROCEED`: no error is reported. -/
theorem array_length_not_multiple_accepted :
    (bgp_link_state_decode ⟨9, attr_zero⟩ ⟨[4, 72, 0, 5, 0, 0, 0, 1, 9, 0, 0, 0], 0⟩).map
      (fun r => (r.1.link_state_attr.srlg, r.2.getp)) = some ([1], 12) ∧
    (bgp_mp_prefix_decode ⟨0, attr_zero⟩
        ⟨[3, 0, 0, 0, 0, 0, 0, 0, 0, 1, 7, 0, 5, 0, 0, 0, 0, 0], 0⟩).map
      (fun r => (r.1.mp_bgpls_nlri.mid, r.2.1.getp, r.2.2)) =
      some ([], 17, BGP_ATTR_PARSE_PROCEED) ∧
    5 % 4 ≠ 0 ∧ 5 % 2 ≠ 0 := by decide

/-- C10, as amended: whatever the declared length of a Shared Risk Link Group, Route Tag
(4-byte elements) or Extended Tag (8-byte elements) sub-TLV, a multiple of the element size
or not, a round of `bgp_link_state_decode` reports no error: it stores the whole elements,
declared length divided by element size rounded down, and consumes only their bytes, which is
less than the declared length when that is no multiple.  A Multi-Topology-ID TLV in
`bgp_mp_prefix_decode` stores half the second header's length, rounded down, of two-byte
elements and has the decoder return `BGP_ATTR_PARSE_PROCEED`. -/
theorem count_derived_arrays_floor (args : bgp_attr_parser_args) (s : stream) :
    (peek_w s 0 = BGP_NLRI_TLV_SHARED_RISK_LINK_GROUP →
      4 + 4 * (peek_w s 2 / 4) ≤ STREAM_READABLE s →
      ls_decode_tlv args.attr s =
        some ({ args.attr with link_state_attr := { args.attr.link_state_attr with
                  srlg := wire_values 4 (peek_w s 2 / 4) (s.data.drop (s.getp + 4)) ++
                    args.attr.link_state_attr.srlg.drop (peek_w s 2 / 4) } },
              ⟨s.data, s.getp + 4 + 4 * (peek_w s 2 / 4)⟩)) ∧
    (peek_w s 0 = BGP_NLRI_TLV_ROUTE_TAG →
      4 + 4 * (peek_w s 2 / 4) ≤ STREAM_READABLE s →
      ls_decode_tlv args.attr s =
        some ({ args.attr with link_state_attr := { args.attr.link_state_attr with
                  rt := wire_values 4 (peek_w s 2 / 4) (s.data.drop (s.getp + 4)) ++
                    args.attr.link_state_attr.rt.drop (peek_w s 2 / 4) } },
              ⟨s.data, s.getp + 4 + 4 * (peek_w s 2 / 4)⟩)) ∧
    (peek_w s 0 = BGP_NLRI_TLV_EXTENDED_TAG →
      4 + 8 * (peek_w s 2 / 8) ≤ STREAM_READABLE s →
      ls_decode_tlv args.attr s =
        some ({ args.attr with link_state_attr := { args.attr.link_state_attr with
                  et := wire_values 8 (peek_w s 2 / 8) (s.data.drop (s.getp + 4)) ++
                    args.attr.link_state_attr.et.drop (peek_w s 2 / 8) } },
              ⟨s.data, s.getp + 4 + 8 * (peek_w s 2 / 8)⟩)) ∧
    (peek_w s 2 % 4 ≠ 0 → 4 * (peek_w s 2 / 4) < peek_w s 2) ∧
    (peek_w s 2 % 8 ≠ 0 → 8 * (peek_w s 2 / 8) < peek_w s 2) ∧
    (peek_w s 9 = BGP_NLRI_TLV_MULTI_TOPOLOGY_ID →
      17 + 2 * (peek_w s 15 / 2) ≤ STREAM_READABLE s →
      bgp_mp_prefix_decode args s =
        some ({ args.attr with mp_bgpls_nlri := { args.attr.mp_bgpls_nlri with
                  proto_id := peek_c s 0, nlri_identifier := peek_q s 1,
                  mid := wire_values 2 (peek_w s 15 / 2) (s.data.drop (s.getp + 17)) ++
                    args.attr.mp_bgpls_nlri.mid.drop (peek_w s 15 / 2) } },
              ⟨s.data, s.getp + 17 + 2 * (peek_w s 15 / 2)⟩, BGP_ATTR_PARSE_PROCEED)) :=
  ⟨ls_decode_tlv_srlg args.attr s, ls_decode_tlv_rt args.attr s, ls_decode_tlv_et args.attr s,
   fun h => by omega, fun h => by omega, bgp_mp_prefix_decode_mid args s⟩

/-- C10, witness: a Shared Risk Link Group sub-TLV of declared length 5; one element is
stored and the round ends at position 8, one byte before the end of the sub-TLV. -/
theorem count_derived_arrays_floor_witness :
    ls_decode_tlv attr_zero ⟨[4, 72, 0, 5, 0, 0, 0, 1, 9, 0, 0, 0], 0⟩ =
      some ({ attr_zero with link_state_attr := { attr_zero.link_state_attr with
                srlg := [1] } },
            ⟨[4, 72, 0, 5, 0, 0, 0, 1, 9, 0, 0, 0], 8⟩) :=
  (count_derived_arrays_floor ⟨9, attr_zero⟩ ⟨[4, 72, 0, 5, 0, 0, 0, 1, 9, 0, 0, 0], 0⟩).1
    (by decide) (by decide)

/-! ### C11 -/

/-- C11, counterexample: the attribute holds Node Flag Bits with declared length 3 (value
bytes 7, 0, 0) and then, 4 + 3 bytes after its start, a Node Name sub-TLV.
`bgp_link_state_decode` stores 7 in `nfb.value` instead of leaving it 0, and goes on at
offset 5, not 7: the Node Name is never decoded. -/
theorem link_state_decode_wrong_length_field_stored :
    bgp_link_state_decode ⟨17, attr_zero⟩ ⟨flags_length_three_scenario, 0⟩ =
      some ({ attr_zero with link_state_attr := { attr_zero.link_state_attr with nfb := 7 } },
            ⟨flags_length_three_scenario, 17⟩) ∧
    (ls_decode_tlv attr_zero ⟨flags_length_three_scenario, 0⟩).map (fun r => r.2.getp) =
      some 5 ∧
    ls_decode_tlv attr_zero ⟨[4, 64, 0, 2, 1, 2, 3, 4], 0⟩ =
      some ({ attr_zero with
              link_state_attr := { attr_zero.link_state_attr with agc := 16909060 } },
            ⟨[4, 64, 0, 2, 1, 2, 3, 4], 8⟩) := by decide

/-- C11, as amended: `bgp_link_state_decode` does not compare the declared length of a
fixed-shape sub-TLV with its expected size.  When the attribute length is not 0 and the first
round returns, decoding continues, without aborting, from the state that round has left.
Whatever length the header declares, the round on a sub-TLV of one of the eleven types below,
with the four header bytes and the expected number of value bytes in the stream, stores the
value in the field of the type and leaves the read position 4 + that number after the start
of the sub-TLV: one byte for Node Flag Bits (`nfb`), MPLS Protocol Mask (`mpm`) and IGP Flags
(`ifl`); two bytes for Link Protection Type (`lpt`); four bytes for the IPv4 Router-ID of the
local and of the remote node (`i4ridofln`, `i4ridofrn`), Administrative Group (`agc`), TE
Default Metric (`tdm`) and Prefix Metric (`pm`), and for Maximum Link Bandwidth (`mlb`) and
Maximum Reservable Link Bandwidth (`mrlb`), whose 32-bit integer is converted to `float`.  In
a build with `HAVE_IPV6`, a round on an IPv6 Router-ID (types 1029 and 1031) that returns has
read 16 value bytes and has stored nothing in the attribute record. -/
theorem link_state_decode_fixed_shape_any_length (args : bgp_attr_parser_args) (s : stream)
    (hpos : 0 < args.length) :
    (∀ a1 s1, ls_decode_tlv args.attr s = some (a1, s1) →
      bgp_link_state_decode args s =
        stream_while ls_decode_tlv (s.getp + args.length) (STREAM_READABLE s1) a1 s1) ∧
    (peek_w s 0 = BGP_NLRI_TLV_NODE_FLAG_BITS →
      4 + BGP_NLRI_TLV_LEN_NODE_FLAG_BITS ≤ STREAM_READABLE s →
      ls_decode_tlv args.attr s =
        some ({ args.attr with
                link_state_attr := { args.attr.link_state_attr with nfb := peek_c s 4 } },
              ⟨s.data, s.getp + (4 + BGP_NLRI_TLV_LEN_NODE_FLAG_BITS)⟩)) ∧
    (peek_w s 0 = BGP_NLRI_TLV_MPLS_PROTOCOL_MASK → 4 + 1 ≤ STREAM_READABLE s →
      ls_decode_tlv args.attr s =
        some ({ args.attr with
                link_state_attr := { args.attr.link_state_attr with mpm := peek_c s 4 } },
              ⟨s.data, s.getp + (4 + 1)⟩)) ∧
    (peek_w s 0 = BGP_NLRI_TLV_IGP_FLAGS → 4 + 1 ≤ STREAM_READABLE s →
      ls_decode_tlv args.attr s =
        some ({ args.attr with
                link_state_attr := { args.attr.link_state_attr with ifl := peek_c s 4 } },
              ⟨s.data, s.getp + (4 + 1)⟩)) ∧
    (peek_w s 0 = BGP_NLRI_TLV_LINK_PROTECTION_TYPE → 4 + 2 ≤ STREAM_READABLE s →
      ls_decode_tlv args.attr s =
        some ({ args.attr with
                link_state_attr := { args.attr.link_state_attr with lpt := peek_w s 4 } },
              ⟨s.data, s.getp + (4 + 2)⟩)) ∧
    (peek_w s 0 = BGP_NLRI_TLV_IPV4_ROUTER_ID_OF_LOCAL_NODE → 4 + 4 ≤ STREAM_READABLE s →
      ls_decode_tlv args.attr s =
        some ({ args.attr with
                link_state_attr :=
                  { args.attr.link_state_attr with i4ridofln := peek_bytes s 4 4 } },
              ⟨s.data, s.getp + (4 + 4)⟩)) ∧
    (peek_w s 0 = BGP_NLRI_TLV_IPV4_ROUTER_ID_OF_REMOTE_NODE → 4 + 4 ≤ STREAM_READABLE s →
      ls_decode_tlv args.attr s =
        some ({ args.attr with
                link_state_attr :=
                  { args.attr.link_state_attr with i4ridofrn := peek_bytes s 4 4 } },
              ⟨s.data, s.getp + (4 + 4)⟩)) ∧
    (peek_w s 0 = BGP_NLRI_TLV_ADMINISTRATIVE_GROUP_COLOR →
      4 + BGP_NLRI_TLV_LEN_ADMINISTRATIVE_GROUP_COLOR ≤ STREAM_READABLE s →
      ls_decode_tlv args.attr s =
        some ({ args.attr with
                link_state_attr := { args.attr.link_state_attr with agc := peek_l s 4 } },
              ⟨s.data, s.getp + (4 + BGP_NLRI_TLV_LEN_ADMINISTRATIVE_GROUP_COLOR)⟩)) ∧
    (peek_w s 0 = BGP_NLRI_TLV_MAX_LINK_BANDWIDTH → 4 + 4 ≤ STREAM_READABLE s →
      ls_decode_tlv args.attr s =
        some ({ args.attr with
                link_state_attr :=
                  { args.attr.link_state_attr with mlb := u32_to_float (peek_l s 4) } },
              ⟨s.data, s.getp + (4 + 4)⟩)) ∧
    (peek_w s 0 = BGP_NLRI_TLV_MAX_RESERVABLE_LINK_BANDWIDTH → 4 + 4 ≤ STREAM_READABLE s →
      ls_decode_tlv args.attr s =
        some ({ args.attr with
                link_state_attr :=
                  { args.attr.link_state_attr with mrlb := u32_to_float (peek_l s 4) } },
              ⟨s.data, s.getp + (4 + 4)⟩)) ∧
    (peek_w s 0 = BGP_NLRI_TLV_TE_DEFAULT_METRIC → 4 + 4 ≤ STREAM_READABLE s →
      ls_decode_tlv args.attr s =
        some ({ args.attr with
                link_state_attr := { args.attr.link_state_attr with tdm := peek_l s 4 } },
              ⟨s.data, s.getp + (4 + 4)⟩)) ∧
    (peek_w s 0 = BGP_NLRI_TLV_PREFIX_METRIC → 4 + 4 ≤ STREAM_READABLE s →
      ls_decode_tlv args.attr s =
        some ({ args.attr with
                link_state_attr := { args.attr.link_state_attr with pm := peek_l s 4 } },
              ⟨s.data, s.getp + (4 + 4)⟩)) ∧
    (peek_w s 0 = BGP_NLRI_TLV_IPV6_ROUTER_ID_OF_LOCAL_NODE ∨
        peek_w s 0 = BGP_NLRI_TLV_IPV6_ROUTER_ID_OF_REMOTE_NODE →
      ∀ a1 s1, ls_decode_tlv args.attr s = some (a1, s1) →
        a1 = args.attr ∧
          s1 = ⟨s.data, s.getp + (4 + BGP_NLRI_TLV_LEN_IPV6_ROUTER_ID_OF_LOCAL_NODE)⟩) := by
  refine ⟨fun a1 s1 h => bgp_link_state_decode_first_round args s hpos a1 s1 h,
    fun ht h => ls_decode_tlv_nfb _ s h ht, fun ht h => ls_decode_tlv_mpm _ s h ht,
    fun ht h => ls_decode_tlv_ifl _ s h ht, fun ht h => ls_decode_tlv_lpt _ s h ht,
    fun ht h => ls_decode_tlv_i4ridofln _ s h ht, fun ht h => ls_decode_tlv_i4ridofrn _ s h ht,
    fun ht h => ls_decode_tlv_agc _ s h ht, fun ht h => ls_decode_tlv_mlb _ s h ht,
    fun ht h => ls_decode_tlv_mrlb _ s h ht, fun ht h => ls_decode_tlv_tdm _ s h ht,
    fun ht h => ls_decode_tlv_pm _ s h ht,
    fun ht a1 s1 h => ls_decode_tlv_ipv6_router_id _ s a1 s1 ht h⟩

/-- C11, witness: Node Flag Bits with declared length 3; the byte 7 is stored and the loop
goes on at offset 5, where it finds three headers without a case. -/
theorem link_state_decode_fixed_shape_any_length_witness :
    bgp_link_state_decode ⟨17, attr_zero⟩ ⟨flags_length_three_scenario, 0⟩ =
      some ({ attr_zero with link_state_attr := { attr_zero.link_state_attr with nfb := 7 } },
            ⟨flags_length_three_scenario, 17⟩) :=
  ((link_state_decode_fixed_shape_any_length ⟨17, attr_zero⟩ ⟨flags_length_three_scenario, 0⟩
      (by decide)).1 _ _
    ((link_state_decode_fixed_shape_any_length ⟨17, attr_zero⟩
      ⟨flags_length_three_scenario, 0⟩ (by decide)).2.1 (by decide) (by decide))).trans
    (by decide)

/-! ### C12 -/

/-- C12, the code at the failing inputs: the sub-TLV declares length 32 and carries the
values 1, ..., 8.  With `header.nlri_length` 0 in the attribute record the round stores
nothing and leaves the read position after the header; with `header.nlri_length` 9 it reads
nine values and writes `urb.value[8]`, which the eight cells of the array do not have. -/
theorem unreserved_bandwidth_count_is_header_length :
    ls_decode_tlv attr_zero ⟨unreserved_bandwidth_scenario, 0⟩ =
      some (attr_zero, ⟨unreserved_bandwidth_scenario, 4⟩) ∧
    attr_zero.link_state_attr.urb = [0, 0, 0, 0, 0, 0, 0, 0] ∧
    ls_decode_tlv
        { attr_zero with
          link_state_attr := { attr_zero.link_state_attr with header_nlri_length := 9 } }
        ⟨unreserved_bandwidth_scenario, 0⟩ =
      some ({ attr_zero with
              link_state_attr := { attr_zero.link_state_attr with
                header_nlri_length := 9, urb := [1, 2, 3, 4, 5, 6, 7, 8, 9] } },
            ⟨unreserved_bandwidth_scenario, 40⟩) := by decide

/-! ### C13 -/

/-- C13, the code at the failing input: the prefix-length byte is 24 and three prefix bytes
follow it.  `bgp_mp_prefix_decode` asks the stream for 24 bytes, not for ceil(24 / 8) = 3: the
read fails on the 21-byte NLRI, and when 21 more bytes follow in the stream it takes all 24
as the prefix and leaves the read position at 42. -/
theorem ip_reachability_reads_length_many_bytes :
    bgp_mp_prefix_decode ⟨21, attr_zero⟩ ⟨prefix_nlri_scenario, 0⟩ = none ∧
    (bgp_mp_prefix_decode ⟨21, attr_zero⟩
        ⟨prefix_nlri_scenario ++ List.replicate 21 255, 0⟩).map
        (fun r => (r.1.mp_bgpls_nlri.ipreach_prefix, r.1.mp_bgpls_nlri.ipreach_value.length,
          r.2.1.getp)) = some (24, 24, 42) ∧
    (24 + 7) / 8 = 3 := by decide

/-! ### C14 -/

/-- C14, the code at the failing input: the database that `bgp_lsdb_new()` returns and a fresh
Link record (type 2, key 7, reference count 0), whose key no table holds.  The cell of type 2
has no table (`bgp_lsdb_init` has left the pointer `NULL`), and `bgp_lsdb_add` does not return:
the record is not stored and no counter is incremented.  Nor does it return for a fresh record
of type 4 in a database whose cells have tables, where the array has no cell 4.  In that
database the record of type 2 is stored with reference count 1, count 1 and total 1. -/
theorem lsdb_add_fresh_without_table :
    (bgp_lsdb_new.type 2).db = none ∧
    (bgp_lsdb_add ⟨bgp_lsdb_new, heap_of [(1, ⟨2, 7, 0⟩)]⟩ 1).isSome = false ∧
    (bgp_lsdb_add ⟨lsdb_with_tables, heap_of [(1, ⟨4, 7, 0⟩)]⟩ 1).isSome = false ∧
    (bgp_lsdb_add ⟨lsdb_with_tables, heap_of [(1, ⟨2, 7, 0⟩)]⟩ 1).map
        (fun st => (bgp_lsdb_count_all st.lsdb, bgp_lsdb_count st.lsdb 2, lsdb_db st.lsdb 2)) =
      some (1, some 1, some [(7, 1)]) ∧
    (bgp_lsdb_add ⟨lsdb_with_tables, heap_of [(1, ⟨2, 7, 0⟩)]⟩ 1).map (fun st => st.heap 1) =
      some (some ⟨2, 7, 1⟩) := by
  refine ⟨?_, ?_, ?_, ?_, ?_⟩ <;> rfl

/-! ### C15 -/

/-- C15, the code at the failing input: two fresh Link records with key 7 at the addresses 1
and 2.  In the database that `bgp_lsdb_new()` returns the first `bgp_lsdb_add` already does
not return (the cell of type 2 has no table), and so for two records of type 4 in a database
whose cells have tables.  In that database the two calls on the records of type 2 leave the
total and the count of type 2 at 1, as after the first call, the table holds the second record
under the key, with reference count 1, and the first record has been freed. -/
theorem lsdb_add_twice_without_table :
    (lsdb_run [lsdb_op.add 1, lsdb_op.add 2]
        ⟨bgp_lsdb_new, heap_of [(1, ⟨2, 7, 0⟩), (2, ⟨2, 7, 0⟩)]⟩).isSome = false ∧
    (bgp_lsdb_add ⟨bgp_lsdb_new, heap_of [(1, ⟨2, 7, 0⟩), (2, ⟨2, 7, 0⟩)]⟩ 1).isSome = false ∧
    (lsdb_run [lsdb_op.add 1, lsdb_op.add 2]
        ⟨lsdb_with_tables, heap_of [(1, ⟨4, 7, 0⟩), (2, ⟨4, 7, 0⟩)]⟩).isSome = false ∧
    (lsdb_run [lsdb_op.add 1]
        ⟨lsdb_with_tables, heap_of [(1, ⟨2, 7, 0⟩), (2, ⟨2, 7, 0⟩)]⟩).map
        (fun st => (bgp_lsdb_count_all st.lsdb, bgp_lsdb_count st.lsdb 2, lsdb_db st.lsdb 2)) =
      some (1, some 1, some [(7, 1)]) ∧
    (lsdb_run [lsdb_op.add 1, lsdb_op.add 2]
        ⟨lsdb_with_tables, heap_of [(1, ⟨2, 7, 0⟩), (2, ⟨2, 7, 0⟩)]⟩).map
        (fun st => (bgp_lsdb_count_all st.lsdb, bgp_lsdb_count st.lsdb 2, lsdb_db st.lsdb 2)) =
      some (1, some 1, some [(7, 2)]) ∧
    (lsdb_run [lsdb_op.add 1, lsdb_op.add 2]
        ⟨lsdb_with_tables, heap_of [(1, ⟨2, 7, 0⟩), (2, ⟨2, 7, 0⟩)]⟩).map
        (fun st => (st.heap 1, st.heap 2)) = some (none, some ⟨2, 7, 1⟩) := by
  refine ⟨?_, ?_, ?_, ?_, ?_, ?_⟩ <;> rfl

/-! ### C16 -/

/-- C16, counterexample: a fresh Link record (type 2, key 7) at address 1 and the empty
database with tables.  After `bgp_lsdb_add`, two `bgp_ls_lock` and three `bgp_ls_unlock` the
record has been freed and the handle is `NULL`, but `bgp_lsdb_count_all` returns 1, not 0, and
the table of type 2 still holds the address under key 7. -/
theorem lsdb_release_keeps_entry :
    (lsdb_add_lock_unlock ⟨lsdb_with_tables, heap_of [(1, ⟨2, 7, 0⟩)]⟩ 1).map
        (fun x => (bgp_lsdb_count_all x.1.lsdb, lsdb_db x.1.lsdb 2, x.1.heap 1, x.2)) =
      some (1, some [(7, 1)], none, none) ∧
    (1 : Nat) ≠ 0 := by decide

/-- C16, as amended: for every database in which the cell of the type of a fresh record `ls`
(reference count 0) has a table, that table is empty and the count of that type and the total
are 0: after `bgp_lsdb_add(ls)`, two `bgp_ls_lock(ls)` and three `bgp_ls_unlock(&ls)` the third
release has freed the record and set the handle to `NULL`, and the database is as
`bgp_lsdb_add` left it, with `ls` in the table and both counters 1, because `bgp_ls_unlock`
does not touch the database.  It is `bgp_lsdb_delete` that removes the entry, decrements both
counters and releases the reference of the database: after `bgp_lsdb_add(ls)`, two
`bgp_ls_lock(ls)`, two `bgp_ls_unlock(&ls)` and `bgp_lsdb_delete(lsdb, ls)` the table is empty,
both counters are 0 and the record is freed. -/
theorem lsdb_entry_removed_by_delete (st : lsdb_state) (ls : Nat) (r : bgp_ls)
    (hr : st.heap ls = some r) (hfresh : r.lock = 0)
    (hdb : lsdb_db st.lsdb r.nlri_type = some [])
    (hcount : (st.lsdb.type r.nlri_type).count = 0) (htotal : st.lsdb.total = 0) :
    lsdb_add_lock_unlock st ls =
      some (⟨lsdb_put st.lsdb r.nlri_type 1 [(r.key, ls)] 1, heap_set st.heap ls none⟩, none) ∧
    lsdb_add_lock_unlock_delete st ls =
      some ⟨lsdb_put st.lsdb r.nlri_type 0 [] 0, heap_set st.heap ls none⟩ := by
  have ht := ((lsdb_db_eq_some _ _ _).1 hdb).1
  have hadd := bgp_lsdb_add_of_absent st ls r [] hr hdb rfl
  have e1 : ulong_inc 0 = 1 := by decide
  have e0 : ulong_dec 1 = 0 := by decide
  have i1 : int_inc 0 = 1 := by decide
  have i2 : int_inc 1 = 2 := by decide
  have i3 : int_inc 2 = 3 := by decide
  rw [hcount, htotal, e1, hfresh, i1] at hadd
  have es : route_set_info [] r.key ls = [(r.key, ls)] := rfl
  rw [es] at hadd
  constructor
  · simp only [lsdb_add_lock_unlock, hadd, bgp_ls_lock_set, i2, i3]
    rw [bgp_ls_unlock_set _ _ _ (by simp)]
    simp only [show ¬ ((3 : Int) = 1) by decide, if_false]
    rw [bgp_ls_unlock_set _ _ _ (by simp)]
    simp only [show ¬ ((3 : Int) - 1 = 1) by decide, if_false]
    rw [bgp_ls_unlock_set _ _ _ (by simp)]
    simp only [show ((3 : Int) - 1 - 1 = 1) by decide, if_true]
  · simp only [lsdb_add_lock_unlock_delete, hadd, bgp_ls_lock_set, i2, i3]
    rw [bgp_ls_unlock_set _ _ _ (by simp)]
    simp only [show ¬ ((3 : Int) = 1) by decide, if_false]
    rw [bgp_ls_unlock_set _ _ _ (by simp)]
    simp only [show ¬ ((3 : Int) - 1 = 1) by decide, if_false]
    rw [bgp_lsdb_delete_stored _ ls ⟨r.nlri_type, r.key, 3 - 1 - 1⟩ [(r.key, ls)]
      (heap_set_self _ _ _) (lsdb_db_put_self _ _ _ _ _ ht) (by simp [route_info])]
    rw [bgp_lsdb_delete_entry_put _ r.nlri_type r.key [(r.key, ls)] ls
      ⟨r.nlri_type, r.key, 3 - 1 - 1⟩ (lsdb_db_put_self _ _ _ _ _ ht)
      (by simp [route_info]) (heap_set_self _ _ _) rfl
      (by show (1 : Int) ≤ 3 - 1 - 1; decide)]
    simp only [lsdb_put_put, heap_set_set, show ((3 : Int) - 1 - 1 = 1) by decide, if_true]
    have e2 : (lsdb_put st.lsdb r.nlri_type 1 [(r.key, ls)] 1).total = 1 := rfl
    have e3 : ((lsdb_put st.lsdb r.nlri_type 1 [(r.key, ls)] 1).type r.nlri_type).count = 1 := by
      simp [lsdb_put]
    have e4 : route_clear_info [(r.key, ls)] r.key = [] := by simp [route_clear_info]
    rw [e2, e3, e0, e4]

/-- C16, witness: the fresh Link record at address 1 and the empty database with tables. -/
theorem lsdb_entry_removed_by_delete_witness :
    (lsdb_add_lock_unlock_delete ⟨lsdb_with_tables, heap_of [(1, ⟨2, 7, 0⟩)]⟩ 1).map
        (fun s => (bgp_lsdb_count_all s.lsdb, bgp_lsdb_count s.lsdb 2, lsdb_db s.lsdb 2,
          s.heap 1)) =
      some (0, some 0, some [], none) := by
  rw [(lsdb_entry_removed_by_delete ⟨lsdb_with_tables, heap_of [(1, ⟨2, 7, 0⟩)]⟩ 1 ⟨2, 7, 0⟩
    rfl rfl rfl rfl rfl).2]
  rfl

/-! ### C17 -/

/-- C17: for a record with `lock` 1, `bgp_ls_unlock` frees the record and sets the handle to
`NULL`; a call through a `NULL` handle, as every further call through that handle is, returns
with the memory and the handle unchanged.  No call that returns leaves a negative count: a
record it has changed has a count above 0.  A call on a record whose count is 0 or less does
not return (the `assert` fails). -/
theorem ls_unlock_never_negative (heap : ls_heap) (p : Nat) (r : bgp_ls)
    (hr : heap p = some r) (hl : r.lock = 1) :
    bgp_ls_unlock heap (some p) = some (bgp_ls_free heap p, none) ∧
    bgp_ls_free heap p p = none ∧
    bgp_ls_unlock (bgp_ls_free heap p) none = some (bgp_ls_free heap p, none) ∧
    (∀ h : ls_heap, bgp_ls_unlock h none = some (h, none)) ∧
    (∀ (h h1 : ls_heap) (hd hd1 : Option Nat), bgp_ls_unlock h hd = some (h1, hd1) →
      ∀ q r1, h1 q = some r1 → h q = some r1 ∨ 0 < r1.lock) ∧
    (∀ (h : ls_heap) (q : Nat) (r0 : bgp_ls), h q = some r0 → r0.lock ≤ 0 →
      bgp_ls_unlock h (some q) = none) := by
  refine ⟨?_, heap_set_self _ _ _, rfl, fun _ => rfl, ?_, ?_⟩
  · rw [bgp_ls_unlock_some heap p r hr (by omega)]
    simp [hl, bgp_ls_free]
  · intro h h1 hd hd1 hu q r1 hq
    cases hd with
    | none =>
      simp only [bgp_ls_unlock, Option.some.injEq, Prod.mk.injEq] at hu
      rw [hu.1]; exact Or.inl hq
    | some p1 =>
      obtain ⟨r2, hr2, hl2, rfl, _⟩ := bgp_ls_unlock_eq_some h p1 h1 hd1 hu
      by_cases hqp : q = p1
      · subst hqp
        rw [heap_set_self] at hq
        by_cases h1l : r2.lock = 1
        · simp [h1l] at hq
        · simp only [h1l, if_false, Option.some.injEq] at hq
          right; rw [← hq]; simp only; omega
      · rw [heap_set_other _ _ _ _ hqp] at hq
        exact Or.inl hq
  · intro h q r0 hq h0
    have h1 : r0.lock - 1 < 0 := by omega
    simp [bgp_ls_unlock, hq, h1]

/-- C17, witness: the record at address 1 has `lock` 1. -/
theorem ls_unlock_never_negative_witness :
    (bgp_ls_unlock (heap_of [(1, ⟨2, 7, 1⟩)]) (some 1)).map (fun x => (x.1 1, x.2)) =
      some (none, none) ∧
    bgp_ls_unlock (bgp_ls_free (heap_of [(1, ⟨2, 7, 1⟩)]) 1) none =
      some (bgp_ls_free (heap_of [(1, ⟨2, 7, 1⟩)]) 1, none) := by
  obtain ⟨h1, h2, h3, _⟩ := ls_unlock_never_negative (heap_of [(1, ⟨2, 7, 1⟩)]) 1 ⟨2, 7, 1⟩
    rfl rfl
  exact ⟨by rw [h1]; simp [h2], h3⟩

/-! ### C18 -/

/-- C18, the code at the failing input: the database holds one Link record, added by
`bgp_lsdb_add` to the empty database with tables.  The second definition of
`bgp_lsdb_delete_entry` (bgp_lsdb.c:409) removes the entry and leaves `total` 0 while the
per-type counts still sum to 1, and the record keeps the reference of the database; the
first definition (bgp_lsdb.c:226) leaves both 0 and frees the record. -/
theorem lsdb_second_delete_entry_skips_count :
    ((bgp_lsdb_add ⟨lsdb_with_tables, heap_of [(1, ⟨2, 7, 0⟩)]⟩ 1).bind
        (fun s => bgp_lsdb_delete_entry_second s 2 7)).map
        (fun s => (s.lsdb.total, lsdb_count_sum s.lsdb, bgp_lsdb_count s.lsdb 2)) =
      some (0, 1, some 1) ∧
    ((bgp_lsdb_add ⟨lsdb_with_tables, heap_of [(1, ⟨2, 7, 0⟩)]⟩ 1).bind
        (fun s => bgp_lsdb_delete_entry_second s 2 7)).map
        (fun s => (lsdb_db s.lsdb 2, s.heap 1)) = some (some [], some ⟨2, 7, 1⟩) ∧
    ((bgp_lsdb_add ⟨lsdb_with_tables, heap_of [(1, ⟨2, 7, 0⟩)]⟩ 1).bind
        (fun s => bgp_lsdb_delete_entry s 2 7)).map
        (fun s => (s.lsdb.total, lsdb_count_sum s.lsdb, bgp_lsdb_count s.lsdb 2)) =
      some (0, 0, some 0) ∧
    ((bgp_lsdb_add ⟨lsdb_with_tables, heap_of [(1, ⟨2, 7, 0⟩)]⟩ 1).bind
        (fun s => bgp_lsdb_delete_entry s 2 7)).map
        (fun s => (lsdb_db s.lsdb 2, s.heap 1)) = some (some [], none) := by decide

/-! ### C19 -/

/-- C20, the code at the failing input: a record of type 4 (key 7) that no table holds and a
database whose cells have tables.  `bgp_lsdb_delete` stops at
`assert(ls->header.nlri_type < BGP_LS_MAX_NLRI_TYPE)`.  In the database that `bgp_lsdb_new()`
returns it does not return for a record of type 2 either, the cell having no table.  For a
record of type 2 that is not the one stored under its key in a database with tables it returns
and leaves the counters, the table and the two records as they were. -/
theorem lsdb_delete_not_stored_type_four :
    (bgp_lsdb_delete ⟨lsdb_with_tables, heap_of [(1, ⟨4, 7, 0⟩)]⟩ (some 1)).isSome = false ∧
    [0, 1, 2, 3, 4].map (fun t => lsdb_db lsdb_with_tables t) =
      [some [], some [], some [], some [], none] ∧
    (bgp_lsdb_delete ⟨bgp_lsdb_new, heap_of [(1, ⟨2, 7, 0⟩)]⟩ (some 1)).isSome = false ∧
    (bgp_lsdb_delete
        ⟨lsdb_put lsdb_with_tables 2 1 [(7, 1)] 1,
         heap_of [(1, ⟨2, 7, 1⟩), (2, ⟨2, 7, 0⟩)]⟩ (some 2)).map
        (fun s => (s.lsdb.total, (s.lsdb.type 2).count, (s.lsdb.type 2).db)) =
      some (1, 1, some [(7, 1)]) ∧
    (bgp_lsdb_delete
        ⟨lsdb_put lsdb_with_tables 2 1 [(7, 1)] 1,
         heap_of [(1, ⟨2, 7, 1⟩), (2, ⟨2, 7, 0⟩)]⟩ (some 2)).map
        (fun s => (s.heap 1, s.heap 2)) = some (some ⟨2, 7, 1⟩, some ⟨2, 7, 0⟩) := by
  refine ⟨?_, ?_, ?_, ?_, ?_⟩ <;> rfl

/-! ### C21 -/

/-- C21, the code at the failing input: the loop of `bgp_lsdb_init` runs over no index, so in
the database of `bgp_lsdb_new` no cell has a table and `bgp_lsdb_add` and `bgp_lsdb_delete`
fail on the table pointer `NULL` for a record of each of the types 1 to 4.  The array has the
cells 0 to 3: in a database whose cells have tables, `bgp_lsdb_add` and `bgp_lsdb_count` go
outside the array for type 4 and the `assert` of `bgp_lsdb_delete` fails for it, while type 3
is served. -/
theorem lsdb_new_no_table_and_type_four_outside :
    for_range BGP_LS_MIN_NLRI_TYPE BGP_LS_MIN_NLRI_TYPE = [] ∧
    [0, 1, 2, 3, 4].map (fun t => (bgp_lsdb_new.type t).db) = [none, none, none, none, none] ∧
    [1, 2, 3, 4].map (fun t =>
      (bgp_lsdb_add ⟨bgp_lsdb_new, heap_of [(1, ⟨t, 7, 0⟩)]⟩ 1).isSome) =
        [false, false, false, false] ∧
    [1, 2, 3, 4].map (fun t =>
      (bgp_lsdb_delete ⟨bgp_lsdb_new, heap_of [(1, ⟨t, 7, 0⟩)]⟩ (some 1)).isSome) =
        [false, false, false, false] ∧
    BGP_LS_MAX_NLRI_TYPE = 4 ∧
    [1, 2, 3, 4].map (fun t =>
      (bgp_lsdb_add ⟨lsdb_with_tables, heap_of [(1, ⟨t, 7, 0⟩)]⟩ 1).isSome) =
        [true, true, true, false] ∧
    [1, 2, 3, 4].map (fun t =>
      (bgp_lsdb_delete ⟨lsdb_with_tables, heap_of [(1, ⟨t, 7, 0⟩)]⟩ (some 1)).isSome) =
        [true, true, true, false] ∧
    [1, 2, 3, 4].map (fun t => bgp_lsdb_count lsdb_with_tables t) =
      [some 0, some 0, some 0, none] := by decide

/-! ### C22 -/

/-- C22, the code at the failing input: a database with tables that holds one Link record
(type 2, key 7), as `bgp_lsdb_add` leaves it.  Its total is 1, and `bgp_lsdb_cleanup` and
`bgp_lsdb_free` stop at `assert(lsdb->total == 0)` with the entry still in its table, while
`bgp_lsdb_delete_all`, the call that follows the `assert`, removes the entry and returns on the
same database.  On the empty database with tables both functions return. -/
theorem lsdb_cleanup_asserts_on_entries :
    (bgp_lsdb_add ⟨lsdb_with_tables, heap_of [(1, ⟨2, 7, 0⟩)]⟩ 1).map
        (fun st => (st.lsdb.total, (st.lsdb.type 2).db, st.heap 1)) =
      some (1, some [(7, 1)], some ⟨2, 7, 1⟩) ∧
    ((bgp_lsdb_add ⟨lsdb_with_tables, heap_of [(1, ⟨2, 7, 0⟩)]⟩ 1).bind
        bgp_lsdb_cleanup).isSome = false ∧
    ((bgp_lsdb_add ⟨lsdb_with_tables, heap_of [(1, ⟨2, 7, 0⟩)]⟩ 1).bind
        bgp_lsdb_free).isSome = false ∧
    ((bgp_lsdb_add ⟨lsdb_with_tables, heap_of [(1, ⟨2, 7, 0⟩)]⟩ 1).bind
        bgp_lsdb_delete_all).map (fun st => (st.lsdb.total, (st.lsdb.type 2).db, st.heap 1)) =
      some (0, some [], none) ∧
    (bgp_lsdb_cleanup ⟨lsdb_with_tables, heap_of []⟩).isSome = true ∧
    (bgp_lsdb_free ⟨lsdb_with_tables, heap_of []⟩).isSome = true := by
  refine ⟨?_, ?_, ?_, ?_, ?_, ?_⟩ <;> rfl

/-! ### C23 -/

/-- C23, the code at the failing input: a Link NLRI whose outer TLV is Remote Node Descriptors
with the sub-TLVs Autonomous System 65002 and IGP Router-ID 10.0.0.2.  `bgp_mp_link_decode`
copies the Autonomous System bytes through the pointer `local_node->value`, so the local node
descriptor changes; of the remote node descriptor only the Router-ID storage is written. -/
theorem remote_descriptor_written_to_local_node :
    bgp_mp_link_decode ⟨29, attr_zero⟩ ⟨remote_node_scenario, 0⟩ =
      some ({ attr_zero with mp_bgpls_nlri := { attr_zero.mp_bgpls_nlri with
                proto_id := 3,
                local_node := { value := [], value_target := [0, 0, 253, 234] },
                remote_node := { value := [10, 0, 0, 2], value_target := [] } } },
            ⟨remote_node_scenario, 29⟩, BGP_ATTR_PARSE_PROCEED) ∧
    attr_zero.mp_bgpls_nlri.local_node ≠ { value := [], value_target := [0, 0, 253, 234] } ∧
    remote_node_scenario.length = 29 := by decide

/-! ### C24 -/

/-- C24, the code at the failing input: for the Link Local/Remote Identifiers sub-TLV with the
values (3, 7) `bgp_mp_link_decode` yields local = 0 and remote = 7, and for the values
(65539, 131079) it yields local = 2 and remote = 7: the case reads four 16-bit words, drops
the first two, which hold the local identifier, as a second header and keeps the last two, so
`llri.local` is the high half and `llri.remote` the low half of the remote identifier.  The
read position ends 8 bytes after the sub-TLV header. -/
theorem link_identifiers_read_as_words :
    (bgp_mp_link_decode ⟨21, attr_zero⟩ ⟨link_identifiers_scenario 3 7, 0⟩).map
        (fun r => (r.1.mp_bgpls_nlri.llri_local, r.1.mp_bgpls_nlri.llri_remote, r.2.1.getp,
          r.2.2)) = some (0, 7, 21, BGP_ATTR_PARSE_PROCEED) ∧
    (bgp_mp_link_decode ⟨21, attr_zero⟩ ⟨link_identifiers_scenario 65539 131079, 0⟩).map
        (fun r => (r.1.mp_bgpls_nlri.llri_local, r.1.mp_bgpls_nlri.llri_remote, r.2.1.getp,
          r.2.2)) = some (2, 7, 21, BGP_ATTR_PARSE_PROCEED) ∧
    link_identifiers_scenario 3 7 =
      [3, 0, 0, 0, 0, 0, 0, 0, 0, 1, 2, 0, 8, 0, 0, 0, 3, 0, 0, 0, 7] ∧
    link_identifiers_scenario 65539 131079 =
      [3, 0, 0, 0, 0, 0, 0, 0, 0, 1, 2, 0, 8, 0, 1, 0, 3, 0, 2, 0, 7] := by decide

/-! ### C25 -/

/-- C25, the code at the failing input: on the Node NLRI of the scenario (outer TLV of type
256 and length 24 with the sub-TLVs Autonomous System, BGP-LS Identifier and OSPF Area-ID)
`bgp_mp_node_decode` decodes one sub-TLV and returns at position 21 with the Autonomous System
bytes in the local node descriptor, while `bgp_mp_link_decode` and `bgp_mp_prefix_decode`
decode the three sub-TLVs and return at position 37 with the Area-ID bytes there.  The three
return values are `BGP_ATTR_PARSE_PROCEED`. -/
theorem local_node_decoders_differ :
    (bgp_mp_node_decode ⟨37, attr_zero⟩ ⟨node_nlri_scenario, 0⟩).map
        (fun r => (r.1.mp_bgpls_nlri.local_node, r.2.1.getp, r.2.2)) =
      some ({ value := [], value_target := [0, 0, 253, 233] }, 21, BGP_ATTR_PARSE_PROCEED) ∧
    (bgp_mp_link_decode ⟨37, attr_zero⟩ ⟨node_nlri_scenario, 0⟩).map
        (fun r => (r.1.mp_bgpls_nlri.local_node, r.2.1.getp, r.2.2)) =
      some ({ value := [], value_target := [0, 0, 0, 0] }, 37, BGP_ATTR_PARSE_PROCEED) ∧
    (bgp_mp_prefix_decode ⟨37, attr_zero⟩ ⟨node_nlri_scenario, 0⟩).map
        (fun r => (r.1.mp_bgpls_nlri.local_node, r.2.1.getp, r.2.2)) =
      some ({ value := [], value_target := [0, 0, 0, 0] }, 37, BGP_ATTR_PARSE_PROCEED) ∧
    node_nlri_scenario =
      [3, 0, 0, 0, 0, 0, 0, 0, 0, 1, 0, 0, 24, 2, 0, 0, 4, 0, 0, 253, 233,
       2, 1, 0, 4, 0, 0, 0, 1, 2, 2, 0, 4, 0, 0, 0, 0] := by decide

/-! ### C26 -/

/-- C26: for every attribute length, every inner length `l` and every stream content, a round
of the sub-TLV loop of `bgp_link_state_decode` and of the loops of the two node-descriptor
cases of `bgp_mp_link_decode` that returns has moved the read position forward by at least the
4 header bytes, and each loop ends within as many rounds as the region has bytes: cut off
after that many rounds, it has either left the loop or stopped at a failed read, with the
result of the function. -/
theorem sub_tlv_loops_terminate (args : bgp_attr_parser_args) (s : stream) (l : Nat)
    (m : mp_bgpls_nlri) :
    body_advances ls_decode_tlv ∧ body_advances link_decode_local_subtlv ∧
    body_advances link_decode_remote_subtlv ∧
    stream_while_outcome ls_decode_tlv (stream_get_getp s + args.length) args.length
        args.attr s ≠ loop_outcome.rounds_left ∧
    (stream_while_outcome ls_decode_tlv (stream_get_getp s + args.length) args.length
        args.attr s).result = bgp_link_state_decode args s ∧
    stream_while_outcome link_decode_local_subtlv (stream_get_getp s + l) l m s ≠
        loop_outcome.rounds_left ∧
    (stream_while_outcome link_decode_local_subtlv (stream_get_getp s + l) l m s).result =
        link_decode_switch BGP_NLRI_TLV_LOCAL_NODE_DESCRIPTORS l m s ∧
    stream_while_outcome link_decode_remote_subtlv (stream_get_getp s + l) l m s ≠
        loop_outcome.rounds_left ∧
    (stream_while_outcome link_decode_remote_subtlv (stream_get_getp s + l) l m s).result =
        link_decode_switch BGP_NLRI_TLV_REMOTE_NODE_DESCRIPTORS l m s := by
  have b1 : (stream_get_getp s + args.length - s.getp + 3) / 4 ≤ args.length := by
    simp only [stream_get_getp]; omega
  have b2 : (stream_get_getp s + l - s.getp + 3) / 4 ≤ l := by
    simp only [stream_get_getp]; omega
  exact ⟨ls_decode_tlv_advances, link_decode_local_subtlv_advances,
    link_decode_remote_subtlv_advances,
    stream_while_outcome_ended _ ls_decode_tlv_advances _ _ _ _ b1,
    stream_while_region_rounds _ ls_decode_tlv_advances _ _ _ _ b1,
    stream_while_outcome_ended _ link_decode_local_subtlv_advances _ _ _ _ b2,
    stream_while_region_rounds _ link_decode_local_subtlv_advances _ _ _ _ b2,
    stream_while_outcome_ended _ link_decode_remote_subtlv_advances _ _ _ _ b2,
    stream_while_region_rounds _ link_decode_remote_subtlv_advances _ _ _ _ b2⟩

/-! ### C27 -/

/-- C27: the length field of a TLV header holds a value n from 0 to 65535, `BGP_TLV_SIZE` of
the header is 4 + n and `BGP_TLV_HDR_NEXT` is the address 4 + n bytes after the header, and
every n up to 65535 is the length field of a header; the rounding macro `BGP_TLV_BODY_SIZE`
takes no part in either: for n = 5 it gives 8 while `BGP_TLV_SIZE` is 9 and the next header
lies 9 bytes on. -/
theorem tlv_size_is_header_plus_length (tlvh : Nat) (h : te_tlv_nlri_header) :
    ntohs h.nlri_length ≤ 65535 ∧
    BGP_TLV_SIZE h = 4 + ntohs h.nlri_length ∧
    BGP_TLV_HDR_NEXT tlvh h = tlvh + (4 + ntohs h.nlri_length) ∧
    (∀ n, n ≤ 65535 → ∃ h0 : te_tlv_nlri_header, ntohs h0.nlri_length = n ∧
      BGP_TLV_SIZE h0 = 4 + n ∧ BGP_TLV_HDR_NEXT tlvh h0 = tlvh + (4 + n)) ∧
    BGP_TLV_BODY_SIZE ⟨(1, 0), (0, 5)⟩ = 8 ∧ BGP_TLV_SIZE ⟨(1, 0), (0, 5)⟩ = 9 ∧
    BGP_TLV_HDR_NEXT tlvh ⟨(1, 0), (0, 5)⟩ = tlvh + 9 := by
  refine ⟨?_, rfl, rfl, fun n hn => ⟨⟨(0, 0), (n / 256, n % 256)⟩, ?_, ?_, ?_⟩, by decide,
    by decide, rfl⟩
  · simp only [ntohs]; omega
  · simp only [ntohs]; omega
  · simp only [BGP_TLV_SIZE, BGP_TLV_HDR_SIZE, ntohs]; omega
  · simp only [BGP_TLV_HDR_NEXT, BGP_TLV_SIZE, BGP_TLV_HDR_SIZE, ntohs]; omega

/-! ### C28 -/

/-- C28: whenever `bgp_mp_prefix_decode` returns, it returns `BGP_ATTR_PARSE_ERROR_NOTIFYPLS`
exactly when the outer TLV type is none of 256, 263, 264 and 265, and
`BGP_ATTR_PARSE_PROCEED` otherwise; whenever `bgp_mp_node_decode` or `bgp_mp_link_decode`
return, they return `BGP_ATTR_PARSE_PROCEED`.  With the 13 bytes of the NLRI prelude in the
stream and an outer type without a case, `bgp_mp_prefix_decode` returns the error and
`bgp_mp_link_decode` returns `BGP_ATTR_PARSE_PROCEED`, both with the read position after the
outer header; `bgp_mp_node_decode` does not look at the outer type and returns
`BGP_ATTR_PARSE_PROCEED` there when the declared length is 0. -/
theorem nlri_decode_return_values (args : bgp_attr_parser_args) (s : stream) :
    (∀ r, bgp_mp_prefix_decode args s = some r →
      (r.2.2 = BGP_ATTR_PARSE_ERROR_NOTIFYPLS ↔ peek_w s 9 ∉ [256, 263, 264, 265]) ∧
      (r.2.2 = BGP_ATTR_PARSE_PROCEED ↔ peek_w s 9 ∈ [256, 263, 264, 265])) ∧
    (∀ r, bgp_mp_node_decode args s = some r → r.2.2 = BGP_ATTR_PARSE_PROCEED) ∧
    (∀ r, bgp_mp_link_decode args s = some r → r.2.2 = BGP_ATTR_PARSE_PROCEED) ∧
    (13 ≤ STREAM_READABLE s → peek_w s 9 ∉ [256, 263, 264, 265] →
      (bgp_mp_prefix_decode args s).map (fun r => (r.2.1, r.2.2)) =
        some (⟨s.data, s.getp + 13⟩, BGP_ATTR_PARSE_ERROR_NOTIFYPLS)) ∧
    (13 ≤ STREAM_READABLE s → peek_w s 9 ∉ [256, 257, 258, 259, 260, 261, 262, 263] →
      (bgp_mp_link_decode args s).map (fun r => (r.2.1, r.2.2)) =
        some (⟨s.data, s.getp + 13⟩, BGP_ATTR_PARSE_PROCEED)) ∧
    (13 ≤ STREAM_READABLE s → peek_w s 11 = 0 →
      (bgp_mp_node_decode args s).map (fun r => (r.2.1, r.2.2)) =
        some (⟨s.data, s.getp + 13⟩, BGP_ATTR_PARSE_PROCEED)) := by
  refine ⟨fun r h => bgp_mp_prefix_decode_ret args s r h,
    fun r h => bgp_mp_node_decode_ret args s r h,
    fun r h => bgp_mp_link_decode_ret args s r h, fun h ht => ?_, fun h ht => ?_,
    fun h hl => ?_⟩
  · rw [bgp_mp_prefix_decode_unknown args s h ht]; rfl
  · rw [bgp_mp_link_decode_unknown args s h ht]; rfl
  · rw [bgp_mp_node_decode_empty args s h hl]; rfl

/-- C28, witness: an NLRI whose outer TLV has the type 999 and the length 0.  The prefix
decoder returns the error, the node and the link decoder return `BGP_ATTR_PARSE_PROCEED`,
each with the read position at 13. -/
theorem nlri_decode_return_values_witness :
    (bgp_mp_prefix_decode ⟨13, attr_zero⟩ ⟨[3, 0, 0, 0, 0, 0, 0, 0, 0, 3, 231, 0, 0], 0⟩).map
        (fun r => (r.2.1, r.2.2)) =
      some (⟨[3, 0, 0, 0, 0, 0, 0, 0, 0, 3, 231, 0, 0], 13⟩, BGP_ATTR_PARSE_ERROR_NOTIFYPLS) ∧
    (bgp_mp_link_decode ⟨13, attr_zero⟩ ⟨[3, 0, 0, 0, 0, 0, 0, 0, 0, 3, 231, 0, 0], 0⟩).map
        (fun r => (r.2.1, r.2.2)) =
      some (⟨[3, 0, 0, 0, 0, 0, 0, 0, 0, 3, 231, 0, 0], 13⟩, BGP_ATTR_PARSE_PROCEED) ∧
    (bgp_mp_node_decode ⟨13, attr_zero⟩ ⟨[3, 0, 0, 0, 0, 0, 0, 0, 0, 3, 231, 0, 0], 0⟩).map
        (fun r => (r.2.1, r.2.2)) =
      some (⟨[3, 0, 0, 0, 0, 0, 0, 0, 0, 3, 231, 0, 0], 13⟩, BGP_ATTR_PARSE_PROCEED) :=
  have h := nlri_decode_return_values ⟨13, attr_zero⟩
    ⟨[3, 0, 0, 0, 0, 0, 0, 0, 0, 3, 231, 0, 0], 0⟩
  ⟨h.2.2.2.1 (by decide) (by decide), h.2.2.2.2.1 (by decide) (by decide),
   h.2.2.2.2.2 (by decide) (by decide)⟩

/-! ### C29 -/

/-- C29, counterexample: a Link record (type 2, key 7) whose `lock` is `INT_MAX` and the empty
database with tables, in which the key is absent.  One call of `bgp_lsdb_add` stores the
record and raises the count of type 2 and the total to 1, but `lock++` takes `ls->lock` from
2147483647 to -2147483648: it is not raised by 1. -/
theorem lsdb_add_lock_wraps_at_int_max :
    route_info [] 7 = none ∧
    (bgp_lsdb_add ⟨lsdb_with_tables, heap_of [(1, ⟨2, 7, 2147483647⟩)]⟩ 1).map
        (fun st => (bgp_lsdb_count st.lsdb 2, bgp_lsdb_count_all st.lsdb, st.heap 1)) =
      some (some 1, 1, some ⟨2, 7, -2147483648⟩) ∧
    (-2147483648 : Int) ≠ 2147483647 + 1 := by
  refine ⟨?_, ?_, ?_⟩ <;> decide

/-- C29, as amended: let the cell of the NLRI type of the record `ls` have a table.  A call of
`bgp_lsdb_add(ls)` with `ls` stored under its key returns with the database and every record
as they were.  A call with the key of `ls` absent returns with the count of that type and the
total incremented once, although the loop header runs over four values (in `unsigned long`
arithmetic: by exactly 1 when the counter is below `ULONG_MAX`), with `lock++` applied once to
`ls` (by exactly 1 when `ls->lock` is below `INT_MAX`), and with everything else untouched.
Whenever a call has returned, a second call changes nothing. -/
theorem lsdb_add_idempotent (st : lsdb_state) (ls : Nat) (r : bgp_ls) (table : route_table)
    (hr : st.heap ls = some r) (hdb : lsdb_db st.lsdb r.nlri_type = some table) :
    (route_info table r.key = some ls → bgp_lsdb_add st ls = some st) ∧
    (route_info table r.key = none →
      ∃ st1, bgp_lsdb_add st ls = some st1 ∧
        bgp_lsdb_count st1.lsdb r.nlri_type =
          some (ulong_inc (st.lsdb.type r.nlri_type).count) ∧
        bgp_lsdb_count_all st1.lsdb = ulong_inc (bgp_lsdb_count_all st.lsdb) ∧
        ((st.lsdb.type r.nlri_type).count < ULONG_MAX →
          bgp_lsdb_count st1.lsdb r.nlri_type = some ((st.lsdb.type r.nlri_type).count + 1)) ∧
        (bgp_lsdb_count_all st.lsdb < ULONG_MAX →
          bgp_lsdb_count_all st1.lsdb = bgp_lsdb_count_all st.lsdb + 1) ∧
        st1.heap ls = some { r with lock := int_inc r.lock } ∧
        (r.lock < INT_MAX → st1.heap ls = some { r with lock := r.lock + 1 }) ∧
        (∀ t, t ≠ r.nlri_type → st1.lsdb.type t = st.lsdb.type t) ∧
        (∀ q, q ≠ ls → st1.heap q = st.heap q) ∧
        bgp_lsdb_add st1 ls = some st1) ∧
    (∀ st1, bgp_lsdb_add st ls = some st1 → bgp_lsdb_add st1 ls = some st1) := by
  have ht := ((lsdb_db_eq_some _ _ _).1 hdb).1
  have hidem : ∀ st1, bgp_lsdb_add st ls = some st1 → bgp_lsdb_add st1 ls = some st1 := by
    intro st1 h
    obtain ⟨r1, table1, h1, h2, h3⟩ := bgp_lsdb_add_stores st st1 ls h
    exact bgp_lsdb_add_of_stored st1 ls r1 table1 h1 h2 h3
  refine ⟨fun hi => bgp_lsdb_add_of_stored st ls r table hr hdb hi, fun hi => ?_, hidem⟩
  have hadd := bgp_lsdb_add_of_absent st ls r table hr hdb hi
  refine ⟨_, hadd, ?_, rfl, ?_, ?_, heap_set_self _ _ _, ?_, ?_, ?_, hidem _ hadd⟩
  · simp [bgp_lsdb_count, lsdb_put, ht]
  · intro hc
    simp [bgp_lsdb_count, lsdb_put, ht, ulong_inc_lt _ hc]
  · intro hc
    exact ulong_inc_lt _ hc
  · intro hl
    simp only [heap_set_self, int_inc_lt _ hl]
  · intro t h
    simp [lsdb_put, h]
  · intro q h
    exact heap_set_other _ _ _ _ h

/-- C29, witness: a fresh Link record (type 2, key 7, reference count 0) at address 1 and the
empty database with tables.  The first call stores the record with count, total and reference
count 1, and the second call returns the same state; on the state that holds the record the
call changes nothing. -/
theorem lsdb_add_idempotent_witness :
    (∃ st1, bgp_lsdb_add ⟨lsdb_with_tables, heap_of [(1, ⟨2, 7, 0⟩)]⟩ 1 = some st1 ∧
      bgp_lsdb_count st1.lsdb 2 = some 1 ∧ bgp_lsdb_count_all st1.lsdb = 1 ∧
      st1.heap 1 = some ⟨2, 7, 1⟩ ∧ bgp_lsdb_add st1 1 = some st1) ∧
    bgp_lsdb_add ⟨lsdb_put lsdb_with_tables 2 1 [(7, 1)] 1, heap_of [(1, ⟨2, 7, 1⟩)]⟩ 1 =
      some ⟨lsdb_put lsdb_with_tables 2 1 [(7, 1)] 1, heap_of [(1, ⟨2, 7, 1⟩)]⟩ := by
  obtain ⟨st1, h1, _, _, h4, h5, _, h7, _, _, h10⟩ :=
    (lsdb_add_idempotent ⟨lsdb_with_tables, heap_of [(1, ⟨2, 7, 0⟩)]⟩ 1 ⟨2, 7, 0⟩ [] rfl
      rfl).2.1 rfl
  exact ⟨⟨st1, h1, h4 (by decide), h5 (by decide), h7 (by decide), h10⟩,
    (lsdb_add_idempotent ⟨lsdb_put lsdb_with_tables 2 1 [(7, 1)] 1,
      heap_of [(1, ⟨2, 7, 1⟩)]⟩ 1 ⟨2, 7, 1⟩ [(7, 1)] rfl rfl).1 rfl⟩

/-! ### C30 -/

/-- C30: start from an empty database (every cell of the array has count 0 and no table or an
empty one, the total is 0) and from records of the four NLRI types, and let the calls
`bgp_lsdb_add` on the records listed in `ls` have returned.  Whenever `bgp_lsdb_delete_all`
then returns, no table of the array holds a record, the count of every cell and the total are
0, and `bgp_lsdb_isempty` returns true.  It does return when the cells 1, 2 and 3 have tables
and the `lock` of each record is at least 0 at the start and no `lock++` of the calls can
overflow. -/
theorem lsdb_delete_all_leaves_empty (st0 st : lsdb_state) (ls : List Nat)
    (hcells : ∀ t, t < BGP_LS_MAX_NLRI_TYPE → (st0.lsdb.type t).count = 0 ∧
      ((st0.lsdb.type t).db = none ∨ (st0.lsdb.type t).db = some []))
    (htotal : st0.lsdb.total = 0)
    (htypes : ∀ p r, st0.heap p = some r →
      BGP_LS_MIN_NLRI_TYPE ≤ r.nlri_type ∧ r.nlri_type ≤ BGP_LS_MAX_NLRI_TYPE)
    (hrun : lsdb_run (ls.map lsdb_op.add) st0 = some st) :
    (∀ st1, bgp_lsdb_delete_all st = some st1 →
      (∀ t table, lsdb_db st1.lsdb t = some table → table = []) ∧
      (∀ t, t < BGP_LS_MAX_NLRI_TYPE → bgp_lsdb_count st1.lsdb t = some 0) ∧
      bgp_lsdb_count_all st1.lsdb = 0 ∧ bgp_lsdb_isempty st1.lsdb = true) ∧
    ((∀ p r, st0.heap p = some r → 0 ≤ r.lock ∧ r.lock + ls.length ≤ INT_MAX) →
      (∀ t, t ∈ [1, 2, 3] → (st0.lsdb.type t).db = some []) →
      ∃ st1, bgp_lsdb_delete_all st = some st1) := by
  have hempty : ∀ t table, lsdb_db st0.lsdb t = some table → table = [] := by
    intro t table hdb
    obtain ⟨ht, h1⟩ := (lsdb_db_eq_some _ _ _).1 hdb
    rcases (hcells t ht).2 with h2 | h2
    · rw [h2] at h1; exact absurd h1 (by simp)
    · rw [h2] at h1; exact (Option.some.inj h1).symm
  have hidx : lsdb_index_ok st0.lsdb := by
    refine ⟨fun t table hdb => ?_, fun t ht => ⟨fun _ => (hcells t ht).1, fun table h1 => ?_⟩⟩
    · rw [hempty t table hdb]; exact List.nodup_nil
    · rw [hempty t table ((lsdb_db_eq_some _ _ _).2 ⟨ht, h1⟩), (hcells t ht).1]; rfl
  have hcnt : lsdb_counts_ok st0.lsdb := by
    refine ⟨by rw [htotal]; exact Nat.zero_le _,
      fun t ht => by rw [(hcells t ht).1]; exact Nat.zero_le _, ?_⟩
    rw [lsdb_count_sum_eq, (hcells 0 (by decide)).1, (hcells 1 (by decide)).1,
      (hcells 2 (by decide)).1, (hcells 3 (by decide)).1, htotal]
    decide
  obtain ⟨a1, a2, a3, a4⟩ := lsdb_adds_keep_index ls st0 st hidx hcnt
    (fun p r hr => (htypes p r hr).1) hrun
  refine ⟨fun st1 h1 => ?_, fun hlock htab => ?_⟩
  · obtain ⟨b1, b2, b3, _⟩ := bgp_lsdb_delete_all_result st st1 a1 a2 h1
    have c0 : (st1.lsdb.type 0).count = 0 := by rw [b2, a3]; exact (hcells 0 (by decide)).1
    have ht0 : st1.lsdb.total = 0 := by rw [b3, a3]; exact (hcells 0 (by decide)).1
    refine ⟨fun t table hdb => ?_, fun t ht => ?_, ht0, by simp [bgp_lsdb_isempty, ht0]⟩
    · obtain ⟨ht, h2⟩ := (lsdb_db_eq_some _ _ _).1 hdb
      simp only [BGP_LS_MAX_NLRI_TYPE] at ht
      have h4 : t = 0 ∨ t = 1 ∨ t = 2 ∨ t = 3 := by omega
      rcases h4 with rfl | rfl | rfl | rfl
      · rw [b2, a3] at h2
        exact hempty 0 table ((lsdb_db_eq_some _ _ _).2 ⟨by decide, h2⟩)
      · have := (b1 1 (by decide)).1
        rw [hdb] at this; exact Option.some.inj this
      · have := (b1 2 (by decide)).1
        rw [hdb] at this; exact Option.some.inj this
      · have := (b1 3 (by decide)).1
        rw [hdb] at this; exact Option.some.inj this
    · have ht1 := ht
      simp only [BGP_LS_MAX_NLRI_TYPE] at ht
      have h4 : t = 0 ∨ t = 1 ∨ t = 2 ∨ t = 3 := by omega
      simp only [bgp_lsdb_count, ht1, if_true, Option.some.injEq]
      rcases h4 with rfl | rfl | rfl | rfl
      · exact c0
      · exact (b1 1 (by decide)).2
      · exact (b1 2 (by decide)).2
      · exact (b1 3 (by decide)).2
  · have h0 : lsdb_refs_ok st0 := by
      refine ⟨?_, ?_, fun p r hr => (hlock p r hr).1⟩
      · intro t table hdb
        rw [hempty t table hdb]; exact List.nodup_nil
      · intro t table k p hdb hi
        rw [hempty t table hdb] at hi
        simp [route_info] at hi
    have hle : lsdb_locks_le st0.heap (INT_MAX - ls.length) := by
      intro p r hr
      have := (hlock p r hr).2
      omega
    obtain ⟨hrefs, _⟩ := lsdb_refs_ok_run (ls.map lsdb_op.add) st0 st _ h0 hle
      (by rw [List.length_map]; omega) hrun
    exact bgp_lsdb_delete_all_returns st hrefs
      (a4 1 (by rw [htab 1 (by decide)]; simp)) (a4 2 (by rw [htab 2 (by decide)]; simp))
      (a4 3 (by rw [htab 3 (by decide)]; simp))

/-- C30, witness: the empty database with tables and one record of each of the types 1, 2 and
3; after the three calls of `bgp_lsdb_add` the total is 3, and `bgp_lsdb_delete_all` returns
with every table empty, every count and the total 0 and `bgp_lsdb_isempty` true. -/
theorem lsdb_delete_all_leaves_empty_witness :
    ∃ st st1,
      lsdb_run ([1, 2, 3].map lsdb_op.add)
        ⟨lsdb_with_tables, heap_of [(1, ⟨1, 7, 0⟩), (2, ⟨2, 7, 0⟩), (3, ⟨3, 7, 0⟩)]⟩ = some st ∧
      bgp_lsdb_count_all st.lsdb = 3 ∧
      bgp_lsdb_delete_all st = some st1 ∧
      (∀ t table, lsdb_db st1.lsdb t = some table → table = []) ∧
      (∀ t, t < BGP_LS_MAX_NLRI_TYPE → bgp_lsdb_count st1.lsdb t = some 0) ∧
      bgp_lsdb_count_all st1.lsdb = 0 ∧ bgp_lsdb_isempty st1.lsdb = true := by
  cases hrun : lsdb_run ([1, 2, 3].map lsdb_op.add)
      ⟨lsdb_with_tables, heap_of [(1, ⟨1, 7, 0⟩), (2, ⟨2, 7, 0⟩), (3, ⟨3, 7, 0⟩)]⟩ with
  | none =>
    have h : (lsdb_run ([1, 2, 3].map lsdb_op.add)
      ⟨lsdb_with_tables, heap_of [(1, ⟨1, 7, 0⟩), (2, ⟨2, 7, 0⟩), (3, ⟨3, 7, 0⟩)]⟩).isSome =
        true := by rfl
    rw [hrun] at h
    exact absurd h (by decide)
  | some st =>
    have htot : (lsdb_run ([1, 2, 3].map lsdb_op.add)
      ⟨lsdb_with_tables, heap_of [(1, ⟨1, 7, 0⟩), (2, ⟨2, 7, 0⟩), (3, ⟨3, 7, 0⟩)]⟩).map
        (fun s => bgp_lsdb_count_all s.lsdb) = some 3 := by rfl
    rw [hrun] at htot
    have hmem : ∀ p r, heap_of [(1, ⟨1, 7, 0⟩), (2, ⟨2, 7, 0⟩), (3, ⟨3, 7, 0⟩)] p = some r →
        r = ⟨1, 7, 0⟩ ∨ r = ⟨2, 7, 0⟩ ∨ r = ⟨3, 7, 0⟩ := by
      intro p r hr
      have hm := heap_of_mem _ p r hr
      simp only [List.mem_cons, List.mem_singleton, List.not_mem_nil, or_false,
        Prod.mk.injEq] at hm
      rcases hm with ⟨_, rfl⟩ | ⟨_, rfl⟩ | ⟨_, rfl⟩ <;> simp
    obtain ⟨h1, h2⟩ := lsdb_delete_all_leaves_empty
      ⟨lsdb_with_tables, heap_of [(1, ⟨1, 7, 0⟩), (2, ⟨2, 7, 0⟩), (3, ⟨3, 7, 0⟩)]⟩ st [1, 2, 3]
      (fun t _ => ⟨rfl, Or.inr rfl⟩) rfl
      (fun p r hr => by rcases hmem p r hr with rfl | rfl | rfl <;> decide) hrun
    obtain ⟨st1, h3⟩ := h2
      (fun p r hr => by rcases hmem p r hr with rfl | rfl | rfl <;> decide)
      (fun t _ => rfl)
    obtain ⟨h4, h5, h6, h7⟩ := h1 st1 h3
    exact ⟨st, st1, rfl, Option.some.inj htot, h3, h4, h5, h6, h7⟩

end BgpLs
